import Mathlib

/-! Kubeturbo: retry primitive, pod-move action executor, API discovery, kubelet monitor
and general builder.

A shallow embedding of
* `pkg/util/common_util.go` (`RetryDuring`, `RetrySimple`, `CompareVersion`,
  `GetServiceAccountForSCC`),
* `pkg/action/executor/rescheduler.go` (`ReScheduler.getNode`, `preActionCheck`,
  `reSchedule`, `Execute`, `getVMIps`, `SetBasicMetaFields`),
* `pkg/action/executor/action_executor.go` (the executor input/output records),
* `cmd/kubeturbo/app/kubeturbo_builder.go` (`discoverk8sAPIResourceGV`,
  `latestComparedVersion`, `checkFlag`, `Run`, the loop of `manageSCCs`,
  `createSCCServiceAccount`, `userFullName`, `addUserToSCC`, `removeUserFromSCC`),
* `pkg/discovery/monitoring/kubelet/kubelet_monitor.go` (`scrapeKubelet`, the `parse*` and
  `gen*` methods, `Stop`, `RetrieveResourceStat`),
* the general builder of `pkg/discovery/dtofactory`, modelled from the specification
  (only its tests are among the sources),

followed by the properties established about them.

Conventions.
* A Go `error` is an `Option String`: `none` is `nil`, `some msg` carries the message.
* A Go closure with side effects is a state transformer `σ → result × σ`.
* A Go call that may panic returns a `GoResult`.
* Mutating calls issued to the cluster are collected in an effect trace.
* A `float64` is a rational number; a Go `int` is an integer, wrapped to 64 bits where
  the arithmetic can overflow.
-/

namespace Kubeturbo

/-! ## Go runtime conventions -/

/-- A Go `error` value: `none` is `nil`. -/
abbrev GoError := Option String

/-- Outcome of a Go call: it returns a value or panics. -/
inductive GoResult (α : Type) where
  | ret (a : α)
  | panic (msg : String)
  deriving DecidableEq

/-! ## pkg/util/common_util.go: RetryDuring -/

/-- What a run of the retry loop leaves behind: the returned error, how many times
`myfunc` was invoked, how many times `time.Sleep` was called, and the final state of
the closure. -/
structure RetryRun (σ : Type) where
  err : GoError
  calls : Nat
  sleeps : Nat
  state : σ

/-- The `for i := 0; ; i++` loop of `RetryDuring`.

`elapsed i` is the duration `time.Now().Sub(t0)` observed in iteration `i`, `fmtDur`
renders a `time.Duration` under `%v`. The first argument is the fuel of the loop
(`none` when it runs out), then the loop counter `i`, the invocations and the sleeps
so far, and the state of the closure. -/
def retryDuringLoop {σ : Type} (attempts timeout sleep : Int) (elapsed : Nat → Int)
    (fmtDur : Int → String) (myfunc : σ → GoError × σ) :
    Nat → Nat → Nat → Nat → σ → Option (RetryRun σ)
  | 0, _, _, _, _ => none
  | fuel + 1, i, calls, sleeps, s =>
    match myfunc s with
    | (none, s1) => some ⟨none, calls + 1, sleeps, s1⟩
    | (some e, s1) =>
      if (i : Int) ≥ attempts - 1 then
        some ⟨some ("failed after " ++ toString attempts ++ " attepmts, last error: " ++ e),
          calls + 1, sleeps, s1⟩
      else if timeout > 0 ∧ elapsed i > timeout then
        some ⟨some ("failed after " ++ toString ((i : Int) + 1) ++ " attepmts (during "
          ++ fmtDur (elapsed i) ++ ") last error: " ++ e), calls + 1, sleeps, s1⟩
      else
        retryDuringLoop attempts timeout sleep elapsed fmtDur myfunc fuel (i + 1) (calls + 1)
          (if sleep > 0 then sleeps + 1 else sleeps) s1

/-- Function `RetryDuring(attempts, timeout, sleep, myfunc)`: the loop started at `i = 0` with
fuel `max(attempts - 1, 0) + 1`, the largest number of iterations the `break` allows. -/
def RetryDuring {σ : Type} (attempts timeout sleep : Int) (elapsed : Nat → Int)
    (fmtDur : Int → String) (myfunc : σ → GoError × σ) (s : σ) : Option (RetryRun σ) :=
  retryDuringLoop attempts timeout sleep elapsed fmtDur myfunc ((attempts - 1).toNat + 1) 0 0 0 s

/-- The result and the state after the `k`-th further invocation (0-based) of a
stateful closure started in state `s`. -/
def nthCall {σ : Type} (myfunc : σ → GoError × σ) (s : σ) : Nat → GoError × σ
  | 0 => myfunc s
  | k + 1 => nthCall myfunc (myfunc s).2 k

/-- A closure that fails on its first `k` invocations and succeeds afterwards; its
state counts the invocations made. -/
def failsFirst (k : Nat) (c : Nat) : GoError × Nat :=
  (if c < k then some "boom" else none, c + 1)

/-! ## pkg/util/common_util.go: RetrySimple -/

/-- The `for i := 0; ; i++` loop of `RetrySimple`. The closure answers whether to retry
and an error; the error returned is that of the last invocation, as it is. The arguments
are those of `retryDuringLoop`. -/
def retrySimpleLoop {σ : Type} (attempts timeout sleep : Int) (elapsed : Nat → Int)
    (myfunc : σ → (Bool × GoError) × σ) :
    Nat → Nat → Nat → Nat → σ → Option (RetryRun σ)
  | 0, _, _, _, _ => none
  | fuel + 1, i, calls, sleeps, s =>
    match myfunc s with
    | ((false, err), s1) => some ⟨err, calls + 1, sleeps, s1⟩
    | ((true, err), s1) =>
      if (i : Int) ≥ attempts - 1 then some ⟨err, calls + 1, sleeps, s1⟩
      else if timeout > 0 ∧ elapsed i > timeout then some ⟨err, calls + 1, sleeps, s1⟩
      else
        retrySimpleLoop attempts timeout sleep elapsed myfunc fuel (i + 1) (calls + 1)
          (if sleep > 0 then sleeps + 1 else sleeps) s1

/-- Function `RetrySimple(attempts, timeout, sleep, myfunc)`: the loop started at `i = 0`
with fuel `max(attempts - 1, 0) + 1`, the largest number of iterations the `break` allows. -/
def RetrySimple {σ : Type} (attempts timeout sleep : Int) (elapsed : Nat → Int)
    (myfunc : σ → (Bool × GoError) × σ) (s : σ) : Option (RetryRun σ) :=
  retrySimpleLoop attempts timeout sleep elapsed myfunc ((attempts - 1).toNat + 1) 0 0 0 s

/-- The answer and the state after the `k`-th further invocation (0-based) of a
stateful closure of `RetrySimple` started in state `s`. -/
def nthTry {σ : Type} (myfunc : σ → (Bool × GoError) × σ) (s : σ) :
    Nat → (Bool × GoError) × σ
  | 0 => myfunc s
  | k + 1 => nthTry myfunc (myfunc s).2 k

/-- A closure that asks for a retry on its first `k` invocations, with the error `boom`
on the even ones and a nil error on the odd ones, and then stops with the error `done`;
its state counts the invocations made. -/
def retriesFirst (k : Nat) (c : Nat) : (Bool × GoError) × Nat :=
  (if c < k then (true, if c % 2 = 0 then some "boom" else none) else (false, some "done"),
    c + 1)

/-! ## Untyped payloads (k8s.io/apimachinery, `unstructured`)

These are the library operations the executor calls on `map[string]interface{}` values.
A Go map is an association list read at its first matching key; the nil map reads as
the empty one. -/

/-- A value of Go type `interface{}` produced by JSON decoding. -/
inductive JVal where
  | null
  | bool (b : Bool)
  | num (n : Int)
  | str (s : String)
  | arr (xs : List JVal)
  | obj (kvs : List (String × JVal))

/-- Go type `map[string]interface{}`. -/
abbrev JMap := List (String × JVal)

/-- Reading `m[k]`: the value and whether the key is present. -/
def mapGet (m : JMap) (k : String) : Option JVal :=
  List.lookup k m

/-- Assigning `m[k] = v`. -/
def mapSet : JMap → String → JVal → JMap
  | [], k, v => [(k, v)]
  | (k0, v0) :: rest, k, v => if k0 = k then (k, v) :: rest else (k0, v0) :: mapSet rest k v

/-- Deleting `m[k]`. -/
def mapDelete (m : JMap) (k : String) : JMap :=
  m.filter (fun kv => kv.1 ≠ k)

/-- Library function `unstructured.NestedFieldNoCopy`: walk the field path from `val`; the result is
`(value, found, err)`. -/
def NestedFieldNoCopy (val : JVal) : List String → JVal × Bool × GoError
  | [] => (val, true, none)
  | field :: rest =>
    match val with
    | .null => (.null, false, none)
    | .obj m =>
      match mapGet m field with
      | some v => NestedFieldNoCopy v rest
      | none => (.null, false, none)
    | _ => (.null, false, some "accessor error: expected map[string]interface\x7b\x7d")

/-- Library function `unstructured.NestedSlice`. -/
def NestedSlice (obj : JMap) (fields : List String) : List JVal × Bool × GoError :=
  match NestedFieldNoCopy (.obj obj) fields with
  | (val, true, none) =>
    match val with
    | .arr xs => (xs, true, none)
    | _ => ([], false, some "accessor error: expected []interface\x7b\x7d")
  | (_, found, err) => ([], found, err)

/-- Library function `unstructured.NestedString`. -/
def NestedString (obj : JMap) (fields : List String) : String × Bool × GoError :=
  match NestedFieldNoCopy (.obj obj) fields with
  | (val, true, none) =>
    match val with
    | .str s => (s, true, none)
    | _ => ("", false, some "accessor error: expected string")
  | (_, found, err) => ("", found, err)

/-- The unexported `setNestedFieldNoCopy`, on the non-empty field path `field :: rest`:
descend through existing maps, create the missing ones, fail on a non-map. -/
def setNestedFieldNoCopy (value : JVal) : JMap → String → List String → Except String JMap
  | m, field, [] => .ok (mapSet m field value)
  | m, field, next :: rest =>
    match mapGet m field with
    | some (.obj valMap) =>
      match setNestedFieldNoCopy value valMap next rest with
      | .ok sub => .ok (mapSet m field (.obj sub))
      | .error e => .error e
    | some _ => .error "value cannot be set because a field of the path is not a map[string]interface\x7b\x7d"
    | none =>
      match setNestedFieldNoCopy value [] next rest with
      | .ok sub => .ok (mapSet m field (.obj sub))
      | .error e => .error e

/-- Library function `unstructured.SetNestedField`; the deep copy of the value is the identity on `JVal`. -/
def SetNestedField (obj : JMap) (value : JVal) (field : String) (rest : List String) :
    Except String JMap :=
  setNestedFieldNoCopy value obj field rest

/-- Library function `unstructured.SetNestedMap`. -/
def SetNestedMap (obj : JMap) (value : JMap) (field : String) (rest : List String) :
    Except String JMap :=
  SetNestedField obj (.obj value) field rest

/-- Library function `unstructured.RemoveNestedField` on a path of two fields, the only use here. -/
def RemoveNestedField2 (obj : JMap) (f1 f2 : String) : JMap :=
  match mapGet obj f1 with
  | some (.obj sub) => mapSet obj f1 (.obj (mapDelete sub f2))
  | _ => obj

/-- Type `unstructured.Unstructured`. -/
structure Unstructured where
  Object : JMap

/-- The method `(*Unstructured).setNestedField`, which drops the error. -/
def Unstructured.setNestedField (u : Unstructured) (value : JVal) (field : String)
    (rest : List String) : Unstructured :=
  match SetNestedField u.Object value field rest with
  | .ok m => ⟨m⟩
  | .error _ => u

/-- The method `(*Unstructured).GetName`. -/
def Unstructured.GetName (u : Unstructured) : String :=
  match NestedString u.Object ["metadata", "name"] with
  | (val, true, none) => val
  | _ => ""

/-- The method `(*Unstructured).SetKind`. -/
def Unstructured.SetKind (u : Unstructured) (kind : String) : Unstructured :=
  u.setNestedField (.str kind) "kind" []

/-- The method `(*Unstructured).SetAPIVersion`. -/
def Unstructured.SetAPIVersion (u : Unstructured) (version : String) : Unstructured :=
  u.setNestedField (.str version) "apiVersion" []

/-- The method `(*Unstructured).SetName`. -/
def Unstructured.SetName (u : Unstructured) (name : String) : Unstructured :=
  if name.length = 0 then ⟨RemoveNestedField2 u.Object "metadata" "name"⟩
  else u.setNestedField (.str name) "metadata" ["name"]

/-- The method `(*Unstructured).SetNamespace`. -/
def Unstructured.SetNamespace (u : Unstructured) (ns : String) : Unstructured :=
  if ns.length = 0 then ⟨RemoveNestedField2 u.Object "metadata" "namespace"⟩
  else u.setNestedField (.str ns) "metadata" ["namespace"]

/-- Type `schema.GroupVersionResource`. -/
structure GroupVersionResource where
  Group : String
  Version : String
  Resource : String
  deriving DecidableEq

/-- The string `gvr.GroupVersion().String()`. -/
def GroupVersionResource.GroupVersionString (gvr : GroupVersionResource) : String :=
  if gvr.Group.length = 0 ∧ gvr.Version.length = 0 then ""
  else if gvr.Group.length = 0 ∧ gvr.Version = "v1" then gvr.Version
  else if gvr.Group.length > 0 then gvr.Group ++ "/" ++ gvr.Version
  else gvr.Version

/-- The digit characters of `strconv.FormatInt`. -/
def digitChar36 (d : Nat) : Char :=
  "0123456789abcdefghijklmnopqrstuvwxyz".toList.getD d '?'

/-- The digits of `n` in `base`, most significant first, prepended to `acc`. -/
def formatDigits (base : Nat) : Nat → Nat → List Char → List Char
  | 0, _, acc => acc
  | fuel + 1, n, acc =>
    if n < base then digitChar36 n :: acc
    else formatDigits base fuel (n / base) (digitChar36 (n % base) :: acc)

/-- Library function `strconv.FormatInt(i, base)` for a 64-bit `i` and `2 ≤ base ≤ 36`. -/
def FormatInt (i : Int) (base : Nat) : String :=
  (if i < 0 then "-" else "") ++ String.mk (formatDigits base 64 i.natAbs [])

/-! ## Cluster and market records -/

/-- Type `api.NodeCondition`, its `Type` and `Status` fields. -/
structure NodeCondition where
  CondType : String
  Status : String
  deriving DecidableEq

/-- Type `api.Node`: its name and `Status.Conditions` (`none` is the nil slice). The
zero value is the node with the empty name and no conditions. -/
structure Node where
  Name : String
  Conditions : Option (List NodeCondition)
  deriving DecidableEq

/-- Type `api.Pod`: the fields the executor reads, and the annotations and owner
references (kind, name) that the helpers outside this file decide on. -/
structure Pod where
  Name : String
  Namespace : String
  NodeName : String
  Phase : String
  Annotations : List (String × String)
  OwnerReferences : List (String × String)
  deriving DecidableEq

/-- Type `proto.EntityDTO_EntityType`: the two machine types and any other value,
given by the name its `String` method prints. -/
inductive EntityType where
  | VIRTUAL_MACHINE
  | PHYSICAL_MACHINE
  | other (name : String)
  deriving DecidableEq

/-- The `String` method of the entity type. -/
def EntityType.String : EntityType → String
  | .VIRTUAL_MACHINE => "VIRTUAL_MACHINE"
  | .PHYSICAL_MACHINE => "PHYSICAL_MACHINE"
  | .other name => name

/-- Type `proto.EntityDTO_EntityProperty`. -/
structure EntityProperty where
  Namespace : String
  Name : String
  Value : String
  deriving DecidableEq

/-- Type `proto.EntityDTO_VirtualMachineData`, its IP list. -/
structure VirtualMachineData where
  IpAddress : List String
  deriving DecidableEq

/-- Type `proto.EntityDTO`: the descriptor of a host the market sends. -/
structure EntityDTO where
  EntityType : EntityType
  Id : String
  DisplayName : String
  EntityProperties : List EntityProperty
  VirtualMachineData : Option VirtualMachineData
  deriving DecidableEq

/-- Type `proto.ActionItemDTO`: the new host entity of a move (`none` is nil). -/
structure ActionItemDTO where
  NewSE : Option EntityDTO
  deriving DecidableEq

/-- The getter `(*ActionItemDTO).GetNewSE`, which accepts the nil receiver. -/
def GetNewSE : Option ActionItemDTO → Option EntityDTO
  | none => none
  | some action => action.NewSE

/-! ## pkg/action/executor/action_executor.go -/

/-- Type `TurboActionExecutorInput`. -/
structure TurboActionExecutorInput where
  ActionItem : Option ActionItemDTO
  Pod : Pod

/-- Type `TurboActionExecutorOutput`; the literal with no field set is the zero value. -/
structure TurboActionExecutorOutput where
  Succeeded : Bool := false
  OldPod : Option Pod := none
  NewPod : Option Pod := none
  deriving DecidableEq

/-- What the helpers of `pkg/action/util` and `movePod` answer when handed the cluster
client. Their bodies are not part of the sources at hand, so each is a field here. A
node lookup that returns a nil error returns a node. -/
structure KubeClient where
  GetNodeFromProperties : List EntityProperty → Except String Node
  GetNodebyUUID : String → Except String Node
  GetNodebyName : String → Except String Node
  GetNodebyIP : List String → Except String Node
  movePod : Pod → String → Nat → Option Pod × GoError

/-- The calls made on the federation `dynamic.Interface`: `List` and `Create` on a
resource in a namespace, with the answer of the federation API server. -/
structure DynamicClient where
  list : GroupVersionResource → String → Except String (List Unstructured)
  create : GroupVersionResource → String → Unstructured → GoError

/-- Type `TurboK8sActionExecutor`, the fields the pod move reads. -/
structure TurboK8sActionExecutor where
  kubeClient : KubeClient
  kubefedDynClient : Option DynamicClient
  kubefedNamespace : String
  thisClusterName : String

/-- Type `ReScheduler`; the allow-set of SCC names is a list. -/
structure ReScheduler extends TurboK8sActionExecutor where
  sccAllowedSet : List String

/-- Package-level functions and constants the executor uses whose definitions are not
part of the sources at hand (`util.SupportPrivilegePod`, `util.BuildIdentifier`,
`podutil.GetPodParentInfo`, `util.SupportedParent`, `defaultRetryMore`), and the reading
of `time.Now().UnixNano()`. -/
structure Externals where
  SupportPrivilegePod : Pod → List String → Bool
  BuildIdentifier : String → String → String
  GetPodParentInfo : Pod → String × String × GoError
  SupportedParent : String → Bool
  defaultRetryMore : Nat
  nowUnixNano : Int

/-- A mutating call issued to a cluster. -/
inductive Effect where
  | fedCreate (res : GroupVersionResource) (ns : String) (obj : Unstructured)
  | movePod (pod : Pod) (nodeName : String) (retryNum : Nat)

/-- A line written through glog at error or warning level. -/
inductive LogLine where
  | error (msg : String)
  | warning (msg : String)
  deriving DecidableEq

/-! ## pkg/action/executor/rescheduler.go -/

/-- Outcome of one way of finding the node: a node (with the federated cluster that
published it, or the empty string), nothing, or a panic. -/
inductive Lookup where
  | hit (node : Node) (clusterName : String)
  | miss
  | panic (msg : String)

/-- The inner loop of the federation lookup of `getNode`, over the published node list
of one member cluster. Each type assertion panics on a value of another type. -/
def scanNodeList (nodeUid clusterName : String) : List JVal → Lookup
  | [] => .miss
  | entry :: rest =>
    match entry with
    | .obj node =>
      match mapGet node "uid" with
      | some (.str uid) =>
        if uid = nodeUid then
          match mapGet node "name" with
          | some (.str nodeName) => .hit { Name := nodeName, Conditions := none } clusterName
          | _ => .panic "interface conversion: interface is not string"
        else scanNodeList nodeUid clusterName rest
      | _ => .panic "interface conversion: interface is not string"
    | _ => .panic "interface conversion: interface is not map[string]interface"

/-- The outer loop of the federation lookup of `getNode`, over the member clusters. -/
def scanClusters (nodeUid : String) : List Unstructured → Lookup
  | [] => .miss
  | cluster :: rest =>
    let clusterName := cluster.GetName
    match NestedSlice cluster.Object ["status", "nodeList"] with
    | (_, _, some _) => scanClusters nodeUid rest
    | (_, false, none) => scanClusters nodeUid rest
    | (nodelist, true, none) =>
      match scanNodeList nodeUid clusterName nodelist with
      | .miss => scanClusters nodeUid rest
      | found => found

/-- The resource `core.kubefed.io/v1beta1 kubefedclusters`. -/
def kubefedclusters : GroupVersionResource :=
  { Group := "core.kubefed.io", Version := "v1beta1", Resource := "kubefedclusters" }

/-- The federation block of `getNode` (`if r.kubefedDynClient != nil`). -/
def federationLookup (r : ReScheduler) (nodeUid : String) : Lookup :=
  match r.kubefedDynClient with
  | none => .miss
  | some kfClient =>
    match kfClient.list kubefedclusters r.kubefedNamespace with
    | .ok items => scanClusters nodeUid items
    | .error _ => .miss

/-- Function `getVMIps`. -/
def getVMIps (entity : EntityDTO) : List String :=
  if entity.EntityType ≠ .VIRTUAL_MACHINE then []
  else
    match entity.VirtualMachineData with
    | none => []
    | some vmData => vmData.IpAddress

/-- Rendering of a `[]string` under `%+v`. -/
def fmtStrings (xs : List String) : String :=
  "[" ++ " ".intercalate xs ++ "]"

/-- Method `ReScheduler.getNode`: the node, the destination cluster, the error. -/
def getNode (r : ReScheduler) (action : Option ActionItemDTO) :
    GoResult (Option Node × String × GoError) :=
  match GetNewSE action with
  | none => .ret (none, "", some "New host entity is empty")
  | some hostSE =>
    let etype := hostSE.EntityType
    if etype ≠ .VIRTUAL_MACHINE ∧ etype ≠ .PHYSICAL_MACHINE then
      .ret (none, "", some ("The move destination [" ++ etype.String
        ++ "] is neither a VM nor a PM"))
    else
      match r.kubeClient.GetNodeFromProperties hostSE.EntityProperties with
      | .ok node => .ret (some node, "", none)
      | .error _ =>
        match r.kubeClient.GetNodebyUUID hostSE.Id with
        | .ok node => .ret (some node, "", none)
        | .error _ =>
          match federationLookup r hostSE.Id with
          | .hit typedNode clusterName => .ret (some typedNode, clusterName, none)
          | .panic msg => .panic msg
          | .miss =>
            match r.kubeClient.GetNodebyName hostSE.DisplayName with
            | .ok node => .ret (some node, "", none)
            | .error _ =>
              let vmIPs := getVMIps hostSE
              if vmIPs.length > 0 then
                match r.kubeClient.GetNodebyIP vmIPs with
                | .ok node => .ret (some node, "", none)
                | .error err => .ret (none, "", some ("Failed to get node "
                    ++ hostSE.DisplayName ++ " by IP " ++ fmtStrings vmIPs ++ ": " ++ err))
              else
                .ret (none, "", some ("Failed to get node " ++ hostSE.DisplayName
                  ++ ": IPs are empty"))

/-- Method `ReScheduler.getPodNode`. -/
def getPodNode (r : ReScheduler) (action : Option ActionItemDTO) :
    GoResult (Option Node × String × GoError) :=
  getNode r action

/-- Method `ReScheduler.preActionCheck`: the returned error and the lines logged. -/
def preActionCheck (r : ReScheduler) (u : Externals) (pod : Pod) (node : Node) :
    GoError × List LogLine :=
  let fullName := pod.Namespace ++ "/" ++ pod.Name
  if !u.SupportPrivilegePod pod r.sccAllowedSet then
    let err := "Pod " ++ fullName ++ " has unsupported SCC"
    (some err, [.error (err ++ ".")])
  else
    let phaseLog : List LogLine :=
      if pod.Phase = "Succeeded" then
        [.error ("Move action should be aborted: original pod termiated:" ++ fullName
          ++ " phase:" ++ pod.Phase)]
      else []
    let unknown : LogLine :=
      .warning ("Move action: pod[" ++ fullName ++ "]'s new host(" ++ node.Name
        ++ ") condition is unknown")
    match node.Conditions with
    | none => (none, phaseLog ++ [unknown])
    | some conditions =>
      if conditions.length < 1 then (none, phaseLog ++ [unknown])
      else
        (none, phaseLog ++ (conditions.filter (fun cond => cond.Status ≠ "True")).map
          (fun cond => .warning ("Move action: pod[" ++ fullName ++ "]'s new host("
            ++ node.Name ++ ") in bad condition: " ++ cond.CondType)))

/-- Method `ReScheduler.reSchedule`: the returned pod and error, and the calls of the
pod mover it made. -/
def reSchedule (r : ReScheduler) (u : Externals) (pod : Pod) (node : Node) :
    (Option Pod × GoError) × List Effect :=
  match (preActionCheck r u pod node).1 with
  | some err => ((none, some err), [])
  | none =>
    let nodeName := node.Name
    let fullName := u.BuildIdentifier pod.Namespace pod.Name
    if pod.NodeName = nodeName then
      ((none, some ("Pod [" ++ fullName ++ "] is already on host [" ++ nodeName ++ "]")), [])
    else
      match u.GetPodParentInfo pod with
      | (_, _, some err) =>
        ((none, some ("Cannot get parent info of pod [" ++ fullName ++ "]: " ++ err)), [])
      | (parentKind, parentName, none) =>
        if !u.SupportedParent parentKind then
          ((none, some ("The object kind [" ++ parentKind ++ "] of [" ++ parentName
            ++ "] is not supported")), [])
        else
          (r.kubeClient.movePod pod nodeName u.defaultRetryMore,
            [.movePod pod nodeName u.defaultRetryMore])

/-- Function `SetBasicMetaFields`. -/
def SetBasicMetaFields (resource : Unstructured) (gvr : GroupVersionResource)
    (kind name ns : String) : Unstructured :=
  (((resource.SetKind kind).SetAPIVersion gvr.GroupVersionString).SetName name).SetNamespace ns

/-- The resource `turbo.kubefed.io/v1alpha1 actions`. -/
def actionsResource : GroupVersionResource :=
  { Group := "turbo.kubefed.io", Version := "v1alpha1", Resource := "actions" }

/-- The `targetRef` map built by `Execute`. -/
def targetRefOf (pod : Pod) : JMap :=
  mapSet (mapSet (mapSet [] "kind" (.str "pod")) "name" (.str pod.Name))
    "namespace" (.str pod.Namespace)

/-- The `clusters` map built by `Execute`. -/
def clustersOf (source destination : String) : JMap :=
  mapSet (mapSet [] "source" (.str source)) "destination" (.str destination)

/-- What a run of `Execute` leaves behind: what it returned and the mutating calls it
issued, in order. -/
structure ExecRun where
  result : GoResult (TurboActionExecutorOutput × GoError)
  effects : List Effect

/-- Method `ReScheduler.Execute`. A nil node returned with a nil error would be
dereferenced on either path; `getNode` never returns one. -/
def Execute (r : ReScheduler) (u : Externals) (input : TurboActionExecutorInput) : ExecRun :=
  let actionItem := input.ActionItem
  let pod := input.Pod
  match getPodNode r actionItem with
  | .panic msg => ⟨.panic msg, []⟩
  | .ret (_, _, some err) => ⟨.ret ({}, some err), []⟩
  | .ret (none, _, none) => ⟨.panic "invalid memory address or nil pointer dereference", []⟩
  | .ret (some node, dstCluster, none) =>
    if dstCluster ≠ "" then
      match r.kubefedDynClient with
      | none => ⟨.ret ({}, some "Got multi-cluster action but Kubefed client is null"), []⟩
      | some kubefedDynClient =>
        let res := actionsResource
        let action : Unstructured := ⟨[]⟩
        let name := "kubeturbo-action-" ++ FormatInt u.nowUnixNano 32
        let action := SetBasicMetaFields action res "Action" name r.kubefedNamespace
        match SetNestedMap action.Object (targetRefOf pod) "spec" ["targetRef"] with
        | .error err => ⟨.ret ({}, some err), []⟩
        | .ok obj1 =>
          match SetNestedMap obj1 (clustersOf r.thisClusterName dstCluster)
              "spec" ["clusters"] with
          | .error err => ⟨.ret ({}, some err), []⟩
          | .ok obj2 =>
            match SetNestedField obj2 (.str node.Name) "spec" ["targetNode"] with
            | .error err => ⟨.ret ({}, some err), []⟩
            | .ok obj3 =>
              ⟨.ret ({}, kubefedDynClient.create res r.kubefedNamespace ⟨obj3⟩),
                [.fedCreate res r.kubefedNamespace ⟨obj3⟩]⟩
    else
      match reSchedule r u pod node with
      | ((_, some err), effects) => ⟨.ret ({}, some err), effects⟩
      | ((npod, none), effects) =>
        ⟨.ret ({ Succeeded := true, OldPod := some pod, NewPod := npod }, none), effects⟩

/-! ## Library functions used by the API discovery

Functions `schema.ParseGroupVersion`, `strings.Compare`, `strconv.Atoi` and
`version.CompareKubeAwareVersionStrings` of the Go and Kubernetes libraries. -/

/-- Type `schema.GroupVersion`. -/
structure GroupVersion where
  Group : String
  Version : String
  deriving DecidableEq

/-- Library function `schema.ParseGroupVersion`. -/
def ParseGroupVersion (gv : String) : Except String GroupVersion :=
  if gv.length = 0 ∨ gv = "/" then .ok { Group := "", Version := "" }
  else
    match gv.data.count '/' with
    | 0 => .ok { Group := "", Version := gv }
    | 1 => .ok { Group := String.mk (gv.data.takeWhile (fun c => c ≠ '/')),
                 Version := String.mk ((gv.data.dropWhile (fun c => c ≠ '/')).drop 1) }
    | _ => .error ("unexpected GroupVersion string: " ++ gv)

/-- Library function `strings.Compare`, on the characters of the two strings. -/
def compareChars : List Char → List Char → Int
  | [], [] => 0
  | [], _ :: _ => -1
  | _ :: _, [] => 1
  | a :: as, b :: bs => if a < b then -1 else if b < a then 1 else compareChars as bs

/-- Library function `strings.Compare`. -/
def stringsCompare (a b : String) : Int :=
  compareChars a.data b.data

/-- The value of a string of decimal digits. -/
def digitsValue (ds : List Char) : Nat :=
  ds.foldl (fun acc c => 10 * acc + (c.toNat - '0'.toNat)) 0

/-- Library function `strconv.Atoi` on a non-empty string of decimal digits: the value,
or nothing when it exceeds the 64-bit range. -/
def atoiDigits (ds : List Char) : Option Int :=
  if digitsValue ds < 2 ^ 63 then some (digitsValue ds) else none

/-- The unexported `parseKubeVersion`: the match of `^v([\d]+)(?:(alpha|beta)([\d]+))?$`
as (major, type, minor) with alpha = 0, beta = 1 and GA = 2, or nothing. -/
def parseKubeVersion (v : String) : Option (Int × Int × Int) :=
  match v.data with
  | 'v' :: rest =>
    let major := rest.takeWhile Char.isDigit
    let tail := rest.dropWhile Char.isDigit
    if major = [] then none
    else
      match tail with
      | [] => (atoiDigits major).map (fun m => (m, 2, 0))
      | 'a' :: 'l' :: 'p' :: 'h' :: 'a' :: minor =>
        if minor ≠ [] ∧ minor.all Char.isDigit then
          match atoiDigits major, atoiDigits minor with
          | some m, some n => some (m, 0, n)
          | _, _ => none
        else none
      | 'b' :: 'e' :: 't' :: 'a' :: minor =>
        if minor ≠ [] ∧ minor.all Char.isDigit then
          match atoiDigits major, atoiDigits minor with
          | some m, some n => some (m, 1, n)
          | _, _ => none
        else none
      | _ => none
  | _ => none

/-- Library function `version.CompareKubeAwareVersionStrings`. -/
def CompareKubeAwareVersionStrings (v1 v2 : String) : Int :=
  if v1 = v2 then 0
  else
    match parseKubeVersion v1, parseKubeVersion v2 with
    | none, none => stringsCompare v2 v1
    | none, some _ => -1
    | some _, none => 1
    | some (v1major, v1type, v1minor), some (v2major, v2type, v2minor) =>
      if v1type ≠ v2type then v1type - v2type
      else if v1major ≠ v2major then v1major - v2major
      else v1minor - v2minor

/-! ## cmd/kubeturbo/app/kubeturbo_builder.go: API discovery -/

/-- Type `metav1.APIResource`, its name. -/
structure APIResource where
  Name : String
  deriving DecidableEq

/-- Type `metav1.APIResourceList`. -/
structure APIResourceList where
  GroupVersion : String
  APIResources : List APIResource
  deriving DecidableEq

/-- Variable `util.K8sAPIDeploymentReplicasetDefaultGV`. -/
def K8sAPIDeploymentReplicasetDefaultGV : GroupVersion :=
  { Group := "apps", Version := "v1" }

/-- Function `latestComparedVersion`. -/
def latestComparedVersion (newVersion existingVersion : String) : String :=
  if existingVersion ≠ "" ∧ CompareKubeAwareVersionStrings newVersion existingVersion ≤ 0 then
    existingVersion
  else newVersion

/-- The inner loop of `discoverk8sAPIResourceGV`: whether the list names the resource. -/
def listHasResource (resourceName : String) (l : APIResourceList) : Bool :=
  l.APIResources.any (fun apiResource => apiResource.Name = resourceName)

/-- The outer loop of `discoverk8sAPIResourceGV`, carrying the latest `extensions` and
`apps` versions seen; a parse error ends it. -/
def discoverLoop (resourceName : String) :
    List APIResourceList → String → String → Except String (String × String)
  | [], latestExtensions, latestApps => .ok (latestExtensions, latestApps)
  | apiResourceList :: rest, latestExtensions, latestApps =>
    if apiResourceList.APIResources.length = 0 then
      discoverLoop resourceName rest latestExtensions latestApps
    else if listHasResource resourceName apiResourceList = false then
      discoverLoop resourceName rest latestExtensions latestApps
    else
      match ParseGroupVersion apiResourceList.GroupVersion with
      | .error err => .error ("error parsing GroupVersion: " ++ err)
      | .ok gv =>
        if gv.Group = "extensions" then
          discoverLoop resourceName rest (latestComparedVersion gv.Version latestExtensions)
            latestApps
        else if gv.Group = "apps" then
          discoverLoop resourceName rest latestExtensions
            (latestComparedVersion gv.Version latestApps)
        else discoverLoop resourceName rest latestExtensions latestApps

/-- Function `discoverk8sAPIResourceGV`, given what `client.ServerPreferredResources()`
returned: the lists (`none` is nil) and the error. -/
def discoverk8sAPIResourceGV (apiResourceLists : Option (List APIResourceList))
    (err : GoError) (resourceName : String) : GroupVersion × GoError :=
  let defaultGV := K8sAPIDeploymentReplicasetDefaultGV
  match apiResourceLists with
  | none => (defaultGV, err)
  | some lists =>
    match discoverLoop resourceName lists "" "" with
    | .error e => (defaultGV, some e)
    | .ok (latestExtensions, latestApps) =>
      if latestApps ≠ "" then ({ Group := "apps", Version := latestApps }, none)
      else if latestExtensions ≠ "" then
        ({ Group := "extensions", Version := latestExtensions }, none)
      else (defaultGV, none)

/-- The versions that the lists naming the resource advertise for a group, in the order
of the lists. -/
def advertisedVersions (resourceName group : String) (lists : List APIResourceList) :
    List String :=
  lists.filterMap (fun l =>
    if listHasResource resourceName l then
      match ParseGroupVersion l.GroupVersion with
      | .ok gv => if gv.Group = group then some gv.Version else none
      | .error _ => none
    else none)

/-- The version kept after `latestComparedVersion` has been applied to each version of
a list in turn, starting from `existing`. -/
def latestOf (existing : String) (versions : List String) : String :=
  versions.foldl (fun acc v => latestComparedVersion v acc) existing

/-- At least one list whose group/version parses into the group names the resource. -/
def groupAdvertises (resourceName group : String) (lists : List APIResourceList) : Prop :=
  ∃ l ∈ lists, listHasResource resourceName l = true
    ∧ ∃ gv, ParseGroupVersion l.GroupVersion = .ok gv ∧ gv.Group = group

/-- A list naming one resource under a group/version. -/
def advertise (groupVersion resourceName : String) : APIResourceList :=
  { GroupVersion := groupVersion, APIResources := [{ Name := resourceName }] }

/-- A server that advertises deployments under four versions of `apps`. -/
def sampleAppsLists : List APIResourceList :=
  [ advertise "apps/v1beta2" "deployments", advertise "apps/v1" "deployments",
    advertise "apps/v1beta1" "deployments", advertise "apps/v2alpha1" "deployments" ]

/-! ## Metrics (pkg/discovery/metrics)

The metric records and the sink that the kubelet monitor writes to. The package is not
part of the sources at hand; values of Go type `float64` are rationals here. -/

/-- Type `metrics.DiscoveredEntityType`, the entity types used here. -/
inductive DiscoveredEntityType where
  | NodeType
  | PodType
  | ContainerType
  | ApplicationType
  deriving DecidableEq

/-- Type `metrics.ResourceType`: the named resource types and, for a string literal used
as a resource type, that string. -/
inductive ResourceType where
  | CPU
  | CPUMili
  | Memory
  | CPURequest
  | MemoryRequest
  | VCPUThrottling
  | VStorage
  | NumPods
  | CpuFrequency
  | literal (name : String)
  deriving DecidableEq

/-- Type `metrics.MetricProp`. -/
inductive MetricProp where
  | Used
  | Capacity
  deriving DecidableEq

/-- Type `metrics.Point`. -/
structure Point where
  Value : ℚ
  Timestamp : Int
  deriving DecidableEq

/-- Type `metrics.ThrottlingCumulative`. -/
structure ThrottlingCumulative where
  Throttled : ℚ
  Total : ℚ
  Timestamp : Int
  deriving DecidableEq

/-- The value handed to a metric constructor as `interface{}`: a `float64`, an untyped
integer constant, a slice of points or a slice of cumulative throttling samples. -/
inductive MetricData where
  | float (v : ℚ)
  | int (n : Int)
  | points (ps : List Point)
  | throttling (ts : List ThrottlingCumulative)
  deriving DecidableEq

/-- A metric entry, as built by `metrics.NewEntityResourceMetric` and by
`metrics.NewEntityStateMetric`. -/
inductive Metric where
  | resource (etype : DiscoveredEntityType) (id : String) (rtype : ResourceType)
      (prop : MetricProp) (value : MetricData)
  | state (etype : DiscoveredEntityType) (id : String) (rtype : ResourceType)
      (value : MetricData)
  deriving DecidableEq

/-- Modelled from the spec: the metric sink of `pkg/discovery/metrics`, an append-only
keyed store of samples with a bounded ring per key. It is the sequence of the entries
added, in order, and the ring capacity `maxMetricPointsSize`. -/
structure EntityMetricSink where
  maxMetricPointsSize : Nat
  entries : List Metric
  deriving DecidableEq

/-- Modelled from the spec: `add(sample)` appends. Method
`EntityMetricSink.AddNewMetricEntries`. -/
def EntityMetricSink.AddNewMetricEntries (sink : EntityMetricSink) (metric : List Metric) :
    EntityMetricSink :=
  { sink with entries := sink.entries ++ metric }

/-! ## pkg/discovery/monitoring/kubelet/kubelet_monitor.go -/

/-- Type `stats.CPUStats`, its usage in nanocores. -/
structure CPUStats where
  UsageNanoCores : Option Nat
  deriving DecidableEq

/-- Type `stats.MemoryStats`, its working set in bytes. -/
structure MemoryStats where
  WorkingSetBytes : Option Nat
  deriving DecidableEq

/-- Type `stats.FsStats`, its capacity and use in bytes. -/
structure FsStats where
  CapacityBytes : Option Nat
  UsedBytes : Option Nat
  deriving DecidableEq

/-- Type `stats.NodeStats`; `CPU`, `Memory` and `Fs` are pointers. -/
structure NodeStats where
  NodeName : String
  CPU : Option CPUStats
  Memory : Option MemoryStats
  Fs : Option FsStats
  deriving DecidableEq

/-- Type `stats.ContainerStats`. -/
structure ContainerStats where
  Name : String
  CPU : Option CPUStats
  Memory : Option MemoryStats
  deriving DecidableEq

/-- Type `stats.PodReference`. -/
structure PodReference where
  Name : String
  Namespace : String
  UID : String
  deriving DecidableEq

/-- Type `stats.PodStats`. -/
structure PodStats where
  PodRef : PodReference
  Containers : List ContainerStats
  EphemeralStorage : Option FsStats
  deriving DecidableEq

/-- Type `stats.Summary`. -/
structure Summary where
  Node : NodeStats
  Pods : List PodStats
  deriving DecidableEq

/-- What the kubelet client answers: the CPU frequency of a node, the summary served at
an address, and whether its cache was used for that address. A summary returned with a
nil error is not nil. -/
structure KubeletClient where
  GetNodeCpuFrequency : Node → ℚ × GoError
  GetSummary : String → Except String Summary
  HasCacheBeenUsed : String → Bool

/-- Functions of `pkg/discovery/util` that the monitor calls and whose definitions are not
part of the sources at hand: the key and id builders, the address of a node for the
kubelet source, and the unit conversions. With them comes the addition `+` of two
`float64` values, which rounds its result: it is taken as it is, and nothing is assumed
of it (it need not be exact, nor associative). -/
structure DiscoveryUtil where
  NodeKeyFunc : Node → String
  NodeStatsKeyFunc : NodeStats → String
  GetNodeIPForMonitor : Node → Except String String
  PodMetricId : PodReference → String
  ContainerMetricId : String → String → String
  ApplicationMetricId : String → String
  MetricNanoToMili : ℚ → ℚ
  Base2BytesToKilobytes : ℚ → ℚ
  Base2BytesToMegabytes : ℚ → ℚ
  Float64Add : ℚ → ℚ → ℚ

/-- Method `genUsedMetrics`. -/
def genUsedMetrics (sink : EntityMetricSink) (etype : DiscoveredEntityType) (key : String)
    (cpuMili memory : ℚ) : EntityMetricSink :=
  sink.AddNewMetricEntries
    [ .resource etype key .CPUMili .Used (.float cpuMili),
      .resource etype key .Memory .Used (.float memory) ]

/-- Method `genRequestUsedMetrics`. -/
def genRequestUsedMetrics (sink : EntityMetricSink) (etype : DiscoveredEntityType)
    (key : String) (cpu memory : ℚ) : EntityMetricSink :=
  sink.AddNewMetricEntries
    [ .resource etype key .CPURequest .Used (.float cpu),
      .resource etype key .MemoryRequest .Used (.float memory) ]

/-- Method `genNumConsumersUsedMetrics`. -/
def genNumConsumersUsedMetrics (sink : EntityMetricSink) (etype : DiscoveredEntityType)
    (key : String) : EntityMetricSink :=
  sink.AddNewMetricEntries [ .resource etype key .NumPods .Used (.int 1) ]

/-- Method `genFSMetrics`. -/
def genFSMetrics (sink : EntityMetricSink) (etype : DiscoveredEntityType) (key : String)
    (capacity used : ℚ) : EntityMetricSink :=
  sink.AddNewMetricEntries
    [ .resource etype key .VStorage .Capacity (.float capacity),
      .resource etype key .VStorage .Used (.float used) ]

/-- Method `parseNodeCpuFreq`. -/
def parseNodeCpuFreq (u : DiscoveryUtil) (sink : EntityMetricSink) (node : Node)
    (cpuFrequencyMHz : ℚ) : EntityMetricSink :=
  sink.AddNewMetricEntries
    [ .state .NodeType (u.NodeKeyFunc node) .CpuFrequency (.float cpuFrequencyMHz) ]

/-- The loop of `parseContainerStats` over the containers of a pod, carrying the two
totals and the sink. -/
def parseContainerLoop (u : DiscoveryUtil) (podMId : String) :
    List ContainerStats → ℚ → ℚ → EntityMetricSink → (ℚ × ℚ) × EntityMetricSink
  | [], totalUsedCPU, totalUsedMem, sink => ((totalUsedCPU, totalUsedMem), sink)
  | container :: rest, totalUsedCPU, totalUsedMem, sink =>
    match container.CPU with
    | none => parseContainerLoop u podMId rest totalUsedCPU totalUsedMem sink
    | some cpu =>
      match cpu.UsageNanoCores with
      | none => parseContainerLoop u podMId rest totalUsedCPU totalUsedMem sink
      | some usageNanoCores =>
        match container.Memory with
        | none => parseContainerLoop u podMId rest totalUsedCPU totalUsedMem sink
        | some memory =>
          match memory.WorkingSetBytes with
          | none => parseContainerLoop u podMId rest totalUsedCPU totalUsedMem sink
          | some workingSetBytes =>
            let cpuUsed := u.MetricNanoToMili (usageNanoCores : ℚ)
            let memUsed := u.Base2BytesToKilobytes (workingSetBytes : ℚ)
            let containerMId := u.ContainerMetricId podMId container.Name
            let sink1 := genUsedMetrics sink .ContainerType containerMId cpuUsed memUsed
            let sink2 := genRequestUsedMetrics sink1 .ContainerType containerMId cpuUsed memUsed
            let appMId := u.ApplicationMetricId containerMId
            let sink3 := genUsedMetrics sink2 .ApplicationType appMId cpuUsed memUsed
            parseContainerLoop u podMId rest (u.Float64Add totalUsedCPU cpuUsed)
              (u.Float64Add totalUsedMem memUsed) sink3

/-- Method `parseContainerStats`: the two totals and the sink after the call. -/
def parseContainerStats (u : DiscoveryUtil) (sink : EntityMetricSink) (pod : PodStats) :
    (ℚ × ℚ) × EntityMetricSink :=
  parseContainerLoop u (u.PodMetricId pod.PodRef) pod.Containers 0 0 sink

/-- Method `parsePodStats`. -/
def parsePodStats (u : DiscoveryUtil) : EntityMetricSink → List PodStats → EntityMetricSink
  | sink, [] => sink
  | sink, pod :: rest =>
    match parseContainerStats u sink pod with
    | ((cpuUsed, memUsed), sink1) =>
      let key := u.PodMetricId pod.PodRef
      let ephemeralFsCapacity : ℚ :=
        match pod.EphemeralStorage with
        | some fs =>
          match fs.CapacityBytes with
          | some b => u.Base2BytesToMegabytes (b : ℚ)
          | none => 0
        | none => 0
      let ephemeralFsUsed : ℚ :=
        match pod.EphemeralStorage with
        | some fs =>
          match fs.UsedBytes with
          | some b => u.Base2BytesToMegabytes (b : ℚ)
          | none => 0
        | none => 0
      let sink2 := genUsedMetrics sink1 .PodType key cpuUsed memUsed
      let sink3 := genNumConsumersUsedMetrics sink2 .PodType key
      let sink4 := genFSMetrics sink3 .PodType key ephemeralFsCapacity ephemeralFsUsed
      parsePodStats u sink4 rest

/-- Method `parseNodeStats`; reading through a nil `CPU`, `Memory` or `Fs` panics. -/
def parseNodeStats (u : DiscoveryUtil) (sink : EntityMetricSink) (nodeStats : NodeStats) :
    GoResult EntityMetricSink :=
  match nodeStats.CPU, nodeStats.Memory, nodeStats.Fs with
  | some cpu, some memory, some fs =>
    let cpuUsageMiliCore : ℚ :=
      match cpu.UsageNanoCores with
      | some n => u.MetricNanoToMili (n : ℚ)
      | none => 0
    let memoryWorkingSetKiloBytes : ℚ :=
      match memory.WorkingSetBytes with
      | some b => u.Base2BytesToKilobytes (b : ℚ)
      | none => 0
    let rootfsCapacity : ℚ :=
      match fs.CapacityBytes with
      | some b => u.Base2BytesToMegabytes (b : ℚ)
      | none => 0
    let rootfsUsed : ℚ :=
      match fs.UsedBytes with
      | some b => u.Base2BytesToMegabytes (b : ℚ)
      | none => 0
    let key := u.NodeStatsKeyFunc nodeStats
    let sink1 := genUsedMetrics sink .NodeType key cpuUsageMiliCore memoryWorkingSetKiloBytes
    .ret (genFSMetrics sink1 .NodeType key rootfsCapacity rootfsUsed)
  | _, _, _ => .panic "invalid memory address or nil pointer dereference"

/-- A request made to a kubelet. -/
inductive KubeletCall where
  | cpuFrequency (nodeName : String)
  | summary (ip : String)
  deriving DecidableEq

/-- What a run of `scrapeKubelet` leaves behind: the sink, the requests made to the
kubelet, in order, and whether the run returned or panicked. -/
structure ScrapeRun where
  sink : EntityMetricSink
  calls : List KubeletCall
  result : GoResult Unit

/-- Method `scrapeKubelet`. -/
def scrapeKubelet (u : DiscoveryUtil) (kc : KubeletClient) (sink : EntityMetricSink)
    (node : Node) : ScrapeRun :=
  match kc.GetNodeCpuFrequency node with
  | (_, some _) => ⟨sink, [.cpuFrequency node.Name], .ret ()⟩
  | (nodefreq, none) =>
    let sink1 := parseNodeCpuFreq u sink node nodefreq
    match u.GetNodeIPForMonitor node with
    | .error _ => ⟨sink1, [.cpuFrequency node.Name], .ret ()⟩
    | .ok ip =>
      match kc.GetSummary ip with
      | .error _ => ⟨sink1, [.cpuFrequency node.Name, .summary ip], .ret ()⟩
      | .ok summary =>
        let sink2 :=
          if kc.HasCacheBeenUsed ip then
            sink1.AddNewMetricEntries
              [ .state .NodeType (u.NodeKeyFunc node) (.literal "NodeCacheUsed") (.int 1) ]
          else sink1
        match parseNodeStats u sink2 summary.Node with
        | .panic msg => ⟨sink2, [.cpuFrequency node.Name, .summary ip], .panic msg⟩
        | .ret sink3 =>
          ⟨parsePodStats u sink3 summary.Pods, [.cpuFrequency node.Name, .summary ip], .ret ()⟩

/-- The state that the goroutines of `RetrieveResourceStat` share: the number of values
buffered in `stopCh` (a channel of capacity 1) and the nodes for which `scrapeKubelet`
has been called. -/
structure MonitorState where
  stopCh : Nat
  scraped : List Node
  deriving DecidableEq

/-- Function `NewKubeletMonitor` (and `reset`): an empty `stopCh`, nothing scraped. -/
def NewKubeletMonitor : MonitorState :=
  { stopCh := 0, scraped := [] }

/-- Method `Stop`: send one value on `stopCh`; the send blocks (`none`) when the buffer of
capacity 1 is full. The states here are those of a task before the deferred
`close(m.stopCh)` of `RetrieveResourceStat` has run; a `Stop` after it panics in Go (send
on closed channel) and has no counterpart here. -/
def Stop (m : MonitorState) : Option MonitorState :=
  if m.stopCh < 1 then some { m with stopCh := m.stopCh + 1 } else none

/-- The goroutine started for one node: the `select` receives a value from `stopCh` when
one is buffered and returns, and otherwise takes the default case and scrapes. -/
def nodeGoroutine (m : MonitorState) (n : Node) : MonitorState :=
  if m.stopCh > 0 then { m with stopCh := m.stopCh - 1 }
  else { m with scraped := m.scraped ++ [n] }

/-- Method `RetrieveResourceStat`, under a schedule: `order` lists the nodes of the task
in the order in which their goroutines reach the `select`. The returned error is that
of the nil or empty node list. -/
def RetrieveResourceStat (m : MonitorState) (nodeList : Option (List Node))
    (order : List Node) : GoError × MonitorState :=
  match nodeList with
  | none => (some "Invalid nodeList or empty nodeList. Finish Immediately...", m)
  | some [] => (some "Invalid nodeList or empty nodeList. Finish Immediately...", m)
  | some _ => (none, order.foldl nodeGoroutine m)

/-- The six samples that `parseContainerStats` adds for a container that reports both
its CPU usage and its memory working set, and none for any other container. -/
def containerSamples (u : DiscoveryUtil) (podMId : String) (container : ContainerStats) :
    List Metric :=
  match container.CPU, container.Memory with
  | some ⟨some usageNanoCores⟩, some ⟨some workingSetBytes⟩ =>
    let cpuUsed := u.MetricNanoToMili (usageNanoCores : ℚ)
    let memUsed := u.Base2BytesToKilobytes (workingSetBytes : ℚ)
    let containerMId := u.ContainerMetricId podMId container.Name
    let appMId := u.ApplicationMetricId containerMId
    [ .resource .ContainerType containerMId .CPUMili .Used (.float cpuUsed),
      .resource .ContainerType containerMId .Memory .Used (.float memUsed),
      .resource .ContainerType containerMId .CPURequest .Used (.float cpuUsed),
      .resource .ContainerType containerMId .MemoryRequest .Used (.float memUsed),
      .resource .ApplicationType appMId .CPUMili .Used (.float cpuUsed),
      .resource .ApplicationType appMId .Memory .Used (.float memUsed) ]
  | _, _ => []

/-- The samples of all the containers of a list, in order. -/
def allContainerSamples (u : DiscoveryUtil) (podMId : String) :
    List ContainerStats → List Metric
  | [] => []
  | container :: rest => containerSamples u podMId container ++ allContainerSamples u podMId rest

/-- The values of the Used samples of the given entity type and resource type among the
entries of a list, in order. -/
def usedValues (etype : DiscoveredEntityType) (rtype : ResourceType) : List Metric → List ℚ
  | [] => []
  | .resource e _ r .Used (.float v) :: rest =>
    if e = etype ∧ r = rtype then v :: usedValues etype rtype rest
    else usedValues etype rtype rest
  | _ :: rest => usedValues etype rtype rest

/-- The sum of a list of `float64` values as a loop computes it: from 0, adding the
values in order, each addition rounding as `float64` addition does. -/
def float64Sum (u : DiscoveryUtil) (values : List ℚ) : ℚ :=
  values.foldl u.Float64Add 0

/-- A container that lacks its CPU usage or its memory working set. -/
def missingUsage (container : ContainerStats) : Prop :=
  container.CPU = none ∨ container.CPU = some ⟨none⟩
    ∨ container.Memory = none ∨ container.Memory = some ⟨none⟩

/-- Helpers for the sample stats: keys built from names, nanocores to millicores,
bytes to KiB and to MiB; the additions made on the sample values are exact in `float64`. -/
def sampleDiscoveryUtil : DiscoveryUtil :=
  { NodeKeyFunc := fun node => node.Name
    NodeStatsKeyFunc := fun stats => stats.NodeName
    GetNodeIPForMonitor := fun node => .ok ("ip-of-" ++ node.Name)
    PodMetricId := fun ref => ref.Namespace ++ "/" ++ ref.Name
    ContainerMetricId := fun podMId name => podMId ++ "/" ++ name
    ApplicationMetricId := fun containerMId => "App-" ++ containerMId
    MetricNanoToMili := fun x => x / 1000000
    Base2BytesToKilobytes := fun x => x / 1024
    Base2BytesToMegabytes := fun x => x / (1024 * 1024)
    Float64Add := fun x y => x + y }

/-- A kubelet client that cannot give the CPU frequency of node `n2` and serves an empty
summary for every address. -/
def sampleKubeletClient : KubeletClient :=
  { GetNodeCpuFrequency := fun node =>
      if node.Name = "n2" then (0, some "cpufreq unavailable") else (2048, none)
    GetSummary := fun _ => .ok
      { Node := { NodeName := "n1", CPU := some ⟨some 2000000⟩, Memory := some ⟨some 4096⟩,
                  Fs := some ⟨none, none⟩ },
        Pods := [] }
    HasCacheBeenUsed := fun _ => false }

/-- A container that reports 5000000 nanocores and 2048 bytes. -/
def sampleContainer : ContainerStats :=
  { Name := "web", CPU := some ⟨some 5000000⟩, Memory := some ⟨some 2048⟩ }

/-- The stats of a pod with the sample container and a container without CPU stats. -/
def samplePodStats : PodStats :=
  { PodRef := { Name := "web-0", Namespace := "shop", UID := "uid-1" },
    Containers := [{ Name := "sidecar", CPU := none, Memory := some ⟨some 1024⟩ }, sampleContainer],
    EphemeralStorage := none }

/-- An empty sink with rings of one point. -/
def sampleSink : EntityMetricSink :=
  { maxMetricPointsSize := 1, entries := [] }

/-! ## pkg/discovery/dtofactory: the general builder, modelled from the specification

The builder (`metricValue`, `getSoldResourceCommodityWithKey`) and the reading side of
the metric sink are not part of the sources at hand; only their tests are. -/

/-- Type `metrics.MetricValue`. -/
structure MetricValue where
  Avg : ℚ
  Peak : ℚ
  deriving DecidableEq

/-- Conversion `int(x)` of a `float64`: truncation toward zero. -/
def goInt (x : ℚ) : Int :=
  if 0 ≤ x then ⌊x⌋ else ⌈x⌉

/-- Modelled from the spec: a sample value "is either a scalar, a point, or a
cumulative-throttling pair". -/
inductive Sample where
  | scalar (v : ℚ)
  | point (p : Point)
  | throttling (t : ThrottlingCumulative)
  deriving DecidableEq

/-- The samples that the value of a metric entry carries. -/
def MetricData.samples : MetricData → List Sample
  | .float v => [.scalar v]
  | .int n => [.scalar n]
  | .points ps => ps.map .point
  | .throttling ts => ts.map .throttling

/-- The samples of the entries added for one key, in the order of arrival. -/
def keySamples (etype : DiscoveredEntityType) (id : String) (rtype : ResourceType)
    (prop : MetricProp) : List Metric → List Sample
  | [] => []
  | .resource e i r p v :: rest =>
    if e = etype ∧ i = id ∧ r = rtype ∧ p = prop then
      v.samples ++ keySamples etype id rtype prop rest
    else keySamples etype id rtype prop rest
  | .state _ _ _ _ :: rest => keySamples etype id rtype prop rest

/-- Modelled from the spec: `get(entity, resource, sampleKind)` "returns the ordered
ring": the samples of the key form a ring of length at most `maxMetricPointsSize`, the
oldest samples being the ones evicted. -/
def EntityMetricSink.ring (sink : EntityMetricSink) (etype : DiscoveredEntityType)
    (id : String) (rtype : ResourceType) (prop : MetricProp) : List Sample :=
  let all := keySamples etype id rtype prop sink.entries
  all.drop (all.length - sink.maxMetricPointsSize)

/-- Modelled from the spec: a new sink (`metrics.NewEntityMetricSink`); the default ring
capacity is taken to be one sample. -/
def NewEntityMetricSink : EntityMetricSink :=
  { maxMetricPointsSize := 1, entries := [] }

/-- Modelled from the spec: the capacity of the rings is configurable
(`WithMaxMetricPointsSize`). -/
def EntityMetricSink.WithMaxMetricPointsSize (sink : EntityMetricSink) (n : Nat) :
    EntityMetricSink :=
  { sink with maxMetricPointsSize := n }

/-- Modelled from the spec: `UpdateMetricEntry` adds the samples of the entry to the ring
of its key. -/
def EntityMetricSink.UpdateMetricEntry (sink : EntityMetricSink) (metric : Metric) :
    EntityMetricSink :=
  sink.AddNewMetricEntries [metric]

/-- The points among the samples of a ring. -/
def ringPoints : List Sample → List Point
  | [] => []
  | .point p :: rest => p :: ringPoints rest
  | _ :: rest => ringPoints rest

/-- The cumulative throttling samples among the samples of a ring. -/
def ringThrottling : List Sample → List ThrottlingCumulative
  | [] => []
  | .throttling t :: rest => t :: ringThrottling rest
  | _ :: rest => ringThrottling rest

/-- The loop of the usage aggregation over the points after the first: the running sum
and the running peak. -/
def pointsLoop : List Point → ℚ → ℚ → ℚ × ℚ
  | [], sum, peak => (sum, peak)
  | p :: rest, sum, peak => pointsLoop rest (sum + p.Value) (max peak p.Value)

/-- Modelled from the spec: the usage data of a list of points is "`used` (average) and
`peak` scalars". -/
def pointsMetricValue : List Point → MetricValue
  | [] => { Avg := 0, Peak := 0 }
  | p :: rest =>
    match pointsLoop rest p.Value p.Value with
    | (sum, peak) => { Avg := sum / ((rest.length : ℚ) + 1), Peak := peak }

/-- The loop of the throttling aggregation over the samples after `prev`, in timestamp
order: the sums of the accepted deltas and the running peak. An interval with a negative
delta is a counter reset and is discarded. -/
def throttlingLoop : ThrottlingCumulative → List ThrottlingCumulative → ℚ → ℚ → ℚ → ℚ × ℚ × ℚ
  | _, [], throttledSum, totalSum, peak => (throttledSum, totalSum, peak)
  | prev, cur :: rest, throttledSum, totalSum, peak =>
    let dThrottled := cur.Throttled - prev.Throttled
    let dTotal := cur.Total - prev.Total
    if dThrottled < 0 ∨ dTotal < 0 then throttlingLoop cur rest throttledSum totalSum peak
    else
      throttlingLoop cur rest (throttledSum + dThrottled) (totalSum + dTotal)
        (max peak (dThrottled * 100 / dTotal))

/-- Modelled from the spec: "sort samples by timestamp; for each consecutive pair, compute
deltas; if either delta is negative, discard that interval and start a new window; sum
accepted deltas across windows; avg = sum of delta-throttled times 100 over sum of
delta-total; peak = max over intervals of delta-throttled times 100 over delta-total".
A quotient by zero is zero. -/
def throttlingMetricValue (samples : List ThrottlingCumulative) : MetricValue :=
  match List.insertionSort (fun a b : ThrottlingCumulative => a.Timestamp ≤ b.Timestamp)
      samples with
  | [] => { Avg := 0, Peak := 0 }
  | first :: rest =>
    match throttlingLoop first rest 0 0 0 with
    | (throttledSum, totalSum, peak) => { Avg := throttledSum * 100 / totalSum, Peak := peak }

/-- Modelled from the spec: a unit converter, a function per convertible resource type
(`NewConverter().Set(f, rtype)`). -/
structure Converter where
  converters : ResourceType → Option (ℚ → ℚ)

/-- Modelled from the spec: `Convert(rtype, value)` applies the function set for the
resource type, and leaves the value as it is when none is set. -/
def Converter.Convert (c : Converter) (rtype : ResourceType) (value : ℚ) : ℚ :=
  match c.converters rtype with
  | some f => f value
  | none => value

/-- Modelled from the spec: the value of the metric of a key before conversion: nothing
when the sink holds no sample for the key; the scalar, the usage data of the points, or
the throttling data of the cumulative samples, according to the kind of the latest
sample. -/
def rawMetricValue (sink : EntityMetricSink) (etype : DiscoveredEntityType) (id : String)
    (rtype : ResourceType) (prop : MetricProp) : Option MetricValue :=
  match (sink.ring etype id rtype prop).getLast? with
  | none => none
  | some (.scalar v) => some { Avg := v, Peak := v }
  | some (.point _) => some (pointsMetricValue (ringPoints (sink.ring etype id rtype prop)))
  | some (.throttling _) =>
    some (throttlingMetricValue (ringThrottling (sink.ring etype id rtype prop)))

/-- Modelled from the spec: method `metricValue` of the general builder: the value of the
metric, through the converter when there is one, or an error when the metric is
missing. -/
def metricValue (sink : EntityMetricSink) (etype : DiscoveredEntityType) (id : String)
    (rtype : ResourceType) (prop : MetricProp) (converter : Option Converter) :
    MetricValue × GoError :=
  match rawMetricValue sink etype id rtype prop with
  | none => ({ Avg := 0, Peak := 0 }, some "missing metrics")
  | some mv =>
    match converter with
    | none => (mv, none)
    | some c => ({ Avg := c.Convert rtype mv.Avg, Peak := c.Convert rtype mv.Peak }, none)

/-- Type `proto.CommodityDTO_CommodityType`, the two types the tests name. -/
inductive CommodityType where
  | VCPU
  | VMEM
  deriving DecidableEq

/-- Type `proto.CommodityDTO`: type, key, used, peak and capacity. -/
structure CommodityDTO where
  CommodityType : CommodityType
  Key : String
  Used : ℚ
  Peak : ℚ
  Capacity : ℚ
  deriving DecidableEq

/-- Modelled from the spec: the table `rTypeMapping` from resource types to commodity
types, as far as the tests show it: CPU is sold as VCPU, memory as VMEM, and a memory
request is not sold. -/
def rTypeMapping : ResourceType → Option CommodityType
  | .CPU => some .VCPU
  | .Memory => some .VMEM
  | _ => none

/-- Modelled from the spec: the CPU family of resource types, whose values are converted
by the frequency of the node. -/
def isCPUType : ResourceType → Bool
  | .CPU => true
  | .CPUMili => true
  | .CPURequest => true
  | _ => false

/-- Modelled from the spec: method `getSoldResourceCommodityWithKey` of the general
builder. "A CPU-family sold commodity is built as CommodityType=VCPU,
used=millicores times freqMHz, capacity=capacityMillicores times freqMHz, requiring a
non-nil frequency converter"; "missing metric: the commodity is skipped and a diagnostic
is recorded". -/
def getSoldResourceCommodityWithKey (sink : EntityMetricSink) (etype : DiscoveredEntityType)
    (id : String) (rtype : ResourceType) (commKey : String) (converter : Option Converter) :
    Option CommodityDTO × GoError :=
  match rTypeMapping rtype with
  | none => (none, some "unsupported commodity type")
  | some cType =>
    if isCPUType rtype = true ∧ converter.isNone = true then
      (none, some "missing cpu frequency converter")
    else
      match metricValue sink etype id rtype .Used converter with
      | (_, some err) => (none, some err)
      | (used, none) =>
        match metricValue sink etype id rtype .Capacity converter with
        | (_, some err) => (none, some err)
        | (capacity, none) =>
          (some { CommodityType := cType, Key := commKey, Used := used.Avg,
                  Peak := used.Peak, Capacity := capacity.Avg }, none)

/-- The sink holds the metric of a key: the ring of the key is not empty. -/
def EntityMetricSink.holds (sink : EntityMetricSink) (etype : DiscoveredEntityType)
    (id : String) (rtype : ResourceType) (prop : MetricProp) : Prop :=
  sink.ring etype id rtype prop ≠ []

/-- The pairs of consecutive elements of a list. -/
def consecutivePairs {α : Type} : List α → List (α × α)
  | a :: b :: rest => (a, b) :: consecutivePairs (b :: rest)
  | _ => []

/-- The accepted intervals of a series of cumulative throttling samples, as the claim
words them: the consecutive pairs in timestamp order in which neither delta is negative,
each given by its delta-throttled and its delta-total. -/
def acceptedIntervals (samples : List ThrottlingCumulative) : List (ℚ × ℚ) :=
  ((consecutivePairs (List.insertionSort
      (fun a b : ThrottlingCumulative => a.Timestamp ≤ b.Timestamp) samples)).map
    (fun pair => (pair.2.Throttled - pair.1.Throttled, pair.2.Total - pair.1.Total))).filter
    (fun d => decide (0 ≤ d.1 ∧ 0 ≤ d.2))

/-- The greatest of a list of non-negative values, zero for the empty list. -/
def maxOf (values : List ℚ) : ℚ :=
  values.foldr max 0

/-- The throttling series of the test, sample `i` being `series.take i`'s last. -/
def testThrottlingSeries : List ThrottlingCumulative :=
  [ ⟨1, 5, 1⟩, ⟨3, 8, 2⟩, ⟨5, 10, 3⟩, ⟨6, 15, 4⟩, ⟨11, 25, 5⟩, ⟨0, 0, 6⟩, ⟨1, 5, 7⟩,
    ⟨3, 8, 8⟩, ⟨1, 5, 9⟩, ⟨3, 8, 10⟩, ⟨1, 5, 10⟩ ]

/-- The sink of the throttling test after the first `n` samples: a ring capacity of 11,
one entry added per sample. -/
def testThrottlingSink (n : Nat) : EntityMetricSink :=
  (testThrottlingSeries.take n).foldl
    (fun sink t => sink.UpdateMetricEntry
      (.resource .ContainerType "container-throttling" .VCPUThrottling .Used (.throttling [t])))
    (NewEntityMetricSink.WithMaxMetricPointsSize 11)

/-- The sink of the multiple-points test: a ring capacity of 3 and the points 2, 4, 3. -/
def testPointsSink : EntityMetricSink :=
  (((NewEntityMetricSink.WithMaxMetricPointsSize 3).AddNewMetricEntries
      [.resource .ContainerType "container" .CPU .Used (.points [⟨2, 1⟩])]).UpdateMetricEntry
      (.resource .ContainerType "container" .CPU .Used (.points [⟨4, 2⟩]))).UpdateMetricEntry
      (.resource .ContainerType "container" .CPU .Used (.points [⟨3, 3⟩]))

/-- The converter of the builder tests: CPU values times a frequency of 2048. -/
def cpuConverter : Converter :=
  { converters := fun rtype => if rtype = .CPU then some (fun input => input * 2048) else none }

/-- The sink of `TestBuildCPUSold`: CPU used 1 and CPU capacity 2 for `pod1`. -/
def testCPUSink : EntityMetricSink :=
  NewEntityMetricSink.AddNewMetricEntries
    [ .resource .PodType "pod1" .CPU .Used (.float 1),
      .resource .PodType "pod1" .CPU .Capacity (.float 2) ]

/-! ## pkg/util/common_util.go: CompareVersion -/

/-- Library function `strings.Split` for a separator of one character, on the characters
of the string: the pieces between the separators, one piece more than there are
separators. -/
def splitChars (sep : Char) : List Char → List (List Char)
  | [] => [[]]
  | c :: cs =>
    if c = sep then [] :: splitChars sep cs
    else
      match splitChars sep cs with
      | [] => [[c]]
      | w :: ws => (c :: w) :: ws

/-- Library function `strings.Split` for a separator of one character. -/
def stringsSplit (s : String) (sep : Char) : List String :=
  (splitChars sep s.data).map String.mk

/-- Library function `strconv.Atoi`: an optional sign followed by one or more decimal
digits and nothing else, whose value lies in the 64-bit range; otherwise an error,
which is `none` here. -/
def Atoi (s : String) : Option Int :=
  match s.data with
  | '-' :: ds =>
    if ds ≠ [] ∧ ds.all Char.isDigit ∧ digitsValue ds ≤ 2 ^ 63 then
      some (-(digitsValue ds : Int))
    else none
  | '+' :: ds =>
    if ds ≠ [] ∧ ds.all Char.isDigit ∧ digitsValue ds < 2 ^ 63 then
      some (digitsValue ds : Int)
    else none
  | ds =>
    if ds ≠ [] ∧ ds.all Char.isDigit ∧ digitsValue ds < 2 ^ 63 then
      some (digitsValue ds : Int)
    else none

/-- The value of an arithmetic result in a Go `int` of 64 bits: it wraps around. -/
def wrapInt64 (x : Int) : Int :=
  (x + 2 ^ 63) % 2 ^ 64 - 2 ^ 63

/-- The value `b1` (or `b2`) of `CompareVersion` at index `i`: 0, unless `i` is within
the pieces and `strconv.Atoi` accepts the piece. -/
def versionComponent (a : List String) (i : Nat) : Int :=
  match a[i]? with
  | some piece =>
    match Atoi piece with
    | some tmp => tmp
    | none => 0
  | none => 0

/-- The loop `for i := 0; i < mlen; i++` of `CompareVersion`: the iterations left to
run, then the loop counter. -/
def compareVersionLoop (a1 a2 : List String) : Nat → Nat → Int
  | 0, _ => 0
  | remaining + 1, i =>
    let b1 := versionComponent a1 i
    let b2 := versionComponent a2 i
    if b1 ≠ b2 then wrapInt64 (b1 - b2)
    else compareVersionLoop a1 a2 remaining (i + 1)

/-- Function `CompareVersion`. -/
def CompareVersion (version1 version2 : String) : Int :=
  let a1 := stringsSplit version1 '.'
  let a2 := stringsSplit version2 '.'
  let l1 := a1.length
  let l2 := a2.length
  let mlen := if l1 < l2 then l2 else l1
  compareVersionLoop a1 a2 mlen 0

/-! ## The version order as the specification words it -/

/-- The components of a version string as integers, a component that `strconv.Atoi`
rejects being read as 0. -/
def versionNumbers (v : String) : List Int :=
  (stringsSplit v '.').map (fun piece => (Atoi piece).getD 0)

/-- A sequence padded with zeros to the given length. -/
def padZeros (n : Nat) (xs : List Int) : List Int :=
  xs ++ List.replicate (n - xs.length) 0

/-- The lexicographic numeric order on sequences of integers: -1, 0 or 1 as the first
sequence is less than, equal to or greater than the second. -/
def lexCompare : List Int → List Int → Int
  | [], [] => 0
  | [], _ :: _ => -1
  | _ :: _, [] => 1
  | x :: xs, y :: ys => if x < y then -1 else if y < x then 1 else lexCompare xs ys

/-- The sign that the specification gives to the comparison of two version strings. -/
def versionOrder (v1 v2 : String) : Int :=
  let n := max (versionNumbers v1).length (versionNumbers v2).length
  lexCompare (padZeros n (versionNumbers v1)) (padZeros n (versionNumbers v2))

/-! ## cmd/kubeturbo/app/kubeturbo_builder.go: the flags -/

/-- Type `VMTServer`, the fields that `checkFlag` reads and the two settings of the data
sampling. -/
structure VMTServer where
  Port : Int
  Address : String
  Master : String
  TestingFlagPath : String
  KubeConfig : String
  KubeletPort : Int
  DiscoverySamples : Int
  DiscoverySampleIntervalSec : Int
  deriving DecidableEq

/-- Method `VMTServer.checkFlag`. `ParseIP` is the library function `net.ParseIP`, which
answers whether the text is an IP address (a nil result is `false`). -/
def checkFlag (ParseIP : String → Bool) (s : VMTServer) : GoError :=
  if !ParseIP s.Address then some ("wrong ip format:" ++ s.Address)
  else if s.Port < 1 then some ("Port[" ++ toString s.Port ++ "] should be bigger than 0.")
  else if s.KubeletPort < 1 then
    some ("[KubeletPort[" ++ toString s.KubeletPort ++ "] should be bigger than 0.")
  else none

/-- What `Run` hands to `WithDiscoverySamples` and to `WithDiscoverySampleIntervalSec`. -/
structure DiscoverySampling where
  DiscoverySamples : Int
  DiscoverySampleIntervalSec : Int
  deriving DecidableEq

/-- What the steps of `Run` between `checkFlag` and the configuration of the discovery
meet: the error, if any, of each step whose failure ends the process, in the order in
which `Run` takes them (`clientcmd.BuildConfigFromFlags`, `kubernetes.NewForConfig`,
`dynamic.NewForConfig`, `apiextclient.NewForConfig`, `kubeturbo.ParseK8sTAPServiceSpec`,
`utilfeature.DefaultFeatureGate.Set` and the creation of the kubelet client). The
discovery of the API group versions and the cluster API client only log their errors. -/
structure Startup where
  BuildConfigFromFlags : GoError
  NewKubeClient : GoError
  NewDynamicClient : GoError
  NewApiExtClient : GoError
  ParseK8sTAPServiceSpec : GoError
  SetFeatureGates : GoError
  CreateKubeletClient : GoError
  deriving DecidableEq

/-- How `Run` fares up to the configuration of the discovery: the process has ended with
the message logged, or the two settings of the data sampling have been handed to
`WithDiscoverySamples` and `WithDiscoverySampleIntervalSec`. -/
inductive RunOutcome where
  | exited (msg : String)
  | configured (sampling : DiscoverySampling)
  deriving DecidableEq

/-- Method `VMTServer.Run`, up to the configuration of the discovery. `glog.Fatalf` and
`os.Exit(1)` end the process: when `checkFlag` returns an error and when one of the steps
of the start fails. Otherwise the two settings of the data sampling are handed to the
configuration of the discovery as they are. -/
def Run (ParseIP : String → Bool) (startup : Startup) (s : VMTServer) : RunOutcome :=
  match checkFlag ParseIP s with
  | some err => .exited ("Check flag failed: " ++ err ++ ". Abort.")
  | none =>
    match startup.BuildConfigFromFlags with
    | some err => .exited ("Fatal error: failed to get kubeconfig:  " ++ err)
    | none =>
      match startup.NewKubeClient with
      | some err => .exited ("Fatal error: failed to create kubeClient:" ++ err)
      | none =>
        match startup.NewDynamicClient with
        | some err =>
          .exited ("Failed to generate dynamic client for kubernetes target: " ++ err)
        | none =>
          match startup.NewApiExtClient with
          | some err =>
            .exited ("Failed to generate apiExtensions client for kubernetes target: " ++ err)
          | none =>
            match startup.ParseK8sTAPServiceSpec with
            | some err => .exited ("Failed to generate correct TAP config: " ++ err)
            | none =>
              match startup.SetFeatureGates with
              | some err => .exited ("Invalid Feature Gates: " ++ err)
              | none =>
                match startup.CreateKubeletClient with
                | some err => .exited ("Fatal error: failed to create kubeletClient: " ++ err)
                | none =>
                  .configured { DiscoverySamples := s.DiscoverySamples,
                                DiscoverySampleIntervalSec := s.DiscoverySampleIntervalSec }

/-- A start at which every step succeeds. -/
def sampleStartup : Startup :=
  { BuildConfigFromFlags := none, NewKubeClient := none, NewDynamicClient := none,
    NewApiExtClient := none, ParseK8sTAPServiceSpec := none, SetFeatureGates := none,
    CreateKubeletClient := none }

/-- A `net.ParseIP` for the samples: the loopback address and the unspecified address
are IP addresses, the other texts used are not. -/
def sampleParseIP (address : String) : Bool :=
  decide (address = "127.0.0.1" ∨ address = "0.0.0.0")

/-- A server on the loopback address that asks for 100 samples, one second apart. -/
def sampleVMTServer : VMTServer :=
  { Port := 10265, Address := "127.0.0.1", Master := "", TestingFlagPath := "",
    KubeConfig := "", KubeletPort := 10255, DiscoverySamples := 100,
    DiscoverySampleIntervalSec := 1 }

/-! ## cmd/kubeturbo/app/kubeturbo_builder.go: the management of the SCCs

The security context constraints (SCCs) are read and written through the dynamic client
as untyped objects; the API server behind the clients is a state `σ` that every call may
change. -/

/-- The strings of a `[]interface\x7b\x7d`, or nothing when one of its values is not a string. -/
def stringSliceOf : List JVal → Option (List String)
  | [] => some []
  | .str s :: rest =>
    match stringSliceOf rest with
    | some strSlice => some (s :: strSlice)
    | none => none
  | _ :: _ => none

/-- Library function `unstructured.NestedStringSlice`. -/
def NestedStringSlice (obj : JMap) (fields : List String) : List String × Bool × GoError :=
  match NestedFieldNoCopy (.obj obj) fields with
  | (val, true, none) =>
    match val with
    | .arr m =>
      match stringSliceOf m with
      | some strSlice => (strSlice, true, none)
      | none => ([], false, some "accessor error: contains non-string key in the slice")
    | _ => ([], false, some "accessor error: expected []interface\x7b\x7d")
  | (_, found, err) => ([], found, err)

/-- Library function `unstructured.SetNestedStringSlice`, on the non-empty field path
`field :: rest`. -/
def SetNestedStringSlice (obj : JMap) (value : List String) (field : String)
    (rest : List String) : Except String JMap :=
  setNestedFieldNoCopy (.arr (value.map .str)) obj field rest

/-- Constant `util.TransientRetryTimes`. -/
def TransientRetryTimes : Int := 5

/-- Constant `util.QuickRetryInterval`, two seconds in nanoseconds. -/
def QuickRetryInterval : Int := 2 * 1000000000

/-- The call `util.RetryDuring(util.TransientRetryTimes, 0, util.QuickRetryInterval, myfunc)`.
Without a timeout the clock is not read, and five iterations are all the loop can make,
so that the fallback of the match is never reached. -/
def retryTransient {σ : Type} (myfunc : σ → GoError × σ) (s : σ) : RetryRun σ :=
  match RetryDuring TransientRetryTimes 0 QuickRetryInterval (fun _ => 0) (fun _ => "")
      myfunc s with
  | some run => run
  | none => ⟨none, 0, 0, s⟩

/-- What the dynamic client answers for the resource `securitycontextconstraints`: `Get`
by name, and `Update` of the object it is handed. An answer that is an error comes with
a nil object. Handed a nil object, `Update` does not answer: it reads the name of the
object through the nil pointer and panics, which is modelled in `updateSCC`. -/
structure SCCClient (σ : Type) where
  Get : String → σ → Except String Unstructured × σ
  Update : Unstructured → σ → Except String Unstructured × σ

/-- The variables that the closures of `addUserToSCC` and of `removeUserFromSCC` share
with their function: the pointer `scc`, and, for the record, the API server, the number
of `Get` calls made, the objects handed to `Update`, in order, and the panic raised
inside a closure, if any. -/
structure SCCSession (σ : Type) where
  server : σ
  scc : Option Unstructured
  gets : Nat
  updates : List (Option Unstructured)
  panicked : Option String

/-- What a run of `addUserToSCC` or of `removeUserFromSCC` leaves behind: what it
returned, the `Get` calls it made, the objects it handed to `Update`, and the API
server. -/
structure SCCRun (σ : Type) where
  result : GoResult GoError
  gets : Nat
  updates : List (Option Unstructured)
  server : σ

/-- The closure that fetches the SCC: `scc, err = client.Resource(res).Get(sccName, ...)`. -/
def getSCC {σ : Type} (client : SCCClient σ) (sccName : String) (session : SCCSession σ) :
    GoError × SCCSession σ :=
  match client.Get sccName session.server with
  | (.ok obj, server) =>
    (none, { session with server := server, scc := some obj, gets := session.gets + 1 })
  | (.error err, server) =>
    (some err, { session with server := server, scc := none, gets := session.gets + 1 })

/-- The closure that writes the SCC back: `scc, err = client.Resource(res).Update(scc, ...)`.
An update that failed leaves `scc` nil, and the next invocation hands that nil pointer to
`Update`, which panics. The panic unwinds through `RetryDuring`: the closure records it
in the session and ends the loop, and the function that called `RetryDuring` panics
with it. -/
def updateSCC {σ : Type} (client : SCCClient σ) (session : SCCSession σ) :
    GoError × SCCSession σ :=
  match session.scc with
  | none =>
    (none, { session with updates := session.updates ++ [none],
                          panicked := some "invalid memory address or nil pointer dereference" })
  | some scc =>
    match client.Update scc session.server with
    | (.ok obj, server) =>
      (none, { session with server := server, scc := some obj,
                            updates := session.updates ++ [some scc] })
    | (.error err, server) =>
      (some err, { session with server := server, scc := none,
                                updates := session.updates ++ [some scc] })

/-- What a run leaves behind when it ends after the retried `Update`: the panic raised
inside the closure, or else the error of the retry. -/
def SCCSession.endsUpdate {σ : Type} (run : RetryRun (SCCSession σ)) : SCCRun σ :=
  match run.state.panicked with
  | some msg => ⟨.panic msg, run.state.gets, run.state.updates, run.state.server⟩
  | none => ⟨.ret run.err, run.state.gets, run.state.updates, run.state.server⟩

/-- The loop of `addUserToSCC` over the users: whether it returns at a user equal to
`userFullName`. -/
def userListed (userFullName : String) : List String → Bool
  | [] => false
  | user :: rest => if userFullName = user then true else userListed userFullName rest

/-- The loop of `removeUserFromSCC` over the users, carrying `updatedUsers` and `found`. -/
def removeUserLoop (userFullName : String) : List String → List String → Bool →
    List String × Bool
  | [], updatedUsers, found => (updatedUsers, found)
  | user :: rest, updatedUsers, found =>
    if userFullName = user then removeUserLoop userFullName rest updatedUsers true
    else removeUserLoop userFullName rest (updatedUsers ++ [user]) found

/-- What a run leaves behind when it ends in the given session. -/
def SCCSession.ends {σ : Type} (session : SCCSession σ) (result : GoResult GoError) :
    SCCRun σ :=
  ⟨result, session.gets, session.updates, session.server⟩

/-- Function `addUserToSCC`. The error of the retried `Get` is overwritten by the next
assignment to `err` without having been read, and `scc.Object` dereferences the pointer
`scc`, which is nil when every `Get` failed. -/
def addUserToSCC {σ : Type} (userFullName sccName : String) (client : SCCClient σ)
    (server : σ) : SCCRun σ :=
  let fetched := (retryTransient (getSCC client sccName) ⟨server, none, 0, [], none⟩).state
  match fetched.scc with
  | none => fetched.ends (.panic "invalid memory address or nil pointer dereference")
  | some scc =>
    match NestedStringSlice scc.Object ["users"] with
    | (_, _, some err) => fetched.ends (.ret (some err))
    | (users, _, none) =>
      if userListed userFullName users then fetched.ends (.ret none)
      else
        let users := users ++ [userFullName]
        match SetNestedStringSlice scc.Object users "users" [] with
        | .error err => fetched.ends (.ret (some err))
        | .ok obj =>
          SCCSession.endsUpdate
            (retryTransient (updateSCC client) { fetched with scc := some ⟨obj⟩ })

/-- Function `removeUserFromSCC`, with the same unread error and the same dereference as
`addUserToSCC`. -/
def removeUserFromSCC {σ : Type} (userFullName sccName : String) (client : SCCClient σ)
    (server : σ) : SCCRun σ :=
  let fetched := (retryTransient (getSCC client sccName) ⟨server, none, 0, [], none⟩).state
  match fetched.scc with
  | none => fetched.ends (.panic "invalid memory address or nil pointer dereference")
  | some scc =>
    match NestedStringSlice scc.Object ["users"] with
    | (_, _, some err) => fetched.ends (.ret (some err))
    | (users, ok, none) =>
      if !ok || users.length < 1 then fetched.ends (.ret none)
      else
        match removeUserLoop userFullName users [] false with
        | (updatedUsers, true) =>
          match SetNestedStringSlice scc.Object updatedUsers "users" [] with
          | .error err => fetched.ends (.ret (some err))
          | .ok obj =>
            SCCSession.endsUpdate
              (retryTransient (updateSCC client) { fetched with scc := some ⟨obj⟩ })
        | (_, false) => fetched.ends (.ret none)

/-- Function `userFullName`. -/
def userFullName (ns saName : String) : String :=
  "system:serviceaccount:" ++ ns ++ ":" ++ saName

/-- Type `corev1.ServiceAccount`, its name. -/
structure ServiceAccount where
  Name : String
  deriving DecidableEq

/-- Constant `kubeturboSCCPrefix`. -/
def kubeturboSCCPrefix : String := "kubeturbo-scc-"

/-- Function `util.GetServiceAccountForSCC`. -/
def GetServiceAccountForSCC (sccName : String) : ServiceAccount :=
  { Name := kubeturboSCCPrefix ++ sccName }

/-- What the typed client answers when a service account is created in a namespace, and
the library predicate `apierrors.IsAlreadyExists` on its errors. -/
structure ServiceAccountClient (σ : Type) where
  Create : String → ServiceAccount → σ → GoError × σ
  IsAlreadyExists : String → Bool

/-- Function `createSCCServiceAccount`: the name, the error and the API server after. -/
def createSCCServiceAccount {σ : Type} (ns sccName : String)
    (kubeClient : ServiceAccountClient σ) (server : σ) : String × GoError × σ :=
  let sa := GetServiceAccountForSCC sccName
  let saName := sa.Name
  let run := retryTransient (fun server =>
    match kubeClient.Create ns sa server with
    | (some err, server1) =>
      if kubeClient.IsAlreadyExists err then (none, server1) else (some err, server1)
    | (none, server1) => (none, server1)) server
  (saName, run.err, run.state)

/-- The variables that the loop of `manageSCCs` works on: the API server, the map
`util.SCCMapping` and the slice `saNames`. -/
structure SCCManagement (σ : Type) where
  server : σ
  SCCMapping : String → Option String
  saNames : List String

/-- The loop of `manageSCCs` over `sccList.Items`. The flag returned tells whether the
loop ran to its end (`true`) or `manageSCCs` returned from inside it (`false`). -/
def manageSCCsLoop {σ : Type} (ns : String) (dynClient : SCCClient σ)
    (kubeClient : ServiceAccountClient σ) :
    List Unstructured → SCCManagement σ → GoResult (Bool × SCCManagement σ)
  | [], vars => .ret (true, vars)
  | scc :: rest, vars =>
    let sccName := scc.GetName
    match createSCCServiceAccount ns sccName kubeClient vars.server with
    | (_, some _, server1) => .ret (false, { vars with server := server1 })
    | (saName, none, server1) =>
      let saNames := vars.saNames ++ [saName]
      let run := addUserToSCC (userFullName ns saName) sccName dynClient server1
      match run.result with
      | .panic msg => .panic msg
      | .ret (some _) => .ret (false, { vars with server := run.server, saNames := saNames })
      | .ret none =>
        manageSCCsLoop ns dynClient kubeClient rest
          { server := run.server,
            SCCMapping := fun key => if key = sccName then some saName else vars.SCCMapping key,
            saNames := saNames }

/-- An API server that holds the SCCs by name: `Get` serves the object held under the
name, `Update` replaces the object held under the name of the object it is handed. -/
def sccStore : SCCClient (String → Option Unstructured) :=
  { Get := fun name server =>
      match server name with
      | some obj => (.ok obj, server)
      | none => (.error ("securitycontextconstraints " ++ name ++ " not found"), server)
    Update := fun obj server =>
      match server obj.GetName with
      | some _ => (.ok obj, fun name => if name = obj.GetName then some obj else server name)
      | none =>
        (.error ("securitycontextconstraints " ++ obj.GetName ++ " not found"), server) }

/-- An API server that serves the SCCs it holds and refuses every `Update`. -/
def sccReadOnly : SCCClient (String → Option Unstructured) :=
  { Get := sccStore.Get
    Update := fun _ server => (.error "forbidden", server) }

/-- An API server that cannot be reached: every `Get` and every `Update` fails. -/
def sccUnreachable : SCCClient Unit :=
  { Get := fun _ server => (.error "connection refused", server)
    Update := fun _ server => (.error "connection refused", server) }

/-- A typed client that creates every service account asked for. -/
def sampleServiceAccounts {σ : Type} : ServiceAccountClient σ :=
  { Create := fun _ _ server => (none, server)
    IsAlreadyExists := fun err => decide (err = "already exists") }

/-- The SCC `restricted`, whose users are `system:admin` and `alice`. -/
def sampleSCC : Unstructured :=
  ⟨[("metadata", .obj [("name", .str "restricted")]),
    ("users", .arr [.str "system:admin", .str "alice"])]⟩

/-- An API server that holds the SCC `restricted` and nothing else. -/
def sampleSCCServer : String → Option Unstructured :=
  fun name => if name = "restricted" then some sampleSCC else none

/-! ## The node resolver as the specification words it -/

/-- A lookup on this cluster as the specification reads it: a node found here comes with
the empty destination cluster, an error is no node. -/
def localHit : Except String Node → Option (Node × String)
  | .ok node => some (node, "")
  | .error _ => none

/-- The UID and the name that an entry of a published node list gives, when the entry is
a map whose `uid` and `name` are strings. -/
def entryUidName : JVal → Option (String × String)
  | .obj entry =>
    match List.lookup "uid" entry, List.lookup "name" entry with
    | some (.str uid), some (.str name) => some (uid, name)
    | _, _ => none
  | _ => none

/-- The node list that a member cluster publishes under `status.nodeList`, when it does. -/
def publishedNodeList (cluster : Unstructured) : Option (List JVal) :=
  match NestedSlice cluster.Object ["status", "nodeList"] with
  | (nodelist, true, none) => some nodelist
  | _ => none

/-- The published node lists of the member clusters are well typed: every entry is a map
whose `uid` and `name` are strings. -/
def wellTypedMembers (members : List Unstructured) : Bool :=
  members.all (fun cluster =>
    match publishedNodeList cluster with
    | some nodelist => nodelist.all (fun entry => (entryUidName entry).isSome)
    | none => true)

/-- The node that a member cluster publishes under the UID, with the name of the member:
the first entry of its node list with that UID. -/
def memberHit (nodeUid : String) (cluster : Unstructured) : Option (Node × String) :=
  match publishedNodeList cluster with
  | some nodelist =>
    match (nodelist.filterMap entryUidName).find? (fun published => published.1 = nodeUid) with
    | some published => some ({ Name := published.2, Conditions := none }, cluster.GetName)
    | none => none
  | none => none

/-- The federation lookup as the specification reads it: without a federation client, or
when the members cannot be listed, no node; otherwise the node of the first member, in
the order listed, that publishes the UID. -/
def federationHit (r : ReScheduler) (nodeUid : String) : Option (Node × String) :=
  match r.kubefedDynClient with
  | none => none
  | some kfClient =>
    match kfClient.list ⟨"core.kubefed.io", "v1beta1", "kubefedclusters"⟩
        r.kubefedNamespace with
    | .ok members => members.findSome? (memberHit nodeUid)
    | .error _ => none

/-- The VM IP list of a host descriptor: the addresses of its virtual machine data when
it is a VM that carries such data, and no address otherwise. -/
def vmIPList (hostSE : EntityDTO) : List String :=
  match hostSE.EntityType, hostSE.VirtualMachineData with
  | .VIRTUAL_MACHINE, some vmData => vmData.IpAddress
  | _, _ => []

/-- The five lookups of the node resolver in the order the specification gives: entity
properties, UUID on this cluster, federation member node lists by UID (only when a
federation client is configured), display name, any IP of the VM IP list (an empty list
holds no IP to match). -/
def lookupsInOrder (r : ReScheduler) (hostSE : EntityDTO) : List (Option (Node × String)) :=
  [ localHit (r.kubeClient.GetNodeFromProperties hostSE.EntityProperties),
    localHit (r.kubeClient.GetNodebyUUID hostSE.Id),
    federationHit r hostSE.Id,
    localHit (r.kubeClient.GetNodebyName hostSE.DisplayName),
    (if vmIPList hostSE = [] then none
      else localHit (r.kubeClient.GetNodebyIP (vmIPList hostSE))) ]

/-- The first hit wins: the answer of the first lookup that found a node, and none when
every lookup missed. -/
def firstHit : List (Option (Node × String)) → Option (Node × String)
  | [] => none
  | none :: rest => firstHit rest
  | some found :: _ => some found

/-- The federation clients that answer with well-typed member node lists. -/
def wellTypedFederation (r : ReScheduler) : Prop :=
  ∀ kfClient members, r.kubefedDynClient = some kfClient →
    kfClient.list ⟨"core.kubefed.io", "v1beta1", "kubefedclusters"⟩ r.kubefedNamespace
      = .ok members →
    wellTypedMembers members = true

/-- A message contains a phrase. -/
def containsPhrase (msg phrase : String) : Prop :=
  ∃ before after, msg = before ++ phrase ++ after

/-- The object that the cross-cluster branch of `Execute` has built when it calls
`Create`, written out: kind, API version, metadata (the namespace only when it is not
empty) and the spec. -/
def federatedAction (name ns : String) (pod : Pod) (source destination nodeName : String) :
    JMap :=
  [ ("kind", .str "Action"),
    ("apiVersion", .str "turbo.kubefed.io/v1alpha1"),
    ("metadata", .obj (("name", .str name) ::
      (if ns.length = 0 then [] else [("namespace", .str ns)]))),
    ("spec", .obj
      [ ("targetRef", .obj [("kind", .str "pod"), ("name", .str pod.Name),
          ("namespace", .str pod.Namespace)]),
        ("clusters", .obj [("source", .str source), ("destination", .str destination)]),
        ("targetNode", .str nodeName) ]) ]

/-! ## A sample cluster, on which the definitions are run -/

/-- Node `n1` of the sample cluster. -/
def sampleNode1 : Node := { Name := "n1", Conditions := none }

/-- Node `n2` of the sample cluster, which reports one condition that is not true. -/
def sampleNode2 : Node :=
  { Name := "n2", Conditions := some [{ CondType := "Ready", Status := "Unknown" }] }

/-- The sample cluster: a property `node=n2` names node `n2`, the UUID `uuid-1` is that
of node `n1`, the display name `n2` and the IP `10.0.0.2` are those of node `n2`; the pod
mover recreates the pod on the node asked for. -/
def sampleKubeClient : KubeClient :=
  { GetNodeFromProperties := fun props =>
      if props = [{ Namespace := "k8s", Name := "node", Value := "n2" }] then .ok sampleNode2
      else .error "no node property"
    GetNodebyUUID := fun uuid => if uuid = "uuid-1" then .ok sampleNode1 else .error "no such UUID"
    GetNodebyName := fun name => if name = "n2" then .ok sampleNode2 else .error "no such name"
    GetNodebyIP := fun ips => if "10.0.0.2" ∈ ips then .ok sampleNode2 else .error "no such IP"
    movePod := fun pod nodeName _ =>
      (some { pod with Name := pod.Name ++ "-moved", NodeName := nodeName }, none) }

/-- A federation control plane with the members `clusterA` (publishing node `n9` with
UID `uuid-9`) and `clusterB` (publishing node `m1` with UID `uuid-b1`), which accepts
every object created. -/
def sampleFederation : DynamicClient :=
  { list := fun _ _ => .ok
      [ ⟨[("metadata", .obj [("name", .str "clusterA")]),
          ("status", .obj [("nodeList", .arr [.obj [("uid", .str "uuid-9"), ("name", .str "n9")]])])]⟩,
        ⟨[("metadata", .obj [("name", .str "clusterB")]),
          ("status", .obj [("nodeList", .arr [.obj [("uid", .str "uuid-b1"), ("name", .str "m1")]])])]⟩ ]
    create := fun _ _ _ => none }

/-- The pod mover of cluster `clusterA` without a federation client. -/
def sampleLocal : ReScheduler :=
  { kubeClient := sampleKubeClient, kubefedDynClient := none, kubefedNamespace := "",
    thisClusterName := "clusterA", sccAllowedSet := ["restricted"] }

/-- The pod mover of cluster `clusterA` with the sample federation client. -/
def sampleFederated : ReScheduler :=
  { kubeClient := sampleKubeClient, kubefedDynClient := some sampleFederation,
    kubefedNamespace := "kube-federation-system", thisClusterName := "clusterA",
    sccAllowedSet := ["restricted"] }

/-- Helpers for the sample cluster: a pod is supported when its `openshift.io/scc`
annotation is absent or in the allow-set, its parent is its first owner reference, and
the supported kinds are those the specification lists. -/
def sampleExternals : Externals :=
  { SupportPrivilegePod := fun pod allowed =>
      match List.lookup "openshift.io/scc" pod.Annotations with
      | none => true
      | some scc => decide (scc ∈ allowed)
    BuildIdentifier := fun ns name => ns ++ "/" ++ name
    GetPodParentInfo := fun pod =>
      match pod.OwnerReferences with
      | [] => ("", "", none)
      | (kind, name) :: _ => (kind, name, none)
    SupportedParent := fun kind =>
      decide (kind ∈ ["ReplicaSet", "ReplicationController", "StatefulSet", "DaemonSet",
        "Deployment", "DeploymentConfig", "Job", ""])
    defaultRetryMore := 4
    nowUnixNano := 1000 }

/-- A running pod on node `n1`, owned by a replica set. -/
def samplePod : Pod :=
  { Name := "web-0", Namespace := "shop", NodeName := "n1", Phase := "Running",
    Annotations := [("openshift.io/scc", "restricted")],
    OwnerReferences := [("ReplicaSet", "web")] }

/-- A host descriptor of the given type, UUID, display name, properties and IP list. -/
def sampleHost (etype : EntityType) (id name : String) (props : List EntityProperty)
    (ips : List String) : EntityDTO :=
  { EntityType := etype, Id := id, DisplayName := name, EntityProperties := props,
    VirtualMachineData := some { IpAddress := ips } }

/-- The action item that moves a pod to the given host. -/
def moveTo (host : EntityDTO) : Option ActionItemDTO :=
  some { NewSE := some host }

/-- A federation control plane whose member `clusterC` publishes a node list holding a
bare string, and whose member `clusterD` publishes a node without a `uid`. -/
def sampleUntypedFederation : DynamicClient :=
  { list := fun _ ns => .ok
      (if ns = "string-entry" then
        [ ⟨[("metadata", .obj [("name", .str "clusterC")]),
            ("status", .obj [("nodeList", .arr [.str "n9"])])]⟩ ]
      else
        [ ⟨[("metadata", .obj [("name", .str "clusterD")]),
            ("status", .obj [("nodeList", .arr [.obj [("name", .str "n9")]])])]⟩ ])
    create := fun _ _ _ => none }

/-- The pod mover of cluster `clusterA` with the federation client above, reading the
member clusters of the given namespace. -/
def sampleUntyped (ns : String) : ReScheduler :=
  { kubeClient := sampleKubeClient, kubefedDynClient := some sampleUntypedFederation,
    kubefedNamespace := ns, thisClusterName := "clusterA", sccAllowedSet := ["restricted"] }

/-! # Properties -/

/-! ## Properties of the retry primitive -/

/-- With no timeout and no sleep, a closure that fails `k` times and then succeeds
makes the loop return nil after `k + 1` further invocations, provided the failures stay
below the attempt bound and the fuel covers them. -/
theorem retryDuringLoop_success {σ : Type} (attempts : Int) (elapsed : Nat → Int)
    (fmtDur : Int → String) (myfunc : σ → GoError × σ) :
    ∀ (k fuel i calls sleeps : Nat) (s : σ), k < fuel → ((i + k : Nat) : Int) ≤ attempts - 1 →
      (∀ j, j < k → (nthCall myfunc s j).1 ≠ none) → (nthCall myfunc s k).1 = none →
      retryDuringLoop attempts 0 0 elapsed fmtDur myfunc fuel i calls sleeps s
        = some ⟨none, calls + k + 1, sleeps, (nthCall myfunc s k).2⟩ := by
  intro k
  induction k with
  | zero =>
    intro fuel i calls sleeps s hfuel _ _ hok
    obtain ⟨f, rfl⟩ : ∃ f, fuel = f + 1 := ⟨fuel - 1, by omega⟩
    rcases hm : myfunc s with ⟨e, s1⟩
    simp only [nthCall, hm] at hok
    subst hok
    simp [retryDuringLoop, nthCall, hm]
  | succ k ih =>
    intro fuel i calls sleeps s hfuel hbound hfail hok
    obtain ⟨f, rfl⟩ : ∃ f, fuel = f + 1 := ⟨fuel - 1, by omega⟩
    rcases hm : myfunc s with ⟨e, s1⟩
    have h0 := hfail 0 (Nat.succ_pos k)
    simp only [nthCall, hm] at h0
    obtain ⟨msg, rfl⟩ : ∃ msg, e = some msg := Option.ne_none_iff_exists'.mp h0
    have hi : ¬ ((i : Int) ≥ attempts - 1) := by push_cast at hbound; omega
    have hrec := ih f (i + 1) (calls + 1) sleeps s1 (by omega)
      (by push_cast at hbound ⊢; omega)
      (fun j hj => by
        have := hfail (j + 1) (by omega)
        simpa [nthCall, hm] using this)
      (by simpa [nthCall, hm] using hok)
    simp only [retryDuringLoop, hm, hi, if_false, lt_irrefl, false_and]
    rw [hrec]
    simp [nthCall, hm, Nat.add_assoc, Nat.add_comm 1 k]

/-- With no timeout and no sleep, a closure that fails on each of the `m + 1` invocations
left before the attempt bound makes the loop stop after exactly those invocations, with
the last error wrapped together with the attempt count. -/
theorem retryDuringLoop_exhausted {σ : Type} (attempts : Int) (elapsed : Nat → Int)
    (fmtDur : Int → String) (myfunc : σ → GoError × σ) :
    ∀ (m fuel i calls sleeps : Nat) (s : σ), m < fuel → ((i + m : Nat) : Int) = attempts - 1 →
      (∀ j, j ≤ m → (nthCall myfunc s j).1 ≠ none) →
      ∃ last, (nthCall myfunc s m).1 = some last ∧
        retryDuringLoop attempts 0 0 elapsed fmtDur myfunc fuel i calls sleeps s
          = some ⟨some ("failed after " ++ toString attempts ++ " attepmts, last error: " ++ last),
              calls + m + 1, sleeps, (nthCall myfunc s m).2⟩ := by
  intro m
  induction m with
  | zero =>
    intro fuel i calls sleeps s hfuel hbound hfail
    obtain ⟨f, rfl⟩ : ∃ f, fuel = f + 1 := ⟨fuel - 1, by omega⟩
    rcases hm : myfunc s with ⟨e, s1⟩
    have h0 := hfail 0 (Nat.le_refl 0)
    simp only [nthCall, hm] at h0
    obtain ⟨msg, rfl⟩ : ∃ msg, e = some msg := Option.ne_none_iff_exists'.mp h0
    have hi : (i : Int) ≥ attempts - 1 := by push_cast at hbound; omega
    exact ⟨msg, by simp [nthCall, hm], by simp [retryDuringLoop, nthCall, hm, hi]⟩
  | succ m ih =>
    intro fuel i calls sleeps s hfuel hbound hfail
    obtain ⟨f, rfl⟩ : ∃ f, fuel = f + 1 := ⟨fuel - 1, by omega⟩
    rcases hm : myfunc s with ⟨e, s1⟩
    have h0 := hfail 0 (Nat.zero_le _)
    simp only [nthCall, hm] at h0
    obtain ⟨msg, rfl⟩ : ∃ msg, e = some msg := Option.ne_none_iff_exists'.mp h0
    have hi : ¬ ((i : Int) ≥ attempts - 1) := by push_cast at hbound; omega
    obtain ⟨last, hlast, hrec⟩ := ih f (i + 1) (calls + 1) sleeps s1 (by omega)
      (by push_cast at hbound ⊢; omega)
      (fun j hj => by
        have := hfail (j + 1) (by omega)
        simpa [nthCall, hm] using this)
    refine ⟨last, by simpa [nthCall, hm] using hlast, ?_⟩
    simp only [retryDuringLoop, hm, hi, if_false, lt_irrefl, false_and]
    rw [hrec]
    simp [nthCall, hm, Nat.add_assoc, Nat.add_comm 1 m]

/-- C1. For every attempt count `N ≥ 1`, with `timeout = 0` and `sleep = 0`: if `myfunc`
fails on its first `K - 1` calls and succeeds on call `K ≤ N`, `RetryDuring` returns after
exactly `K` invocations with a nil error; if `myfunc` fails on each of its first `N` calls,
`RetryDuring` returns after exactly `N` invocations with a non-nil error. -/
theorem RetryDuring_invocation_count {σ : Type} (N : Nat) (hN : 1 ≤ N) (elapsed : Nat → Int)
    (fmtDur : Int → String) (myfunc : σ → GoError × σ) (s : σ) :
    (∀ K, 1 ≤ K → K ≤ N → (∀ j, j < K - 1 → (nthCall myfunc s j).1 ≠ none) →
        (nthCall myfunc s (K - 1)).1 = none →
        ∃ run, RetryDuring (N : Int) 0 0 elapsed fmtDur myfunc s = some run
          ∧ run.calls = K ∧ run.err = none)
    ∧ ((∀ j, j < N → (nthCall myfunc s j).1 ≠ none) →
        ∃ run, RetryDuring (N : Int) 0 0 elapsed fmtDur myfunc s = some run
          ∧ run.calls = N ∧ run.err ≠ none) := by
  have hfuel : (((N : Int) - 1).toNat + 1) = N := by omega
  constructor
  · intro K hK1 hKN hfail hok
    have h := retryDuringLoop_success (N : Int) elapsed fmtDur myfunc (K - 1) N 0 0 0 s
      (by omega) (by push_cast; omega) hfail hok
    unfold RetryDuring
    rw [hfuel, h]
    exact ⟨_, rfl, by show 0 + (K - 1) + 1 = K; omega, rfl⟩
  · intro hfail
    obtain ⟨last, _, h⟩ := retryDuringLoop_exhausted (N : Int) elapsed fmtDur myfunc (N - 1) N
      0 0 0 s (by omega) (by push_cast; omega) (fun j hj => hfail j (by omega))
    unfold RetryDuring
    rw [hfuel, h]
    exact ⟨_, rfl, by show 0 + (N - 1) + 1 = N; omega, by simp⟩

/-- C1 at three attempts: a closure that fails once is invoked twice and the result is
nil; a closure that always fails is invoked three times and the result is an error. -/
theorem RetryDuring_invocation_count_witness :
    (∃ run, RetryDuring (3 : Nat) 0 0 (fun _ => 0) (fun _ => "") (failsFirst 1) 0 = some run
        ∧ run.calls = 2 ∧ run.err = none)
    ∧ (∃ run, RetryDuring (3 : Nat) 0 0 (fun _ => 0) (fun _ => "") (failsFirst 5) 0 = some run
        ∧ run.calls = 3 ∧ run.err ≠ none) :=
  ⟨(RetryDuring_invocation_count 3 (by decide) (fun _ => 0) (fun _ => "") (failsFirst 1) 0).1 2
      (by decide) (by decide)
      (by intro j hj; interval_cases j; simp [nthCall, failsFirst])
      (by simp [nthCall, failsFirst]),
   (RetryDuring_invocation_count 3 (by decide) (fun _ => 0) (fun _ => "") (failsFirst 5) 0).2
      (by intro j hj; interval_cases j <;> simp [nthCall, failsFirst])⟩

/-! ## Properties of the node resolver -/

/-- Over a well-typed node list, the inner loop of the federation lookup returns the
first entry with the UID sought, and misses when there is none. -/
theorem scanNodeList_wellTyped (nodeUid clusterName : String) :
    ∀ nodelist : List JVal,
      nodelist.all (fun entry => (entryUidName entry).isSome) = true →
      scanNodeList nodeUid clusterName nodelist
        = match (nodelist.filterMap entryUidName).find?
            (fun published => published.1 = nodeUid) with
          | some published => .hit { Name := published.2, Conditions := none } clusterName
          | none => .miss := by
  intro nodelist
  induction nodelist with
  | nil => intro _; rfl
  | cons entry rest ih =>
    intro h
    simp only [List.all_cons, Bool.and_eq_true] at h
    obtain ⟨he, hrest⟩ := h
    rcases entry with _ | _ | _ | _ | _ | m <;> try (simp [entryUidName] at he)
    rcases hu : List.lookup "uid" m with _ | vu
    · simp [entryUidName, hu] at he
    rcases vu with _ | _ | _ | uid | _ | _ <;> try (simp [entryUidName, hu] at he)
    rcases hn : List.lookup "name" m with _ | vn
    · simp [entryUidName, hu, hn] at he
    rcases vn with _ | _ | _ | name | _ | _ <;> try (simp [entryUidName, hu, hn] at he)
    unfold scanNodeList
    simp only [mapGet, hu, hn, List.filterMap_cons, entryUidName]
    by_cases huid : uid = nodeUid
    · simp [huid, List.find?]
    · simp only [huid, if_false, List.find?, decide_False]
      exact ih hrest

/-- Over well-typed members, the outer loop of the federation lookup returns the node of
the first member that publishes the UID. -/
theorem scanClusters_wellTyped (nodeUid : String) :
    ∀ members : List Unstructured, wellTypedMembers members = true →
      scanClusters nodeUid members
        = match members.findSome? (memberHit nodeUid) with
          | some (node, clusterName) => .hit node clusterName
          | none => .miss := by
  intro members
  induction members with
  | nil => intro _; rfl
  | cons cluster rest ih =>
    intro h
    simp only [wellTypedMembers, List.all_cons, Bool.and_eq_true] at h
    obtain ⟨hc, hrest⟩ := h
    have ih1 := ih hrest
    rw [scanClusters, List.findSome?, memberHit]
    unfold publishedNodeList at hc ⊢
    rcases hs : NestedSlice cluster.Object ["status", "nodeList"] with ⟨nodelist, found, err⟩
    rw [hs] at hc
    rcases err with _ | e
    · cases found with
      | false => exact ih1
      | true =>
        have hc1 : nodelist.all (fun entry => (entryUidName entry).isSome) = true := hc
        show (match scanNodeList nodeUid cluster.GetName nodelist with
            | .miss => scanClusters nodeUid rest
            | found => found) = _
        rw [scanNodeList_wellTyped nodeUid cluster.GetName nodelist hc1]
        dsimp only
        generalize List.find? _ (List.filterMap entryUidName nodelist) = res
        cases res with
        | none => exact ih1
        | some published => rfl
    · cases found <;> exact ih1

/-- With well-typed member node lists, the federation block of `getNode` finds what the
specification's federation lookup finds. -/
theorem federationLookup_wellTyped (r : ReScheduler) (nodeUid : String)
    (hTyped : wellTypedFederation r) :
    federationLookup r nodeUid
      = match federationHit r nodeUid with
        | some (node, clusterName) => .hit node clusterName
        | none => .miss := by
  unfold federationLookup federationHit
  rcases hk : r.kubefedDynClient with _ | kfClient
  · rfl
  · simp only
    rcases hl : kfClient.list kubefedclusters r.kubefedNamespace with e | members
    · have hl1 : kfClient.list ⟨"core.kubefed.io", "v1beta1", "kubefedclusters"⟩
          r.kubefedNamespace = .error e := hl
      rw [hl1]
    · have hl1 : kfClient.list ⟨"core.kubefed.io", "v1beta1", "kubefedclusters"⟩
          r.kubefedNamespace = .ok members := hl
      rw [hl1]
      exact scanClusters_wellTyped nodeUid members (hTyped kfClient members hk hl1)

/-- The IP list that `getNode` looks up is the VM IP list of the descriptor. -/
theorem getVMIps_eq_vmIPList (hostSE : EntityDTO) : getVMIps hostSE = vmIPList hostSE := by
  unfold getVMIps vmIPList
  rcases ht : hostSE.EntityType with _ | _ | name <;>
    rcases hv : hostSE.VirtualMachineData with _ | vmData <;> simp

/-- C2, as stated, fails. On the cluster whose federation member publishes a node list
holding a bare string, the properties and the UUID of the descriptor resolve to no node,
the federation node lists publish no node under the UID, and the display name `n2`
resolves to node `n2`: the first succeeding lookup is the one by display name, yet
`getNode` returns no node at all. -/
theorem getNode_later_hit_not_returned :
    (∃ e, sampleKubeClient.GetNodeFromProperties [] = .error e)
    ∧ (∃ e, sampleKubeClient.GetNodebyUUID "uuid-9" = .error e)
    ∧ federationHit (sampleUntyped "string-entry") "uuid-9" = none
    ∧ sampleKubeClient.GetNodebyName "n2" = .ok sampleNode2
    ∧ firstHit (lookupsInOrder (sampleUntyped "string-entry")
        (sampleHost .VIRTUAL_MACHINE "uuid-9" "n2" [] ["10.0.0.2"])) = some (sampleNode2, "")
    ∧ getNode (sampleUntyped "string-entry")
        (moveTo (sampleHost .VIRTUAL_MACHINE "uuid-9" "n2" [] ["10.0.0.2"]))
      ≠ .ret (some sampleNode2, "", none)
    ∧ ∀ result, getNode (sampleUntyped "string-entry")
        (moveTo (sampleHost .VIRTUAL_MACHINE "uuid-9" "n2" [] ["10.0.0.2"])) ≠ .ret result := by
  refine ⟨⟨_, rfl⟩, ⟨_, rfl⟩, rfl, rfl, rfl, ?_, ?_⟩
  · have h : getNode (sampleUntyped "string-entry")
        (moveTo (sampleHost .VIRTUAL_MACHINE "uuid-9" "n2" [] ["10.0.0.2"]))
        = .panic "interface conversion: interface is not map[string]interface" := by decide
    rw [h]; simp
  · intro result
    have h : getNode (sampleUntyped "string-entry")
        (moveTo (sampleHost .VIRTUAL_MACHINE "uuid-9" "n2" [] ["10.0.0.2"]))
        = .panic "interface conversion: interface is not map[string]interface" := by decide
    rw [h]; simp

/-- C2, amended to federation members whose published node lists are well typed (every
entry a map whose `uid` and `name` are strings). For every action whose new-host entity
is a VM or a PM, `getNode` returns the node found by the first succeeding lookup in the
order entity properties, local UUID, federation member node lists by UID (only when a
federation client is configured), display name, VM IP list: a later lookup's result is
never returned when an earlier one succeeds, and when every lookup misses `getNode`
returns a nil node with an error. -/
theorem getNode_first_hit (r : ReScheduler) (action : Option ActionItemDTO)
    (hostSE : EntityDTO) (hSE : GetNewSE action = some hostSE)
    (hType : hostSE.EntityType = .VIRTUAL_MACHINE ∨ hostSE.EntityType = .PHYSICAL_MACHINE)
    (hTyped : wellTypedFederation r) :
    match firstHit (lookupsInOrder r hostSE) with
    | some (node, clusterName) => getNode r action = .ret (some node, clusterName, none)
    | none => ∃ err, getNode r action = .ret (none, "", some err) := by
  have hT : ¬ (hostSE.EntityType ≠ .VIRTUAL_MACHINE ∧ hostSE.EntityType ≠ .PHYSICAL_MACHINE) := by
    rcases hType with h | h <;> simp [h]
  unfold getNode
  simp only [hSE, hT, if_false]
  unfold lookupsInOrder
  rw [federationLookup_wellTyped r hostSE.Id hTyped, getVMIps_eq_vmIPList]
  rcases hP : r.kubeClient.GetNodeFromProperties hostSE.EntityProperties with e1 | n1
  swap
  · simp [firstHit, localHit]
  rcases hU : r.kubeClient.GetNodebyUUID hostSE.Id with e2 | n2
  swap
  · simp [firstHit, localHit]
  rcases hF : federationHit r hostSE.Id with _ | ⟨n3, c3⟩
  swap
  · simp [firstHit, localHit]
  rcases hN : r.kubeClient.GetNodebyName hostSE.DisplayName with e4 | n4
  swap
  · simp [firstHit, localHit]
  rcases hI : vmIPList hostSE with _ | ⟨ip, ips⟩
  · simp [firstHit, localHit]
  rcases hB : r.kubeClient.GetNodebyIP (ip :: ips) with e5 | n5
  · simp [firstHit, localHit, hB]
  · simp [firstHit, localHit, hB]

/-- C2, amended, on the sample cluster with its federation, whose node lists are well
typed: the descriptor has no node property, its UUID is published by the member
`clusterB`, its display name and its IP are those of `n2`; the federation lookup comes
before the display name. -/
theorem getNode_first_hit_witness :
    wellTypedFederation sampleFederated
    ∧ firstHit (lookupsInOrder sampleFederated
        (sampleHost .VIRTUAL_MACHINE "uuid-b1" "n2" [] ["10.0.0.2"]))
      = some ({ Name := "m1", Conditions := none }, "clusterB")
    ∧ match firstHit (lookupsInOrder sampleFederated
        (sampleHost .VIRTUAL_MACHINE "uuid-b1" "n2" [] ["10.0.0.2"])) with
      | some (node, clusterName) =>
        getNode sampleFederated
          (moveTo (sampleHost .VIRTUAL_MACHINE "uuid-b1" "n2" [] ["10.0.0.2"]))
            = .ret (some node, clusterName, none)
      | none => ∃ err, getNode sampleFederated
          (moveTo (sampleHost .VIRTUAL_MACHINE "uuid-b1" "n2" [] ["10.0.0.2"]))
            = .ret (none, "", some err) :=
  ⟨by
      intro kfClient members hk hl
      simp only [sampleFederated, Option.some.injEq] at hk
      subst hk
      simp only [sampleFederation, Except.ok.injEq] at hl
      subst hl
      rfl,
    rfl,
    getNode_first_hit sampleFederated
      (moveTo (sampleHost .VIRTUAL_MACHINE "uuid-b1" "n2" [] ["10.0.0.2"]))
      (sampleHost .VIRTUAL_MACHINE "uuid-b1" "n2" [] ["10.0.0.2"]) rfl (Or.inl rfl)
      (by
        intro kfClient members hk hl
        simp only [sampleFederated, Option.some.injEq] at hk
        subst hk
        simp only [sampleFederation, Except.ok.injEq] at hl
        subst hl
        rfl)⟩

/-- C3, as stated, fails on the sample cluster. The UUID `uuid-1` is that of node `n1`
alone, yet a descriptor that also carries the property `node=n2` resolves to `n2`, since
the properties are looked up first; and a descriptor with that UUID whose type is
neither VM nor PM resolves to no node. -/
theorem getNode_uuid_not_decisive :
    sampleLocal.kubeClient.GetNodebyUUID "uuid-1" = .ok sampleNode1
    ∧ getNode sampleLocal (moveTo (sampleHost .VIRTUAL_MACHINE "uuid-1" "n1"
          [{ Namespace := "k8s", Name := "node", Value := "n2" }] []))
        = .ret (some sampleNode2, "", none)
    ∧ sampleNode2 ≠ sampleNode1
    ∧ getNode sampleLocal (moveTo (sampleHost (.other "STORAGE") "uuid-1" "n1" [] []))
        = .ret (none, "", some "The move destination [STORAGE] is neither a VM nor a PM") :=
  ⟨rfl, rfl, by decide, rfl⟩

/-- C3, amended. For every host descriptor of type VM or PM whose entity properties
resolve to no node and whose UUID the UUID lookup of this cluster matches to a node,
`getNode` returns that node with an empty destination cluster, whatever the federation
node lists, the display name and the IP list would resolve to. -/
theorem getNode_by_uuid (r : ReScheduler) (action : Option ActionItemDTO)
    (hostSE : EntityDTO) (node : Node) (hSE : GetNewSE action = some hostSE)
    (hType : hostSE.EntityType = .VIRTUAL_MACHINE ∨ hostSE.EntityType = .PHYSICAL_MACHINE)
    (hProps : ∃ e, r.kubeClient.GetNodeFromProperties hostSE.EntityProperties = .error e)
    (hUUID : r.kubeClient.GetNodebyUUID hostSE.Id = .ok node) :
    getNode r action = .ret (some node, "", none) := by
  have hT : ¬ (hostSE.EntityType ≠ .VIRTUAL_MACHINE ∧ hostSE.EntityType ≠ .PHYSICAL_MACHINE) := by
    rcases hType with h | h <;> simp [h]
  obtain ⟨e, hP⟩ := hProps
  unfold getNode
  simp only [hSE, hT, if_false, hP, hUUID]

/-- C3, amended, on the sample cluster: no node property, the UUID of `n1`, the display
name and the IP of `n2`. -/
theorem getNode_by_uuid_witness :
    (∃ e, sampleFederated.kubeClient.GetNodeFromProperties [] = .error e)
    ∧ sampleFederated.kubeClient.GetNodebyUUID "uuid-1" = .ok sampleNode1
    ∧ getNode sampleFederated (moveTo (sampleHost .VIRTUAL_MACHINE "uuid-1" "n2" [] ["10.0.0.2"]))
        = .ret (some sampleNode1, "", none) :=
  ⟨⟨_, rfl⟩, rfl,
    getNode_by_uuid sampleFederated
      (moveTo (sampleHost .VIRTUAL_MACHINE "uuid-1" "n2" [] ["10.0.0.2"]))
      (sampleHost .VIRTUAL_MACHINE "uuid-1" "n2" [] ["10.0.0.2"]) sampleNode1 rfl (Or.inl rfl)
      ⟨_, rfl⟩ rfl⟩

/-- A hit of the inner federation loop names the cluster scanned and comes from an entry
of the node list whose `uid` is the UID sought and whose `name` is the name of the node
returned. -/
theorem scanNodeList_hit (nodeUid clusterName : String) :
    ∀ (nodelist : List JVal) (node : Node) (c : String),
      scanNodeList nodeUid clusterName nodelist = .hit node c →
      c = clusterName ∧ ∃ entry, JVal.obj entry ∈ nodelist
        ∧ mapGet entry "uid" = some (.str nodeUid)
        ∧ mapGet entry "name" = some (.str node.Name) := by
  intro nodelist
  induction nodelist with
  | nil => intro node c h; simp [scanNodeList] at h
  | cons entry rest ih =>
    intro node c h
    unfold scanNodeList at h
    split at h
    · rename_i m
      split at h
      · rename_i uid huid
        split at h
        · rename_i heq
          split at h
          · rename_i nodeName hname
            simp only [Lookup.hit.injEq] at h
            obtain ⟨hn, hc⟩ := h
            subst hn hc heq
            exact ⟨rfl, m, List.mem_cons_self _ _, huid, hname⟩
          · simp at h
        · obtain ⟨hc, e, he, h1, h2⟩ := ih node c h
          exact ⟨hc, e, List.mem_cons_of_mem _ he, h1, h2⟩
      · simp at h
    · simp at h

/-- A hit of the outer federation loop names a member cluster of the list and comes from
an entry of the node list that member publishes under `status.nodeList`. -/
theorem scanClusters_hit (nodeUid : String) :
    ∀ (items : List Unstructured) (node : Node) (c : String),
      scanClusters nodeUid items = .hit node c →
      ∃ cluster nodelist entry, cluster ∈ items ∧ cluster.GetName = c
        ∧ NestedSlice cluster.Object ["status", "nodeList"] = (nodelist, true, none)
        ∧ JVal.obj entry ∈ nodelist
        ∧ mapGet entry "uid" = some (.str nodeUid)
        ∧ mapGet entry "name" = some (.str node.Name) := by
  intro items
  induction items with
  | nil => intro node c h; simp [scanClusters] at h
  | cons cluster rest ih =>
    intro node c h
    have step : scanClusters nodeUid rest = .hit node c →
        ∃ cl nodelist entry, cl ∈ cluster :: rest ∧ cl.GetName = c
          ∧ NestedSlice cl.Object ["status", "nodeList"] = (nodelist, true, none)
          ∧ JVal.obj entry ∈ nodelist
          ∧ mapGet entry "uid" = some (.str nodeUid)
          ∧ mapGet entry "name" = some (.str node.Name) := by
      intro h2
      obtain ⟨cl, nl, e, hmem, rest2⟩ := ih node c h2
      exact ⟨cl, nl, e, List.mem_cons_of_mem _ hmem, rest2⟩
    unfold scanClusters at h
    simp only at h
    split at h
    · exact step h
    · exact step h
    · rename_i nodelist hslice
      split at h
      · exact step h
      · rename_i found hnot
        obtain ⟨hc, e, he, h1, h2⟩ := scanNodeList_hit nodeUid cluster.GetName nodelist node c h
        exact ⟨cluster, nodelist, e, List.mem_cons_self _ _, hc.symm, hslice, he, h1, h2⟩

/-- A non-empty destination cluster returned by `getNode` is the cluster of a hit of the
federation lookup, returned with that node and a nil error. -/
theorem getNode_dstCluster_federation (r : ReScheduler) (action : Option ActionItemDTO)
    (n : Option Node) (dst : String) (e : GoError)
    (h : getNode r action = .ret (n, dst, e)) (hne : dst ≠ "") :
    ∃ hostSE node, GetNewSE action = some hostSE ∧ n = some node ∧ e = none
      ∧ federationLookup r hostSE.Id = .hit node dst := by
  unfold getNode at h
  split at h
  · simp only [GoResult.ret.injEq, Prod.mk.injEq] at h
    exact absurd h.2.1.symm hne
  · rename_i hostSE hSE
    simp only at h
    split at h
    · simp only [GoResult.ret.injEq, Prod.mk.injEq] at h
      exact absurd h.2.1.symm hne
    · split at h
      · simp only [GoResult.ret.injEq, Prod.mk.injEq] at h
        exact absurd h.2.1.symm hne
      · split at h
        · simp only [GoResult.ret.injEq, Prod.mk.injEq] at h
          exact absurd h.2.1.symm hne
        · split at h
          · rename_i typedNode clusterName hF
            simp only [GoResult.ret.injEq, Prod.mk.injEq] at h
            obtain ⟨hn, hc, he⟩ := h
            subst hc
            exact ⟨hostSE, typedNode, hSE, hn.symm, he.symm, hF⟩
          · simp at h
          · split at h
            · simp only [GoResult.ret.injEq, Prod.mk.injEq] at h
              exact absurd h.2.1.symm hne
            · split at h
              · split at h
                · simp only [GoResult.ret.injEq, Prod.mk.injEq] at h
                  exact absurd h.2.1.symm hne
                · simp only [GoResult.ret.injEq, Prod.mk.injEq] at h
                  exact absurd h.2.1.symm hne
              · simp only [GoResult.ret.injEq, Prod.mk.injEq] at h
                exact absurd h.2.1.symm hne

/-- C10, as stated, fails on the sample cluster. Cluster `clusterA` is itself a member
of the federation and publishes node `n9`; when the lookups on the cluster miss the
UID `uuid-9`, `getNode` returns `n9` with the destination `clusterA`, the name of this
very cluster. -/
theorem getNode_dstCluster_not_foreign :
    getNode sampleFederated (moveTo (sampleHost .VIRTUAL_MACHINE "uuid-9" "n9" [] []))
        = .ret (some { Name := "n9", Conditions := none }, "clusterA", none)
    ∧ sampleFederated.thisClusterName = "clusterA" :=
  ⟨rfl, rfl⟩

/-- C10, amended. `getNode` returns a non-empty destination cluster name only when a
federation client is configured and the node was matched by UID in the node list
published under `status.nodeList` by a member cluster of the federation; the name
returned is that member's name, which is not compared with this cluster's name. -/
theorem getNode_dstCluster_origin (r : ReScheduler) (action : Option ActionItemDTO)
    (n : Option Node) (dst : String) (e : GoError)
    (h : getNode r action = .ret (n, dst, e)) (hne : dst ≠ "") :
    ∃ hostSE node kfClient items cluster nodelist entry,
      GetNewSE action = some hostSE ∧ n = some node ∧ e = none
      ∧ r.kubefedDynClient = some kfClient
      ∧ kfClient.list kubefedclusters r.kubefedNamespace = .ok items
      ∧ cluster ∈ items ∧ cluster.GetName = dst
      ∧ NestedSlice cluster.Object ["status", "nodeList"] = (nodelist, true, none)
      ∧ JVal.obj entry ∈ nodelist
      ∧ mapGet entry "uid" = some (.str hostSE.Id)
      ∧ mapGet entry "name" = some (.str node.Name) := by
  obtain ⟨hostSE, node, hSE, hn, he, hF⟩ := getNode_dstCluster_federation r action n dst e h hne
  unfold federationLookup at hF
  split at hF
  · simp at hF
  · rename_i kfClient hkf
    split at hF
    · rename_i items hitems
      obtain ⟨cluster, nodelist, entry, hmem, hname, hslice, hentry, huid, hnm⟩ :=
        scanClusters_hit hostSE.Id items node dst hF
      exact ⟨hostSE, node, kfClient, items, cluster, nodelist, entry, hSE, hn, he, hkf, hitems,
        hmem, hname, hslice, hentry, huid, hnm⟩
    · simp at hF

/-- C10, amended, on the sample cluster: the UID `uuid-b1` is published by the member
`clusterB`, the destination returned. -/
theorem getNode_dstCluster_origin_witness :
    getNode sampleFederated (moveTo (sampleHost .VIRTUAL_MACHINE "uuid-b1" "m1" [] []))
        = .ret (some { Name := "m1", Conditions := none }, "clusterB", none)
    ∧ "clusterB" ≠ ""
    ∧ ∃ hostSE node kfClient items cluster nodelist entry,
      GetNewSE (moveTo (sampleHost .VIRTUAL_MACHINE "uuid-b1" "m1" [] [])) = some hostSE
      ∧ some (Node.mk "m1" none) = some node ∧ (none : GoError) = none
      ∧ sampleFederated.kubefedDynClient = some kfClient
      ∧ kfClient.list kubefedclusters sampleFederated.kubefedNamespace = .ok items
      ∧ cluster ∈ items ∧ cluster.GetName = "clusterB"
      ∧ NestedSlice cluster.Object ["status", "nodeList"] = (nodelist, true, none)
      ∧ JVal.obj entry ∈ nodelist
      ∧ mapGet entry "uid" = some (.str hostSE.Id)
      ∧ mapGet entry "name" = some (.str node.Name) :=
  ⟨rfl, by decide,
    getNode_dstCluster_origin sampleFederated
      (moveTo (sampleHost .VIRTUAL_MACHINE "uuid-b1" "m1" [] []))
      (some { Name := "m1", Conditions := none }) "clusterB" none rfl (by decide)⟩

/-! ## Properties of the pod move -/

/-- The name given to the federated action is not empty. -/
theorem actionName_length (suffix : String) : ("kubeturbo-action-" ++ suffix).length ≠ 0 := by
  rw [String.length_append]
  have : "kubeturbo-action-".length = 17 := by decide
  omega

/-- The cross-cluster branch of `Execute`, run: once the resolver has returned a node
with a non-empty destination cluster and a federation client is configured, `Execute`
issues one `Create` of the federated action and returns the zero output with the error
of that call. -/
theorem Execute_federated_run (r : ReScheduler) (u : Externals)
    (input : TurboActionExecutorInput) (node : Node) (dst : String) (kf : DynamicClient)
    (hres : getNode r input.ActionItem = .ret (some node, dst, none)) (hdst : dst ≠ "")
    (hkf : r.kubefedDynClient = some kf) :
    Execute r u input =
      ⟨.ret ({}, kf.create actionsResource r.kubefedNamespace
          ⟨federatedAction ("kubeturbo-action-" ++ FormatInt u.nowUnixNano 32)
            r.kubefedNamespace input.Pod r.thisClusterName dst node.Name⟩),
        [.fedCreate actionsResource r.kubefedNamespace
          ⟨federatedAction ("kubeturbo-action-" ++ FormatInt u.nowUnixNano 32)
            r.kubefedNamespace input.Pod r.thisClusterName dst node.Name⟩]⟩ := by
  have hname := actionName_length (FormatInt u.nowUnixNano 32)
  have hgv : actionsResource.GroupVersionString = "turbo.kubefed.io/v1alpha1" := by decide
  unfold Execute getPodNode
  simp only [hres, hdst, ne_eq, not_false_eq_true, if_true, hkf]
  by_cases hns : r.kubefedNamespace.length = 0
  · simp [SetBasicMetaFields, Unstructured.SetKind, Unstructured.SetAPIVersion,
      Unstructured.SetName, Unstructured.SetNamespace, Unstructured.setNestedField,
      SetNestedField, SetNestedMap, setNestedFieldNoCopy, mapSet, mapGet, mapDelete,
      RemoveNestedField2, List.lookup, hgv, targetRefOf, clustersOf, federatedAction,
      hname, hns]
  · simp [SetBasicMetaFields, Unstructured.SetKind, Unstructured.SetAPIVersion,
      Unstructured.SetName, Unstructured.SetNamespace, Unstructured.setNestedField,
      SetNestedField, SetNestedMap, setNestedFieldNoCopy, mapSet, mapGet, mapDelete,
      RemoveNestedField2, List.lookup, hgv, targetRefOf, clustersOf, federatedAction,
      hname, hns]

/-- C4. For every pod and every resolution that yields a node together with a non-empty
destination cluster name, with a federation client configured, `Execute` calls no pod
mover and issues exactly one `Create`, on the resource `turbo.kubefed.io/v1alpha1
actions` in the federation namespace, of an object with that API version, kind `Action`,
a name beginning with `kubeturbo-action-`, `spec.targetRef` naming the pod,
`spec.clusters` naming this cluster as source and the resolved cluster as destination,
and `spec.targetNode` the name of the node. -/
theorem Execute_cross_cluster_creates_action (r : ReScheduler) (u : Externals)
    (input : TurboActionExecutorInput) (node : Node) (dst : String) (kf : DynamicClient)
    (hres : getNode r input.ActionItem = .ret (some node, dst, none)) (hdst : dst ≠ "")
    (hkf : r.kubefedDynClient = some kf) :
    ∃ obj suffix,
      (Execute r u input).effects
          = [.fedCreate ⟨"turbo.kubefed.io", "v1alpha1", "actions"⟩ r.kubefedNamespace ⟨obj⟩]
      ∧ NestedString obj ["apiVersion"] = ("turbo.kubefed.io/v1alpha1", true, none)
      ∧ NestedString obj ["kind"] = ("Action", true, none)
      ∧ NestedString obj ["metadata", "name"] = ("kubeturbo-action-" ++ suffix, true, none)
      ∧ NestedFieldNoCopy (.obj obj) ["spec", "targetRef"]
          = (.obj [("kind", .str "pod"), ("name", .str input.Pod.Name),
              ("namespace", .str input.Pod.Namespace)], true, none)
      ∧ NestedFieldNoCopy (.obj obj) ["spec", "clusters"]
          = (.obj [("source", .str r.thisClusterName), ("destination", .str dst)], true, none)
      ∧ NestedString obj ["spec", "targetNode"] = (node.Name, true, none) := by
  refine ⟨federatedAction ("kubeturbo-action-" ++ FormatInt u.nowUnixNano 32)
    r.kubefedNamespace input.Pod r.thisClusterName dst node.Name, FormatInt u.nowUnixNano 32,
    ?_, ?_, ?_, ?_, ?_, ?_, ?_⟩
  · rw [Execute_federated_run r u input node dst kf hres hdst hkf]
    rfl
  all_goals simp [federatedAction, NestedString, NestedFieldNoCopy, mapGet, List.lookup]

/-- C4 on the sample cluster: the UID `uuid-b1` resolves to node `m1` of the member
`clusterB`, and the move of the sample pod issues one `Create` in the federation
namespace and no call of the pod mover. -/
theorem Execute_cross_cluster_creates_action_witness :
    getNode sampleFederated (moveTo (sampleHost .VIRTUAL_MACHINE "uuid-b1" "m1" [] []))
        = .ret (some (Node.mk "m1" none), "clusterB", none)
    ∧ ∃ obj suffix,
      (Execute sampleFederated sampleExternals
          ⟨moveTo (sampleHost .VIRTUAL_MACHINE "uuid-b1" "m1" [] []), samplePod⟩).effects
          = [.fedCreate ⟨"turbo.kubefed.io", "v1alpha1", "actions"⟩ "kube-federation-system" ⟨obj⟩]
      ∧ NestedString obj ["apiVersion"] = ("turbo.kubefed.io/v1alpha1", true, none)
      ∧ NestedString obj ["kind"] = ("Action", true, none)
      ∧ NestedString obj ["metadata", "name"] = ("kubeturbo-action-" ++ suffix, true, none)
      ∧ NestedFieldNoCopy (.obj obj) ["spec", "targetRef"]
          = (.obj [("kind", .str "pod"), ("name", .str "web-0"),
              ("namespace", .str "shop")], true, none)
      ∧ NestedFieldNoCopy (.obj obj) ["spec", "clusters"]
          = (.obj [("source", .str "clusterA"), ("destination", .str "clusterB")], true, none)
      ∧ NestedString obj ["spec", "targetNode"] = ("m1", true, none) :=
  ⟨rfl,
    Execute_cross_cluster_creates_action sampleFederated sampleExternals
      ⟨moveTo (sampleHost .VIRTUAL_MACHINE "uuid-b1" "m1" [] []), samplePod⟩
      (Node.mk "m1" none) "clusterB" sampleFederation rfl (by decide) rfl⟩

/-- C5 on the sample cluster: the move resolves to node `m1` of the member `clusterB`,
the federation accepts the action created, and `Execute` returns a nil error with the
zero output, whose `Succeeded` flag is false. -/
theorem Execute_cross_cluster_output_not_succeeded :
    (Execute sampleFederated sampleExternals
        ⟨moveTo (sampleHost .VIRTUAL_MACHINE "uuid-b1" "m1" [] []), samplePod⟩).result
      = .ret ({ Succeeded := false, OldPod := none, NewPod := none }, none) :=
  rfl

/-- The error of `preActionCheck` is nil exactly when the SCC of the pod is supported,
and is the unsupported-SCC error otherwise. -/
theorem preActionCheck_err (r : ReScheduler) (u : Externals) (pod : Pod) (node : Node) :
    (preActionCheck r u pod node).1 =
      if u.SupportPrivilegePod pod r.sccAllowedSet = true then none
      else some ("Pod " ++ (pod.Namespace ++ "/" ++ pod.Name) ++ " has unsupported SCC") := by
  unfold preActionCheck
  by_cases hscc : u.SupportPrivilegePod pod r.sccAllowedSet = true
  · simp only [hscc, Bool.not_true, if_true]
    rcases node.Conditions with _ | conditions
    · simp
    · by_cases hlen : conditions.length < 1 <;> simp [hlen]
  · simp only [Bool.not_eq_true] at hscc
    simp [hscc]

/-- The message of the already-on-host error contains the phrase `already on host`. -/
theorem alreadyOnHost_phrase (fullName nodeName : String) :
    containsPhrase ("Pod [" ++ fullName ++ "] is already on host [" ++ nodeName ++ "]")
      "already on host" := by
  refine ⟨"Pod [" ++ fullName ++ "] is ", " [" ++ nodeName ++ "]", ?_⟩
  have hlit : "] is already on host [" = "] is " ++ ("already on host" ++ " [") := by decide
  rw [hlit]
  simp only [String.append_assoc]

/-- C6. For every pod whose SCC is supported and whose `spec.nodeName` equals the name
of the resolved destination node, `reSchedule` returns a nil pod and an error whose
message contains `already on host`, and the pod mover is not invoked. -/
theorem reSchedule_already_on_host (r : ReScheduler) (u : Externals) (pod : Pod) (node : Node)
    (hscc : u.SupportPrivilegePod pod r.sccAllowedSet = true)
    (hsame : pod.NodeName = node.Name) :
    ∃ msg, reSchedule r u pod node = ((none, some msg), [])
      ∧ containsPhrase msg "already on host" := by
  refine ⟨"Pod [" ++ u.BuildIdentifier pod.Namespace pod.Name ++ "] is already on host ["
    ++ node.Name ++ "]", ?_, alreadyOnHost_phrase _ _⟩
  unfold reSchedule
  rw [preActionCheck_err]
  simp [hscc, hsame]

/-- C6 on the sample cluster: the sample pod runs on `n1` and is asked to move to `n1`. -/
theorem reSchedule_already_on_host_witness :
    sampleExternals.SupportPrivilegePod samplePod sampleLocal.sccAllowedSet = true
    ∧ samplePod.NodeName = sampleNode1.Name
    ∧ ∃ msg, reSchedule sampleLocal sampleExternals samplePod sampleNode1 = ((none, some msg), [])
      ∧ containsPhrase msg "already on host" :=
  ⟨by decide, rfl,
    reSchedule_already_on_host sampleLocal sampleExternals samplePod sampleNode1
      (by decide) rfl⟩

/-- C7. `reSchedule` invokes the pod mover (once, with the name of the node) if and only
if all four pre-checks pass: the SCC is supported, the pod is not already on the node,
its parent info is obtained, and the parent kind is supported; it then returns what the
mover returns. In every other case it returns a nil pod and the error of the first
failing check, in this order. -/
theorem reSchedule_prechecks (r : ReScheduler) (u : Externals) (pod : Pod) (node : Node) :
    ((reSchedule r u pod node).2 = [.movePod pod node.Name u.defaultRetryMore] ↔
        (u.SupportPrivilegePod pod r.sccAllowedSet = true ∧ pod.NodeName ≠ node.Name
          ∧ (u.GetPodParentInfo pod).2.2 = none
          ∧ u.SupportedParent (u.GetPodParentInfo pod).1 = true))
    ∧ ((reSchedule r u pod node).2 ≠ [.movePod pod node.Name u.defaultRetryMore] →
        (reSchedule r u pod node).2 = [])
    ∧ (u.SupportPrivilegePod pod r.sccAllowedSet = true → pod.NodeName ≠ node.Name →
        (u.GetPodParentInfo pod).2.2 = none →
        u.SupportedParent (u.GetPodParentInfo pod).1 = true →
        (reSchedule r u pod node).1 = r.kubeClient.movePod pod node.Name u.defaultRetryMore)
    ∧ (u.SupportPrivilegePod pod r.sccAllowedSet = false →
        (reSchedule r u pod node).1
          = (none, some ("Pod " ++ (pod.Namespace ++ "/" ++ pod.Name) ++ " has unsupported SCC")))
    ∧ (u.SupportPrivilegePod pod r.sccAllowedSet = true → pod.NodeName = node.Name →
        (reSchedule r u pod node).1
          = (none, some ("Pod [" ++ u.BuildIdentifier pod.Namespace pod.Name
              ++ "] is already on host [" ++ node.Name ++ "]")))
    ∧ (u.SupportPrivilegePod pod r.sccAllowedSet = true → pod.NodeName ≠ node.Name →
        ∀ err, (u.GetPodParentInfo pod).2.2 = some err →
        (reSchedule r u pod node).1
          = (none, some ("Cannot get parent info of pod ["
              ++ u.BuildIdentifier pod.Namespace pod.Name ++ "]: " ++ err)))
    ∧ (u.SupportPrivilegePod pod r.sccAllowedSet = true → pod.NodeName ≠ node.Name →
        (u.GetPodParentInfo pod).2.2 = none →
        u.SupportedParent (u.GetPodParentInfo pod).1 = false →
        (reSchedule r u pod node).1
          = (none, some ("The object kind [" ++ (u.GetPodParentInfo pod).1 ++ "] of ["
              ++ (u.GetPodParentInfo pod).2.1 ++ "] is not supported"))) := by
  unfold reSchedule
  rw [preActionCheck_err]
  by_cases hscc : u.SupportPrivilegePod pod r.sccAllowedSet = true
  swap
  · simp only [Bool.not_eq_true] at hscc
    simp [hscc]
  by_cases hsame : pod.NodeName = node.Name
  · simp [hscc, hsame]
  rcases hpar : u.GetPodParentInfo pod with ⟨parentKind, parentName, perr⟩
  rcases perr with _ | perr
  swap
  · simp [hscc, hsame]
  by_cases hkind : u.SupportedParent parentKind = true
  · simp [hscc, hsame, hkind]
  · simp only [Bool.not_eq_true] at hkind
    simp [hscc, hsame, hkind]

/-- C8. `preActionCheck` returns an error if and only if the SCC of the pod is not
supported by the allow-set: for every pod with a supported SCC it returns nil, whatever
the phase of the pod and whatever the conditions of the destination node. -/
theorem preActionCheck_error_iff (r : ReScheduler) (u : Externals) (pod : Pod) (node : Node) :
    ((preActionCheck r u pod node).1 ≠ none ↔ u.SupportPrivilegePod pod r.sccAllowedSet = false)
    ∧ (u.SupportPrivilegePod pod r.sccAllowedSet = true →
        (preActionCheck r u pod node).1 = none) := by
  rw [preActionCheck_err]
  by_cases hscc : u.SupportPrivilegePod pod r.sccAllowedSet = true
  · simp [hscc]
  · simp only [Bool.not_eq_true] at hscc
    simp [hscc]

/-- The two ways `reSchedule` ends: a nil pod with an error and no call of the pod
mover, or one call of the pod mover whose answer is returned. -/
theorem reSchedule_cases (r : ReScheduler) (u : Externals) (pod : Pod) (node : Node) :
    (∃ err, reSchedule r u pod node = ((none, some err), []))
    ∨ reSchedule r u pod node = (r.kubeClient.movePod pod node.Name u.defaultRetryMore,
        [.movePod pod node.Name u.defaultRetryMore]) := by
  unfold reSchedule
  rw [preActionCheck_err]
  by_cases hscc : u.SupportPrivilegePod pod r.sccAllowedSet = true
  swap
  · simp only [Bool.not_eq_true] at hscc
    simp [hscc]
  by_cases hsame : pod.NodeName = node.Name
  · simp [hscc, hsame]
  rcases hpar : u.GetPodParentInfo pod with ⟨parentKind, parentName, perr⟩
  rcases perr with _ | perr
  swap
  · simp [hscc, hsame]
  by_cases hkind : u.SupportedParent parentKind = true
  · simp [hscc, hsame, hkind]
  · simp only [Bool.not_eq_true] at hkind
    simp [hscc, hsame, hkind]

/-- C9. Whenever `Execute` returns, an output with `Succeeded = true` comes only with a
nil error, with `OldPod` the input pod and `NewPod` the pod that the pod mover, called
once for the resolved node of this cluster, produced; and whenever the error returned is
not nil the output is the zero value: `Succeeded = false`, nil `OldPod` and `NewPod`. -/
theorem Execute_output_contract (r : ReScheduler) (u : Externals)
    (input : TurboActionExecutorInput) (out : TurboActionExecutorOutput) (err : GoError)
    (h : (Execute r u input).result = .ret (out, err)) :
    (out.Succeeded = true →
        err = none ∧ out.OldPod = some input.Pod
        ∧ ∃ node, getNode r input.ActionItem = .ret (some node, "", none)
          ∧ (Execute r u input).effects = [.movePod input.Pod node.Name u.defaultRetryMore]
          ∧ r.kubeClient.movePod input.Pod node.Name u.defaultRetryMore = (out.NewPod, none))
    ∧ (err ≠ none → out.Succeeded = false ∧ out.OldPod = none ∧ out.NewPod = none) := by
  rcases hG : getNode r input.ActionItem with ⟨n, dst, e⟩ | msg
  swap
  · simp [Execute, getPodNode, hG] at h
  rcases e with _ | e
  swap
  · simp only [Execute, getPodNode, hG, GoResult.ret.injEq, Prod.mk.injEq] at h
    obtain ⟨ho, he⟩ := h
    subst ho he
    simp
  rcases n with _ | node
  · simp [Execute, getPodNode, hG] at h
  by_cases hdst : dst = ""
  · subst hdst
    rcases reSchedule_cases r u input.Pod node with ⟨e2, hR⟩ | hR
    · simp only [Execute, getPodNode, hG, ne_eq, not_true_eq_false, if_false, hR,
        GoResult.ret.injEq, Prod.mk.injEq] at h
      obtain ⟨ho, he⟩ := h
      subst ho he
      simp
    · rcases hM : r.kubeClient.movePod input.Pod node.Name u.defaultRetryMore with ⟨npod, e3⟩
      rw [hM] at hR
      rcases e3 with _ | e3
      · have hE : Execute r u input =
            ⟨.ret ({ Succeeded := true, OldPod := some input.Pod, NewPod := npod }, none),
              [.movePod input.Pod node.Name u.defaultRetryMore]⟩ := by
          simp only [Execute, getPodNode, hG, ne_eq, not_true_eq_false, if_false, hR]
        rw [hE] at h ⊢
        simp only [GoResult.ret.injEq, Prod.mk.injEq] at h
        obtain ⟨ho, he⟩ := h
        subst ho he
        simp [hM]
      · simp only [Execute, getPodNode, hG, ne_eq, not_true_eq_false, if_false, hR,
          GoResult.ret.injEq, Prod.mk.injEq] at h
        obtain ⟨ho, he⟩ := h
        subst ho he
        simp
  · rcases hkf : r.kubefedDynClient with _ | kf
    · simp only [Execute, getPodNode, hG, ne_eq, hdst, not_false_eq_true, if_true, hkf,
        GoResult.ret.injEq, Prod.mk.injEq] at h
      obtain ⟨ho, he⟩ := h
      subst ho he
      simp
    · rw [Execute_federated_run r u input node dst kf hG hdst hkf] at h
      simp only [GoResult.ret.injEq, Prod.mk.injEq] at h
      obtain ⟨ho, he⟩ := h
      subst ho
      simp

/-- C9 on the sample cluster: the sample pod is moved from `n1` to `n2`, found by its
display name; the output is a success carrying the old pod and the pod recreated. -/
theorem Execute_output_contract_witness :
    (Execute sampleLocal sampleExternals
        ⟨moveTo (sampleHost .VIRTUAL_MACHINE "uuid-2" "n2" [] []), samplePod⟩).result
      = .ret ({ Succeeded := true, OldPod := some samplePod,
                NewPod := some { samplePod with Name := "web-0-moved", NodeName := "n2" } }, none)
    ∧ ((true = true →
        (none : GoError) = none ∧ some samplePod = some samplePod
        ∧ ∃ node, getNode sampleLocal (moveTo (sampleHost .VIRTUAL_MACHINE "uuid-2" "n2" [] []))
            = .ret (some node, "", none)
          ∧ (Execute sampleLocal sampleExternals
              ⟨moveTo (sampleHost .VIRTUAL_MACHINE "uuid-2" "n2" [] []), samplePod⟩).effects
            = [.movePod samplePod node.Name sampleExternals.defaultRetryMore]
          ∧ sampleLocal.kubeClient.movePod samplePod node.Name sampleExternals.defaultRetryMore
            = (some { samplePod with Name := "web-0-moved", NodeName := "n2" }, none))
      ∧ ((none : GoError) ≠ none → true = false ∧ some samplePod = none
          ∧ some { samplePod with Name := "web-0-moved", NodeName := "n2" } = none)) :=
  ⟨rfl,
    Execute_output_contract sampleLocal sampleExternals
      ⟨moveTo (sampleHost .VIRTUAL_MACHINE "uuid-2" "n2" [] []), samplePod⟩
      { Succeeded := true, OldPod := some samplePod,
        NewPod := some { samplePod with Name := "web-0-moved", NodeName := "n2" } }
      none rfl⟩

/-! ## Further properties of the retry primitive -/

/-- Whatever the timeout, the sleep and the closure, the loop returns once the fuel
exceeds the iterations left before the attempt bound, after at least one further
invocation and at most one per iteration left. -/
theorem retryDuringLoop_calls_le {σ : Type} (attempts timeout sleep : Int)
    (elapsed : Nat → Int) (fmtDur : Int → String) (myfunc : σ → GoError × σ) :
    ∀ (fuel i calls sleeps : Nat) (s : σ), (attempts - 1 - (i : Int)).toNat < fuel →
      ∃ run, retryDuringLoop attempts timeout sleep elapsed fmtDur myfunc fuel i calls sleeps s
          = some run
        ∧ calls + 1 ≤ run.calls
        ∧ run.calls ≤ calls + (attempts - 1 - (i : Int)).toNat + 1 := by
  intro fuel
  induction fuel with
  | zero => intro i calls sleeps s h; omega
  | succ f ih =>
    intro i calls sleeps s hfuel
    rcases hm : myfunc s with ⟨e, s1⟩
    rcases e with _ | msg
    · have h : retryDuringLoop attempts timeout sleep elapsed fmtDur myfunc (f + 1) i calls
          sleeps s = some ⟨none, calls + 1, sleeps, s1⟩ := by
        simp [retryDuringLoop, hm]
      exact ⟨_, h, Nat.le_refl _, by show calls + 1 ≤ _; omega⟩
    · by_cases hi : (i : Int) ≥ attempts - 1
      · have h : retryDuringLoop attempts timeout sleep elapsed fmtDur myfunc (f + 1) i calls
            sleeps s = some ⟨some ("failed after " ++ toString attempts
              ++ " attepmts, last error: " ++ msg), calls + 1, sleeps, s1⟩ := by
          simp [retryDuringLoop, hm, hi]
        exact ⟨_, h, Nat.le_refl _, by show calls + 1 ≤ _; omega⟩
      · by_cases ht : timeout > 0 ∧ elapsed i > timeout
        · have h : retryDuringLoop attempts timeout sleep elapsed fmtDur myfunc (f + 1) i calls
              sleeps s = some ⟨some ("failed after " ++ toString ((i : Int) + 1)
                ++ " attepmts (during " ++ fmtDur (elapsed i) ++ ") last error: " ++ msg),
                calls + 1, sleeps, s1⟩ := by
            simp only [retryDuringLoop, hm, hi, if_false, ht, and_self, if_true]
          exact ⟨_, h, Nat.le_refl _, by show calls + 1 ≤ _; omega⟩
        · obtain ⟨run, hrun, hlo, hhi⟩ := ih (i + 1) (calls + 1)
            (if sleep > 0 then sleeps + 1 else sleeps) s1 (by push_cast; omega)
          refine ⟨run, ?_, by omega, ?_⟩
          · simp only [retryDuringLoop, hm, hi, if_false, ht]
            exact hrun
          · push_cast at hhi
            omega

/-- C16, as stated, fails: with `attempts = 0`, and with `attempts = -3`, a closure that
fails is still invoked once, which is more than `attempts` times. -/
theorem RetryDuring_nonpositive_attempts_one_call :
    (∃ run, RetryDuring (0 : Int) 0 0 (fun _ => 0) (fun _ => "") (failsFirst 5) 0 = some run
        ∧ run.calls = 1 ∧ ¬ ((run.calls : Int) ≤ 0))
    ∧ (∃ run, RetryDuring (-3 : Int) 0 0 (fun _ => 0) (fun _ => "") (failsFirst 5) 0 = some run
        ∧ run.calls = 1 ∧ ¬ ((run.calls : Int) ≤ -3)) :=
  ⟨⟨_, rfl, rfl, by decide⟩, ⟨_, rfl, rfl, by decide⟩⟩

/-- C16, amended. For every value of `attempts` above the least 64-bit integer (where
`attempts - 1` does not wrap), every timeout, sleep and closure, `RetryDuring` returns
after invoking the closure at least once and at most `max(attempts, 1)` times. -/
theorem RetryDuring_calls_le_max {σ : Type} (attempts timeout sleep : Int)
    (hRange : -(2 : Int) ^ 63 < attempts)
    (elapsed : Nat → Int) (fmtDur : Int → String) (myfunc : σ → GoError × σ) (s : σ) :
    ∃ run, RetryDuring attempts timeout sleep elapsed fmtDur myfunc s = some run
      ∧ 1 ≤ run.calls ∧ (run.calls : Int) ≤ max attempts 1 := by
  obtain ⟨run, hrun, hlo, hhi⟩ := retryDuringLoop_calls_le attempts timeout sleep elapsed fmtDur
    myfunc ((attempts - 1).toNat + 1) 0 0 0 s (by push_cast; omega)
  refine ⟨run, hrun, by omega, ?_⟩
  push_cast at hhi
  rcases le_total attempts 1 with h | h
  · rw [max_eq_right h]
    omega
  · rw [max_eq_left h]
    omega

/-- C16, amended, at `attempts = 0` and at `attempts = 2` with a closure that always
fails: one invocation, and two. -/
theorem RetryDuring_calls_le_max_witness :
    (-(2 : Int) ^ 63 < 0
      ∧ ∃ run, RetryDuring (0 : Int) 0 0 (fun _ => 0) (fun _ => "") (failsFirst 5) 0 = some run
        ∧ 1 ≤ run.calls ∧ (run.calls : Int) ≤ max 0 1)
    ∧ (∃ run, RetryDuring (2 : Int) 0 0 (fun _ => 0) (fun _ => "") (failsFirst 5) 0 = some run
        ∧ 1 ≤ run.calls ∧ (run.calls : Int) ≤ max 2 1) :=
  ⟨⟨by decide, RetryDuring_calls_le_max 0 0 0 (by decide) (fun _ => 0) (fun _ => "")
      (failsFirst 5) 0⟩,
    RetryDuring_calls_le_max 2 0 0 (by decide) (fun _ => 0) (fun _ => "") (failsFirst 5) 0⟩

/-- The error a run of the loop returns wraps the error of the last invocation in one of
two ways: with the attempt bound, when the bound stopped the loop, or with the number
of invocations and the elapsed time, when the timeout stopped it. -/
theorem retryDuringLoop_error_shape {σ : Type} (attempts timeout sleep : Int)
    (elapsed : Nat → Int) (fmtDur : Int → String) (myfunc : σ → GoError × σ) :
    ∀ (fuel i calls sleeps : Nat) (s : σ) (run : RetryRun σ) (msg : String),
      retryDuringLoop attempts timeout sleep elapsed fmtDur myfunc fuel i calls sleeps s
          = some run →
      run.err = some msg →
      ∃ k last, (nthCall myfunc s k).1 = some last ∧ run.calls = calls + k + 1
        ∧ (msg = "failed after " ++ toString attempts ++ " attepmts, last error: " ++ last
          ∨ (timeout > 0 ∧ elapsed (i + k) > timeout
            ∧ msg = "failed after " ++ toString (((i + k : Nat) : Int) + 1)
                ++ " attepmts (during " ++ fmtDur (elapsed (i + k)) ++ ") last error: "
                ++ last)) := by
  intro fuel
  induction fuel with
  | zero => intro i calls sleeps s run msg h; simp [retryDuringLoop] at h
  | succ f ih =>
    intro i calls sleeps s run msg h herr
    rcases hm : myfunc s with ⟨e, s1⟩
    rcases e with _ | e0
    · simp only [retryDuringLoop, hm, Option.some.injEq] at h
      subst h
      simp at herr
    · by_cases hi : (i : Int) ≥ attempts - 1
      · simp only [retryDuringLoop, hm, hi, if_true, Option.some.injEq] at h
        subst h
        simp only [Option.some.injEq] at herr
        exact ⟨0, e0, by simp [nthCall, hm], rfl, Or.inl herr.symm⟩
      · by_cases ht : timeout > 0 ∧ elapsed i > timeout
        · simp only [retryDuringLoop, hm, hi, if_false, ht, and_self, if_true,
            Option.some.injEq] at h
          subst h
          simp only [Option.some.injEq] at herr
          exact ⟨0, e0, by simp [nthCall, hm], rfl, Or.inr ⟨ht.1, ht.2, herr.symm⟩⟩
        · simp only [retryDuringLoop, hm, hi, if_false, ht] at h
          obtain ⟨k, last, hlast, hcalls, hshape⟩ := ih (i + 1) (calls + 1) _ s1 run msg h herr
          refine ⟨k + 1, last, by simpa [nthCall, hm] using hlast, by omega, ?_⟩
          have hik : i + 1 + k = i + (k + 1) := by omega
          rw [hik] at hshape
          exact hshape

/-- C17, as stated, fails: three attempts that all fail, no timeout, a clock that reads 7
nanoseconds rendered `7ns`. The error returned names the attempt count and the last
error, and nowhere the elapsed time. -/
theorem RetryDuring_exhausted_no_elapsed :
    RetryDuring (3 : Int) 0 0 (fun _ => 7) (fun d => toString d ++ "ns") (failsFirst 5) 0
        = some ⟨some "failed after 3 attepmts, last error: boom", 3, 0, 3⟩
    ∧ ¬ containsPhrase "failed after 3 attepmts, last error: boom"
        ((fun d : Int => toString d ++ "ns") 7) := by
  refine ⟨rfl, ?_⟩
  rintro ⟨before, after, h⟩
  have hmem : '7' ∈ (before ++ (fun d : Int => toString d ++ "ns") 7 ++ after).data := by
    have h7 : (fun d : Int => toString d ++ "ns") 7 = "7ns" := by decide
    rw [h7]
    simp [String.data_append]
  rw [← h] at hmem
  revert hmem
  decide

/-- C17, amended. Whenever `RetryDuring` returns an error, the message wraps the error of
the last invocation of the closure, either with the attempt count alone (`failed after
<attempts> attepmts, last error: <err>`, the form returned when the attempts ran out),
or, when a positive timeout was exceeded, with the number of invocations made and the
elapsed time. -/
theorem RetryDuring_error_message {σ : Type} (attempts timeout sleep : Int)
    (elapsed : Nat → Int) (fmtDur : Int → String) (myfunc : σ → GoError × σ) (s : σ)
    (run : RetryRun σ) (msg : String)
    (h : RetryDuring attempts timeout sleep elapsed fmtDur myfunc s = some run)
    (herr : run.err = some msg) :
    ∃ last, (nthCall myfunc s (run.calls - 1)).1 = some last
      ∧ (msg = "failed after " ++ toString attempts ++ " attepmts, last error: " ++ last
        ∨ (timeout > 0 ∧ elapsed (run.calls - 1) > timeout
          ∧ msg = "failed after " ++ toString (run.calls : Int) ++ " attepmts (during "
              ++ fmtDur (elapsed (run.calls - 1)) ++ ") last error: " ++ last)) := by
  obtain ⟨k, last, hlast, hcalls, hshape⟩ := retryDuringLoop_error_shape attempts timeout sleep
    elapsed fmtDur myfunc _ 0 0 0 s run msg h herr
  have hk : run.calls - 1 = k := by omega
  have hc : (run.calls : Int) = ((0 + k : Nat) : Int) + 1 := by rw [hcalls]; push_cast; ring
  rw [hk, hc]
  refine ⟨last, hlast, ?_⟩
  simpa using hshape

/-- C17, amended, on two runs of a closure that always fails: three attempts without a
timeout, and three attempts with a timeout of 5 on a clock that reads 7. -/
theorem RetryDuring_error_message_witness :
    (∃ last, (nthCall (failsFirst 5) 0 (3 - 1)).1 = some last
      ∧ ("failed after 3 attepmts, last error: boom"
          = "failed after " ++ toString (3 : Int) ++ " attepmts, last error: " ++ last
        ∨ ((0 : Int) > 0 ∧ (fun _ : Nat => (7 : Int)) (3 - 1) > 0
          ∧ "failed after 3 attepmts, last error: boom"
            = "failed after " ++ toString ((3 : Nat) : Int) ++ " attepmts (during "
              ++ (fun d : Int => toString d ++ "ns") ((fun _ : Nat => (7 : Int)) (3 - 1))
              ++ ") last error: " ++ last)))
    ∧ RetryDuring (3 : Int) 5 0 (fun _ => 7) (fun d => toString d ++ "ns") (failsFirst 5) 0
        = some ⟨some "failed after 1 attepmts (during 7ns) last error: boom", 1, 0, 1⟩ :=
  ⟨RetryDuring_error_message 3 0 0 (fun _ => 7) (fun d => toString d ++ "ns") (failsFirst 5) 0
      ⟨some "failed after 3 attepmts, last error: boom", 3, 0, 3⟩
      "failed after 3 attepmts, last error: boom" rfl rfl,
    rfl⟩

/-! ## Properties of the API discovery -/

/-- Comparing a string with itself gives zero. -/
theorem compareChars_self : ∀ a : List Char, compareChars a a = 0 := by
  intro a
  induction a with
  | nil => rfl
  | cons c cs ih => simp [compareChars, ih]

/-- Swapping the arguments of the comparison negates the result. -/
theorem compareChars_swap : ∀ a b : List Char, compareChars a b = - compareChars b a := by
  intro a
  induction a with
  | nil => intro b; cases b <;> simp [compareChars]
  | cons c cs ih =>
    intro b
    cases b with
    | nil => simp [compareChars]
    | cons d ds =>
      simp only [compareChars]
      by_cases h1 : c < d
      · have h2 : ¬ d < c := not_lt_of_gt h1
        simp [h1, h2]
      · by_cases h2 : d < c
        · simp [h1, h2]
        · simp [h1, h2, ih ds]

/-- The comparison is that of an order: it is transitive. -/
theorem compareChars_trans : ∀ a b c : List Char,
    compareChars a b ≤ 0 → compareChars b c ≤ 0 → compareChars a c ≤ 0 := by
  intro a
  induction a with
  | nil => intro b c _ _; cases c <;> simp [compareChars]
  | cons x xs ih =>
    intro b c hab hbc
    cases b with
    | nil => simp [compareChars] at hab
    | cons y ys =>
      cases c with
      | nil => simp [compareChars] at hbc
      | cons z zs =>
        simp only [compareChars] at hab hbc ⊢
        by_cases hxy : x < y
        · by_cases hyz : y < z
          · simp [lt_trans hxy hyz]
          · by_cases hzy : z < y
            · simp [hyz, hzy] at hbc
            · have hyz' : y = z := le_antisymm (not_lt.mp hzy) (not_lt.mp hyz)
              subst hyz'
              simp [hxy]
        · by_cases hyx : y < x
          · simp [hxy, hyx] at hab
          · have hxy' : x = y := le_antisymm (not_lt.mp hyx) (not_lt.mp hxy)
            subst hxy'
            simp only [hxy, if_false] at hab
            by_cases hxz : x < z
            · simp [hxz]
            · by_cases hzx : z < x
              · simp [hxz, hzx] at hbc
              · simp only [hxz, hzx, if_false] at hbc ⊢
                exact ih ys zs hab hbc

/-- The order of the Kubernetes-aware comparison, spelled out on the parsed versions:
an unparsed version is below every parsed one, unparsed versions are in reverse string
order, parsed ones are ordered by type, then major, then minor number. -/
theorem CompareKubeAwareVersionStrings_le_iff (v1 v2 : String) :
    CompareKubeAwareVersionStrings v1 v2 ≤ 0 ↔
      match parseKubeVersion v1, parseKubeVersion v2 with
      | none, none => compareChars v2.data v1.data ≤ 0
      | none, some _ => True
      | some _, none => False
      | some (m1, t1, n1), some (m2, t2, n2) =>
        t1 < t2 ∨ (t1 = t2 ∧ (m1 < m2 ∨ (m1 = m2 ∧ n1 ≤ n2))) := by
  unfold CompareKubeAwareVersionStrings
  by_cases h : v1 = v2
  · subst h
    rcases parseKubeVersion v1 with _ | ⟨m, t, n⟩
    · simp [compareChars_self]
    · simp
  · simp only [h, if_false]
    rcases parseKubeVersion v1 with _ | ⟨m1, t1, n1⟩ <;>
      rcases parseKubeVersion v2 with _ | ⟨m2, t2, n2⟩
    · simp [stringsCompare]
    · simp
    · simp
    · simp only
      split_ifs <;> omega

/-- The Kubernetes-aware comparison is transitive. -/
theorem CompareKubeAwareVersionStrings_trans (a b c : String)
    (hab : CompareKubeAwareVersionStrings a b ≤ 0)
    (hbc : CompareKubeAwareVersionStrings b c ≤ 0) :
    CompareKubeAwareVersionStrings a c ≤ 0 := by
  rw [CompareKubeAwareVersionStrings_le_iff] at hab hbc ⊢
  rcases ha : parseKubeVersion a with _ | ⟨m1, t1, n1⟩ <;>
    rcases hb : parseKubeVersion b with _ | ⟨m2, t2, n2⟩ <;>
    rcases hc : parseKubeVersion c with _ | ⟨m3, t3, n3⟩ <;>
    simp only [ha, hb, hc] at hab hbc ⊢ <;>
    first
      | exact compareChars_trans _ _ _ hbc hab
      | omega

/-- The Kubernetes-aware comparison is total. -/
theorem CompareKubeAwareVersionStrings_total (a b : String)
    (h : ¬ CompareKubeAwareVersionStrings a b ≤ 0) :
    CompareKubeAwareVersionStrings b a ≤ 0 := by
  rw [CompareKubeAwareVersionStrings_le_iff] at h ⊢
  rcases ha : parseKubeVersion a with _ | ⟨m1, t1, n1⟩ <;>
    rcases hb : parseKubeVersion b with _ | ⟨m2, t2, n2⟩ <;>
    simp only [ha, hb, not_true_eq_false] at h ⊢
  · rw [compareChars_swap] at h
    omega
  · omega

/-- Two versions each not above the other compare equal. -/
theorem CompareKubeAwareVersionStrings_antisymm (a b : String)
    (hab : CompareKubeAwareVersionStrings a b ≤ 0)
    (hba : CompareKubeAwareVersionStrings b a ≤ 0) :
    CompareKubeAwareVersionStrings a b = 0 := by
  rw [CompareKubeAwareVersionStrings_le_iff] at hab hba
  unfold CompareKubeAwareVersionStrings
  by_cases h : a = b
  · simp [h]
  · simp only [h, if_false]
    rcases ha : parseKubeVersion a with _ | ⟨m1, t1, n1⟩ <;>
      rcases hb : parseKubeVersion b with _ | ⟨m2, t2, n2⟩ <;>
      simp only [ha, hb] at hab hba ⊢
    · rw [stringsCompare]
      rw [compareChars_swap] at hba
      omega
    · split_ifs <;> omega

/-- A version compares equal to itself. -/
theorem CompareKubeAwareVersionStrings_self (a : String) :
    CompareKubeAwareVersionStrings a a = 0 := by
  simp [CompareKubeAwareVersionStrings]

/-- What `latestComparedVersion` keeps is one of its two arguments (the existing one
only when it is not empty) and is not below either of them. -/
theorem latestComparedVersion_spec (new existing : String) :
    (latestComparedVersion new existing = new
        ∨ (latestComparedVersion new existing = existing ∧ existing ≠ ""))
    ∧ CompareKubeAwareVersionStrings new (latestComparedVersion new existing) ≤ 0
    ∧ (existing ≠ "" →
        CompareKubeAwareVersionStrings existing (latestComparedVersion new existing) ≤ 0) := by
  unfold latestComparedVersion
  by_cases h : existing ≠ "" ∧ CompareKubeAwareVersionStrings new existing ≤ 0
  · rw [if_pos h]
    exact ⟨Or.inr ⟨rfl, h.1⟩, h.2,
      fun _ => le_of_eq (CompareKubeAwareVersionStrings_self existing)⟩
  · rw [if_neg h]
    refine ⟨Or.inl rfl, le_of_eq (CompareKubeAwareVersionStrings_self new), fun he => ?_⟩
    exact CompareKubeAwareVersionStrings_total new existing (fun hle => h ⟨he, hle⟩)

/-- The version kept over a list of non-empty versions is the starting one or a member
of the list, is not below any member nor below a non-empty starting one, and is not
empty once a version has been seen. -/
theorem latestOf_spec : ∀ (versions : List String) (existing : String),
    (∀ v ∈ versions, v ≠ "") →
    (latestOf existing versions = existing ∨ latestOf existing versions ∈ versions)
    ∧ (∀ v ∈ versions, CompareKubeAwareVersionStrings v (latestOf existing versions) ≤ 0)
    ∧ (existing ≠ "" →
        CompareKubeAwareVersionStrings existing (latestOf existing versions) ≤ 0)
    ∧ ((existing ≠ "" ∨ versions ≠ []) → latestOf existing versions ≠ "") := by
  intro versions
  induction versions with
  | nil =>
    intro existing _
    refine ⟨Or.inl rfl, by simp, fun _ => le_of_eq (CompareKubeAwareVersionStrings_self _), ?_⟩
    intro h
    simpa [latestOf] using h
  | cons v rest ih =>
    intro existing hall
    have hv : v ≠ "" := hall v (List.mem_cons_self _ _)
    obtain ⟨hkeep, hnew, hold⟩ := latestComparedVersion_spec v existing
    have hk : latestComparedVersion v existing ≠ "" := by
      rcases hkeep with h2 | ⟨h2, h3⟩
      · rw [h2]; exact hv
      · rw [h2]; exact h3
    obtain ⟨hmem, hmax, hinit, hne⟩ := ih (latestComparedVersion v existing)
      (fun w hw => hall w (List.mem_cons_of_mem _ hw))
    have hfold : latestOf existing (v :: rest)
        = latestOf (latestComparedVersion v existing) rest := rfl
    rw [hfold]
    refine ⟨?_, ?_, ?_, fun _ => hne (Or.inl hk)⟩
    · rcases hmem with h | h
      · rcases hkeep with h2 | ⟨h2, _⟩
        · exact Or.inr (by rw [h, h2]; exact List.mem_cons_self _ _)
        · exact Or.inl (by rw [h, h2])
      · exact Or.inr (List.mem_cons_of_mem _ h)
    · intro w hw
      rcases List.mem_cons.mp hw with rfl | hw
      · exact CompareKubeAwareVersionStrings_trans _ _ _ hnew (hinit hk)
      · exact hmax w hw
    · intro he
      exact CompareKubeAwareVersionStrings_trans _ _ _ (hold he) (hinit hk)

/-- When every list that names the resource has a group/version that parses, the loop
of the discovery ends without error and keeps, for each of the two groups, the latest
of the versions advertised for it. -/
theorem discoverLoop_eq (resourceName : String) :
    ∀ (lists : List APIResourceList) (latestExtensions latestApps : String),
      (∀ l ∈ lists, listHasResource resourceName l = true →
        ∃ gv, ParseGroupVersion l.GroupVersion = .ok gv) →
      discoverLoop resourceName lists latestExtensions latestApps
        = .ok (latestOf latestExtensions (advertisedVersions resourceName "extensions" lists),
            latestOf latestApps (advertisedVersions resourceName "apps" lists)) := by
  intro lists
  induction lists with
  | nil => intro e a _; rfl
  | cons l rest ih =>
    intro e a hparse
    have hrest : ∀ l2 ∈ rest, listHasResource resourceName l2 = true →
        ∃ gv, ParseGroupVersion l2.GroupVersion = .ok gv :=
      fun l2 h2 => hparse l2 (List.mem_cons_of_mem _ h2)
    unfold discoverLoop
    by_cases hres : listHasResource resourceName l = true
    · have hlen : ¬ l.APIResources.length = 0 := by
        intro h0
        have : l.APIResources = [] := List.length_eq_zero.mp h0
        simp [listHasResource, this] at hres
      obtain ⟨gv, hgv⟩ := hparse l (List.mem_cons_self _ _) hres
      simp only [hlen, if_false, hres, Bool.true_eq_false, hgv]
      by_cases hext : gv.Group = "extensions"
      · rw [if_pos hext, ih _ _ hrest]
        simp [advertisedVersions, List.filterMap_cons, hres, hgv, hext, latestOf]
      · by_cases happs : gv.Group = "apps"
        · rw [if_neg hext, if_pos happs, ih _ _ hrest]
          simp [advertisedVersions, List.filterMap_cons, hres, hgv, happs, latestOf]
        · rw [if_neg hext, if_neg happs, ih _ _ hrest]
          simp [advertisedVersions, List.filterMap_cons, hres, hgv, hext, happs]
    · simp only [Bool.not_eq_true] at hres
      have hskip : (if l.APIResources.length = 0 then
            discoverLoop resourceName rest e a
          else if listHasResource resourceName l = false then
            discoverLoop resourceName rest e a
          else
            match ParseGroupVersion l.GroupVersion with
            | .error err => .error ("error parsing GroupVersion: " ++ err)
            | .ok gv =>
              if gv.Group = "extensions" then
                discoverLoop resourceName rest (latestComparedVersion gv.Version e) a
              else if gv.Group = "apps" then
                discoverLoop resourceName rest e (latestComparedVersion gv.Version a)
              else discoverLoop resourceName rest e a)
          = discoverLoop resourceName rest e a := by
        split_ifs <;> rfl
      rw [hskip, ih _ _ hrest]
      simp [advertisedVersions, List.filterMap_cons, hres]

/-- The versions advertised are not empty when the versions of the lists that name the
resource are not. -/
theorem advertisedVersions_ne_empty (resourceName group : String)
    (lists : List APIResourceList)
    (hparse : ∀ l ∈ lists, listHasResource resourceName l = true →
      ∃ gv, ParseGroupVersion l.GroupVersion = .ok gv ∧ gv.Version ≠ "") :
    ∀ v ∈ advertisedVersions resourceName group lists, v ≠ "" := by
  intro v hv
  simp only [advertisedVersions, List.mem_filterMap] at hv
  obtain ⟨l, hl, hf⟩ := hv
  by_cases hres : listHasResource resourceName l = true
  · obtain ⟨gv, hgv, hne⟩ := hparse l hl hres
    simp only [hres, if_true, hgv] at hf
    split_ifs at hf
    simp only [Option.some.injEq] at hf
    rw [← hf]
    exact hne
  · simp [hres] at hf

/-- The result of the discovery on lists whose group/versions parse to non-empty
versions: the latest `apps` version advertised, else the latest `extensions` version
advertised, else the default. -/
theorem discoverk8sAPIResourceGV_closed (lists : List APIResourceList) (err : GoError)
    (resourceName : String)
    (hparse : ∀ l ∈ lists, listHasResource resourceName l = true →
      ∃ gv, ParseGroupVersion l.GroupVersion = .ok gv ∧ gv.Version ≠ "") :
    discoverk8sAPIResourceGV (some lists) err resourceName =
      if advertisedVersions resourceName "apps" lists ≠ [] then
        ({ Group := "apps",
           Version := latestOf "" (advertisedVersions resourceName "apps" lists) }, none)
      else if advertisedVersions resourceName "extensions" lists ≠ [] then
        ({ Group := "extensions",
           Version := latestOf "" (advertisedVersions resourceName "extensions" lists) }, none)
      else (K8sAPIDeploymentReplicasetDefaultGV, none) := by
  have hloop := discoverLoop_eq resourceName lists "" ""
    (fun l hl hres => (hparse l hl hres).imp (fun _ h => h.1))
  unfold discoverk8sAPIResourceGV
  simp only [hloop]
  have h0 : latestOf "" [] = "" := rfl
  by_cases ha : advertisedVersions resourceName "apps" lists = []
  · by_cases he : advertisedVersions resourceName "extensions" lists = []
    · simp [ha, he, h0]
    · have hle := (latestOf_spec _ ""
        (advertisedVersions_ne_empty resourceName "extensions" lists hparse)).2.2.2 (Or.inr he)
      simp [ha, he, h0, hle]
  · have hla := (latestOf_spec _ ""
      (advertisedVersions_ne_empty resourceName "apps" lists hparse)).2.2.2 (Or.inr ha)
    simp [ha, hla]

/-- A group advertises the resource exactly when its list of advertised versions is
not empty. -/
theorem groupAdvertises_iff (resourceName group : String) (lists : List APIResourceList) :
    groupAdvertises resourceName group lists
      ↔ advertisedVersions resourceName group lists ≠ [] := by
  constructor
  · rintro ⟨l, hl, hres, gv, hgv, hg⟩ hnil
    have hmem : gv.Version ∈ advertisedVersions resourceName group lists := by
      simp only [advertisedVersions, List.mem_filterMap]
      exact ⟨l, hl, by simp [hres, hgv, hg]⟩
    rw [hnil] at hmem
    simp at hmem
  · intro hne
    obtain ⟨v, hv⟩ := List.exists_mem_of_ne_nil _ hne
    simp only [advertisedVersions, List.mem_filterMap] at hv
    obtain ⟨l, hl, hf⟩ := hv
    by_cases hres : listHasResource resourceName l = true
    · rcases hgv : ParseGroupVersion l.GroupVersion with e | gv
      · simp [hres, hgv] at hf
      · by_cases hg : gv.Group = group
        · exact ⟨l, hl, hres, gv, hgv, hg⟩
        · simp [hres, hgv, hg] at hf
    · simp [hres] at hf

/-- C14, as stated, fails: the group/version `apps/` parses (group `apps`, empty version),
its list names the resource, and `extensions/v1beta1` names it too; the result is
`extensions/v1beta1`, not a version of `apps`. -/
theorem discoverk8sAPIResourceGV_empty_apps_version :
    ParseGroupVersion "apps/" = .ok { Group := "apps", Version := "" }
    ∧ ParseGroupVersion "extensions/v1beta1" = .ok { Group := "extensions", Version := "v1beta1" }
    ∧ groupAdvertises "deployments" "apps"
        [advertise "apps/" "deployments", advertise "extensions/v1beta1" "deployments"]
    ∧ discoverk8sAPIResourceGV
        (some [advertise "apps/" "deployments", advertise "extensions/v1beta1" "deployments"])
        none "deployments"
      = ({ Group := "extensions", Version := "v1beta1" }, none) :=
  ⟨rfl, rfl,
    ⟨advertise "apps/" "deployments", by simp, by decide,
      { Group := "apps", Version := "" }, rfl, rfl⟩, by decide⟩

/-- C14, amended. For every non-nil list of API resource lists in which each list that
names the resource has a group/version that parses to a non-empty version, the group is
selected by the preference apps > extensions: if a list of group `apps` names the
resource the result is a version of `apps`, even when `extensions` names it too;
otherwise, if a list of group `extensions` names it, the result is a version of
`extensions`; otherwise the result is the default `apps/v1`; the error is nil in each
case. -/
theorem discoverk8sAPIResourceGV_group_preference (lists : List APIResourceList)
    (err : GoError) (resourceName : String)
    (hparse : ∀ l ∈ lists, listHasResource resourceName l = true →
      ∃ gv, ParseGroupVersion l.GroupVersion = .ok gv ∧ gv.Version ≠ "") :
    (groupAdvertises resourceName "apps" lists →
        ∃ v, v ≠ "" ∧ discoverk8sAPIResourceGV (some lists) err resourceName
          = ({ Group := "apps", Version := v }, none))
    ∧ (¬ groupAdvertises resourceName "apps" lists →
        groupAdvertises resourceName "extensions" lists →
        ∃ v, v ≠ "" ∧ discoverk8sAPIResourceGV (some lists) err resourceName
          = ({ Group := "extensions", Version := v }, none))
    ∧ (¬ groupAdvertises resourceName "apps" lists →
        ¬ groupAdvertises resourceName "extensions" lists →
        discoverk8sAPIResourceGV (some lists) err resourceName
          = ({ Group := "apps", Version := "v1" }, none)) := by
  rw [discoverk8sAPIResourceGV_closed lists err resourceName hparse]
  simp only [groupAdvertises_iff]
  refine ⟨fun ha => ?_, fun ha he => ?_, fun ha he => ?_⟩
  · exact ⟨_, (latestOf_spec _ ""
      (advertisedVersions_ne_empty resourceName "apps" lists hparse)).2.2.2 (Or.inr ha),
      by rw [if_pos ha]⟩
  · exact ⟨_, (latestOf_spec _ ""
      (advertisedVersions_ne_empty resourceName "extensions" lists hparse)).2.2.2 (Or.inr he),
      by rw [if_neg ha, if_pos he]⟩
  · rw [if_neg ha, if_neg he]
    rfl

/-- C14, amended, on the cluster that advertises deployments under both
`extensions/v1beta1` and `apps/v1`: the result is `apps/v1`. -/
theorem discoverk8sAPIResourceGV_group_preference_witness :
    groupAdvertises "deployments" "apps"
      [advertise "extensions/v1beta1" "deployments", advertise "apps/v1" "deployments"]
    ∧ groupAdvertises "deployments" "extensions"
      [advertise "extensions/v1beta1" "deployments", advertise "apps/v1" "deployments"]
    ∧ discoverk8sAPIResourceGV
        (some [advertise "extensions/v1beta1" "deployments", advertise "apps/v1" "deployments"])
        none "deployments"
      = ({ Group := "apps", Version := "v1" }, none)
    ∧ ∃ v, v ≠ "" ∧ discoverk8sAPIResourceGV
        (some [advertise "extensions/v1beta1" "deployments", advertise "apps/v1" "deployments"])
        none "deployments"
      = ({ Group := "apps", Version := v }, none) :=
  ⟨⟨advertise "apps/v1" "deployments", by simp, by decide,
      { Group := "apps", Version := "v1" }, rfl, rfl⟩,
    ⟨advertise "extensions/v1beta1" "deployments", by simp, by decide,
      { Group := "extensions", Version := "v1beta1" }, rfl, rfl⟩,
    by decide,
    (discoverk8sAPIResourceGV_group_preference
      [advertise "extensions/v1beta1" "deployments", advertise "apps/v1" "deployments"]
      none "deployments"
      (by
        intro l hl _
        simp only [List.mem_cons, List.mem_singleton, List.not_mem_nil, or_false] at hl
        rcases hl with rfl | rfl
        · exact ⟨{ Group := "extensions", Version := "v1beta1" }, rfl, by decide⟩
        · exact ⟨{ Group := "apps", Version := "v1" }, rfl, by decide⟩)).1
      ⟨advertise "apps/v1" "deployments", by simp, by decide,
        { Group := "apps", Version := "v1" }, rfl, rfl⟩⟩

/-- The versions kept over two orders of the same non-empty versions compare equal. -/
theorem latestOf_perm (vs1 vs2 : List String) (hperm : vs1.Perm vs2)
    (hne : ∀ v ∈ vs2, v ≠ "") :
    CompareKubeAwareVersionStrings (latestOf "" vs1) (latestOf "" vs2) = 0 := by
  have hne1 : ∀ v ∈ vs1, v ≠ "" := fun v hv => hne v (hperm.mem_iff.mp hv)
  by_cases h2 : vs2 = []
  · subst h2
    have h1 : vs1 = [] := hperm.eq_nil
    subst h1
    exact CompareKubeAwareVersionStrings_self _
  · have h1 : vs1 ≠ [] := fun h => h2 (by rw [h] at hperm; exact hperm.symm.eq_nil)
    obtain ⟨hm1, hmax1, _, hn1⟩ := latestOf_spec vs1 "" hne1
    obtain ⟨hm2, hmax2, _, hn2⟩ := latestOf_spec vs2 "" hne
    have hin1 : latestOf "" vs1 ∈ vs1 := hm1.resolve_left (hn1 (Or.inr h1))
    have hin2 : latestOf "" vs2 ∈ vs2 := hm2.resolve_left (hn2 (Or.inr h2))
    exact CompareKubeAwareVersionStrings_antisymm _ _
      (hmax2 _ (hperm.mem_iff.mp hin1)) (hmax1 _ (hperm.mem_iff.mpr hin2))

/-- C15, as stated, fails: `v1` and `v01` are distinct versions that compare equal, and
of two lists advertising them under `apps` the one returned first wins, so the result
depends on the order of the lists. -/
theorem discoverk8sAPIResourceGV_order_dependent :
    CompareKubeAwareVersionStrings "v1" "v01" = 0
    ∧ discoverk8sAPIResourceGV
        (some [advertise "apps/v1" "deployments", advertise "apps/v01" "deployments"])
        none "deployments" = ({ Group := "apps", Version := "v1" }, none)
    ∧ discoverk8sAPIResourceGV
        (some [advertise "apps/v01" "deployments", advertise "apps/v1" "deployments"])
        none "deployments" = ({ Group := "apps", Version := "v01" }, none) :=
  ⟨by decide, by decide, by decide⟩

/-- C15, amended. On lists in which each list that names the resource has a
group/version that parses to a non-empty version: when the group of the result
advertises the resource, the version returned is one of the versions advertised for
that group and none of them is above it in the Kubernetes-aware order; any other order
of the same lists gives the same group and a version that compares equal to it (the
same version unless two distinct advertised versions compare equal, such as `v1` and
`v01`); and `latestComparedVersion(new, existing)` returns `new` when `existing` is empty
and otherwise one of the two that is not below the other. -/
theorem discoverk8sAPIResourceGV_latest_version (lists : List APIResourceList)
    (err : GoError) (resourceName : String)
    (hparse : ∀ l ∈ lists, listHasResource resourceName l = true →
      ∃ gv, ParseGroupVersion l.GroupVersion = .ok gv ∧ gv.Version ≠ "") :
    (groupAdvertises resourceName
        (discoverk8sAPIResourceGV (some lists) err resourceName).1.Group lists →
      (discoverk8sAPIResourceGV (some lists) err resourceName).1.Version
          ∈ advertisedVersions resourceName
              (discoverk8sAPIResourceGV (some lists) err resourceName).1.Group lists
      ∧ ∀ v ∈ advertisedVersions resourceName
            (discoverk8sAPIResourceGV (some lists) err resourceName).1.Group lists,
          CompareKubeAwareVersionStrings v
            (discoverk8sAPIResourceGV (some lists) err resourceName).1.Version ≤ 0)
    ∧ (∀ lists2 : List APIResourceList, lists2.Perm lists →
        (discoverk8sAPIResourceGV (some lists2) err resourceName).1.Group
          = (discoverk8sAPIResourceGV (some lists) err resourceName).1.Group
        ∧ CompareKubeAwareVersionStrings
            (discoverk8sAPIResourceGV (some lists2) err resourceName).1.Version
            (discoverk8sAPIResourceGV (some lists) err resourceName).1.Version = 0)
    ∧ (∀ new existing : String,
        latestComparedVersion new "" = new
        ∧ (existing ≠ "" →
          (latestComparedVersion new existing = new
            ∨ latestComparedVersion new existing = existing)
          ∧ CompareKubeAwareVersionStrings new (latestComparedVersion new existing) ≤ 0
          ∧ CompareKubeAwareVersionStrings existing (latestComparedVersion new existing) ≤ 0)) := by
  have hneA := advertisedVersions_ne_empty resourceName "apps" lists hparse
  have hneE := advertisedVersions_ne_empty resourceName "extensions" lists hparse
  refine ⟨?_, ?_, ?_⟩
  · rw [discoverk8sAPIResourceGV_closed lists err resourceName hparse, groupAdvertises_iff]
    by_cases ha : advertisedVersions resourceName "apps" lists = []
    · by_cases he : advertisedVersions resourceName "extensions" lists = []
      · rw [if_neg (not_not.mpr ha), if_neg (not_not.mpr he)]
        intro h
        exact absurd ha h
      · rw [if_neg (not_not.mpr ha), if_pos he]
        intro _
        obtain ⟨hm, hmax, _, hn⟩ := latestOf_spec _ "" hneE
        exact ⟨hm.resolve_left (hn (Or.inr he)), hmax⟩
    · rw [if_pos ha]
      intro _
      obtain ⟨hm, hmax, _, hn⟩ := latestOf_spec _ "" hneA
      exact ⟨hm.resolve_left (hn (Or.inr ha)), hmax⟩
  · intro lists2 hperm
    have hparse2 : ∀ l ∈ lists2, listHasResource resourceName l = true →
        ∃ gv, ParseGroupVersion l.GroupVersion = .ok gv ∧ gv.Version ≠ "" :=
      fun l hl => hparse l (hperm.mem_iff.mp hl)
    have hpA : (advertisedVersions resourceName "apps" lists2).Perm
        (advertisedVersions resourceName "apps" lists) := hperm.filterMap _
    have hpE : (advertisedVersions resourceName "extensions" lists2).Perm
        (advertisedVersions resourceName "extensions" lists) := hperm.filterMap _
    rw [discoverk8sAPIResourceGV_closed lists err resourceName hparse,
      discoverk8sAPIResourceGV_closed lists2 err resourceName hparse2]
    by_cases ha : advertisedVersions resourceName "apps" lists = []
    · have ha2 : advertisedVersions resourceName "apps" lists2 = [] := by
        rw [ha] at hpA; exact hpA.eq_nil
      by_cases he : advertisedVersions resourceName "extensions" lists = []
      · have he2 : advertisedVersions resourceName "extensions" lists2 = [] := by
          rw [he] at hpE; exact hpE.eq_nil
        rw [if_neg (not_not.mpr ha), if_neg (not_not.mpr he), if_neg (not_not.mpr ha2),
          if_neg (not_not.mpr he2)]
        exact ⟨rfl, CompareKubeAwareVersionStrings_self _⟩
      · have he2 : advertisedVersions resourceName "extensions" lists2 ≠ [] := by
          intro h; rw [h] at hpE; exact he hpE.symm.eq_nil
        rw [if_neg (not_not.mpr ha), if_pos he, if_neg (not_not.mpr ha2), if_pos he2]
        exact ⟨rfl, latestOf_perm _ _ hpE hneE⟩
    · have ha2 : advertisedVersions resourceName "apps" lists2 ≠ [] := by
        intro h; rw [h] at hpA; exact ha hpA.symm.eq_nil
      rw [if_pos ha, if_pos ha2]
      exact ⟨rfl, latestOf_perm _ _ hpA hneA⟩
  · intro new existing
    refine ⟨by simp [latestComparedVersion], fun he => ?_⟩
    obtain ⟨hk, hn, ho⟩ := latestComparedVersion_spec new existing
    exact ⟨hk.imp id (fun h => h.1), hn, ho he⟩

/-- C15, amended, on a server that advertises deployments under `apps/v1beta2`,
`apps/v1`, `apps/v1beta1` and `apps/v2alpha1`: the result is `apps/v1`, the GA version,
which none of the four is above. -/
theorem discoverk8sAPIResourceGV_latest_version_witness :
    discoverk8sAPIResourceGV (some sampleAppsLists) none "deployments"
      = ({ Group := "apps", Version := "v1" }, none)
    ∧ (discoverk8sAPIResourceGV (some sampleAppsLists) none "deployments").1.Version
          ∈ advertisedVersions "deployments"
              (discoverk8sAPIResourceGV (some sampleAppsLists) none "deployments").1.Group
              sampleAppsLists
    ∧ ∀ v ∈ advertisedVersions "deployments"
            (discoverk8sAPIResourceGV (some sampleAppsLists) none "deployments").1.Group
            sampleAppsLists,
          CompareKubeAwareVersionStrings v
            (discoverk8sAPIResourceGV (some sampleAppsLists) none "deployments").1.Version ≤ 0 :=
  ⟨by decide,
    (discoverk8sAPIResourceGV_latest_version sampleAppsLists none "deployments"
      (by
        intro l hl _
        simp only [sampleAppsLists, List.mem_cons, List.mem_singleton, List.not_mem_nil,
          or_false] at hl
        rcases hl with rfl | rfl | rfl | rfl
        · exact ⟨{ Group := "apps", Version := "v1beta2" }, rfl, by decide⟩
        · exact ⟨{ Group := "apps", Version := "v1" }, rfl, by decide⟩
        · exact ⟨{ Group := "apps", Version := "v1beta1" }, rfl, by decide⟩
        · exact ⟨{ Group := "apps", Version := "v2alpha1" }, rfl, by decide⟩)).1
      ⟨advertise "apps/v1" "deployments", by simp [sampleAppsLists], by decide,
        { Group := "apps", Version := "v1" }, rfl, by decide⟩⟩

/-! ## Properties of the kubelet monitor -/

/-- C18. For every node whose CPU frequency cannot be retrieved, `scrapeKubelet` returns
with the metric sink unchanged, having asked the kubelet for the CPU frequency only:
the summary is not fetched, so neither node stats nor pod stats are parsed. -/
theorem scrapeKubelet_no_cpu_frequency (u : DiscoveryUtil) (kc : KubeletClient)
    (sink : EntityMetricSink) (node : Node)
    (hfreq : (kc.GetNodeCpuFrequency node).2 ≠ none) :
    (scrapeKubelet u kc sink node).sink = sink
    ∧ (scrapeKubelet u kc sink node).calls = [.cpuFrequency node.Name]
    ∧ (∀ ip, KubeletCall.summary ip ∉ (scrapeKubelet u kc sink node).calls)
    ∧ (scrapeKubelet u kc sink node).result = .ret () := by
  unfold scrapeKubelet
  rcases h : kc.GetNodeCpuFrequency node with ⟨f, e⟩
  rw [h] at hfreq
  rcases e with _ | msg
  · exact absurd rfl hfreq
  · simp

/-- C18 on the sample kubelet client, which cannot give the CPU frequency of `n2`. -/
theorem scrapeKubelet_no_cpu_frequency_witness :
    (sampleKubeletClient.GetNodeCpuFrequency sampleNode2).2 ≠ none
    ∧ (scrapeKubelet sampleDiscoveryUtil sampleKubeletClient sampleSink sampleNode2).sink
        = sampleSink
    ∧ (scrapeKubelet sampleDiscoveryUtil sampleKubeletClient sampleSink sampleNode2).calls
        = [.cpuFrequency "n2"] :=
  have h := scrapeKubelet_no_cpu_frequency sampleDiscoveryUtil sampleKubeletClient sampleSink
    sampleNode2 (by decide)
  ⟨by decide, h.1, h.2.1⟩

/-- The sink after the loop of `parseContainerStats` holds the entries it held before,
followed by the samples of the containers, in order. -/
theorem parseContainerLoop_entries (u : DiscoveryUtil) (podMId : String) :
    ∀ (containers : List ContainerStats) (totalUsedCPU totalUsedMem : ℚ)
      (sink : EntityMetricSink),
      (parseContainerLoop u podMId containers totalUsedCPU totalUsedMem sink).2
        = { sink with
            entries := sink.entries ++ allContainerSamples u podMId containers } := by
  intro containers
  induction containers with
  | nil => intro c m sink; simp [parseContainerLoop, allContainerSamples]
  | cons container rest ih =>
    intro c m sink
    unfold parseContainerLoop
    rcases hcpu : container.CPU with _ | ⟨_ | nano⟩
    · simp [ih, allContainerSamples, containerSamples, hcpu]
    · simp [ih, allContainerSamples, containerSamples, hcpu]
    · rcases hmem : container.Memory with _ | ⟨_ | bytes⟩
      · simp [ih, allContainerSamples, containerSamples, hcpu, hmem]
      · simp [ih, allContainerSamples, containerSamples, hcpu, hmem]
      · simp [ih, allContainerSamples, containerSamples, hcpu, hmem, genUsedMetrics,
          genRequestUsedMetrics, EntityMetricSink.AddNewMetricEntries]

/-- The samples of a container of the list are among the samples of the list. -/
theorem containerSamples_subset (u : DiscoveryUtil) (podMId : String)
    (container : ContainerStats) :
    ∀ containers : List ContainerStats, container ∈ containers →
      ∀ m ∈ containerSamples u podMId container, m ∈ allContainerSamples u podMId containers := by
  intro containers
  induction containers with
  | nil => intro h; simp at h
  | cons c rest ih =>
    intro h m hm
    rcases List.mem_cons.mp h with rfl | h
    · exact List.mem_append_left _ hm
    · exact List.mem_append_right _ (ih h m hm)

/-- C19. For every container of a pod that reports both its CPU usage and its memory
working set, `parseContainerStats` appends to the entries of the sink, among the entries
it adds: container Used samples for CPU in millicores (resource type `CPUMili`) and for
memory in KiB, container Used samples for `CPURequest` and `MemoryRequest` with those
same two values, and application Used samples for CPU and memory with those same two
values, keyed by the container metric id and the application metric id derived from the
pod. -/
theorem parseContainerStats_adds_samples (u : DiscoveryUtil) (sink : EntityMetricSink)
    (pod : PodStats) (container : ContainerStats) (usageNanoCores workingSetBytes : Nat)
    (hmem : container ∈ pod.Containers)
    (hcpu : container.CPU = some ⟨some usageNanoCores⟩)
    (hmemory : container.Memory = some ⟨some workingSetBytes⟩) :
    ∃ added, (parseContainerStats u sink pod).2.entries = sink.entries ++ added
      ∧ ∀ m ∈
        [ Metric.resource .ContainerType
            (u.ContainerMetricId (u.PodMetricId pod.PodRef) container.Name)
            .CPUMili .Used (.float (u.MetricNanoToMili (usageNanoCores : ℚ))),
          Metric.resource .ContainerType
            (u.ContainerMetricId (u.PodMetricId pod.PodRef) container.Name)
            .Memory .Used (.float (u.Base2BytesToKilobytes (workingSetBytes : ℚ))),
          Metric.resource .ContainerType
            (u.ContainerMetricId (u.PodMetricId pod.PodRef) container.Name)
            .CPURequest .Used (.float (u.MetricNanoToMili (usageNanoCores : ℚ))),
          Metric.resource .ContainerType
            (u.ContainerMetricId (u.PodMetricId pod.PodRef) container.Name)
            .MemoryRequest .Used (.float (u.Base2BytesToKilobytes (workingSetBytes : ℚ))),
          Metric.resource .ApplicationType
            (u.ApplicationMetricId
              (u.ContainerMetricId (u.PodMetricId pod.PodRef) container.Name))
            .CPUMili .Used (.float (u.MetricNanoToMili (usageNanoCores : ℚ))),
          Metric.resource .ApplicationType
            (u.ApplicationMetricId
              (u.ContainerMetricId (u.PodMetricId pod.PodRef) container.Name))
            .Memory .Used (.float (u.Base2BytesToKilobytes (workingSetBytes : ℚ))) ],
        m ∈ added := by
  refine ⟨allContainerSamples u (u.PodMetricId pod.PodRef) pod.Containers, ?_, fun m hm => ?_⟩
  · unfold parseContainerStats
    rw [parseContainerLoop_entries]
  · apply containerSamples_subset u _ container pod.Containers hmem
    simpa [containerSamples, hcpu, hmemory] using hm

/-- C19 on the sample pod stats: the container `web` reports 5000000 nanocores and 2048
bytes, and the sink, empty before, holds its six samples after the call. -/
theorem parseContainerStats_adds_samples_witness :
    sampleContainer ∈ samplePodStats.Containers
    ∧ ∃ added,
      (parseContainerStats sampleDiscoveryUtil sampleSink samplePodStats).2.entries
        = sampleSink.entries ++ added
      ∧ ∀ m ∈
        [ Metric.resource .ContainerType "shop/web-0/web" .CPUMili .Used
            (.float ((5000000 : Nat) / 1000000)),
          Metric.resource .ContainerType "shop/web-0/web" .Memory .Used
            (.float ((2048 : Nat) / 1024)),
          Metric.resource .ContainerType "shop/web-0/web" .CPURequest .Used
            (.float ((5000000 : Nat) / 1000000)),
          Metric.resource .ContainerType "shop/web-0/web" .MemoryRequest .Used
            (.float ((2048 : Nat) / 1024)),
          Metric.resource .ApplicationType "App-shop/web-0/web" .CPUMili .Used
            (.float ((5000000 : Nat) / 1000000)),
          Metric.resource .ApplicationType "App-shop/web-0/web" .Memory .Used
            (.float ((2048 : Nat) / 1024)) ],
        m ∈ added :=
  ⟨by simp [samplePodStats],
    parseContainerStats_adds_samples sampleDiscoveryUtil sampleSink samplePodStats
      sampleContainer 5000000 2048 (by simp [samplePodStats]) rfl rfl⟩

/-- With nothing buffered in `stopCh`, every goroutine takes the default case: the nodes
are scraped in the order in which their goroutines reach the `select`. -/
theorem nodeGoroutines_no_signal : ∀ (order scraped : List Node),
    order.foldl nodeGoroutine { stopCh := 0, scraped := scraped }
      = { stopCh := 0, scraped := scraped ++ order } := by
  intro order
  induction order with
  | nil => intro scraped; simp
  | cons n rest ih =>
    intro scraped
    simp only [List.foldl_cons]
    have h : nodeGoroutine { stopCh := 0, scraped := scraped } n
        = { stopCh := 0, scraped := scraped ++ [n] } := by
      simp [nodeGoroutine]
    rw [h, ih]
    simp

/-- One value buffered in `stopCh` stops one goroutine only: the first to reach the
`select` receives it and returns, and every other node of the task is scraped. -/
theorem RetrieveResourceStat_after_Stop (n : Node) (rest : List Node) (first : Node)
    (others : List Node) :
    ∃ m, Stop NewKubeletMonitor = some m
      ∧ RetrieveResourceStat m (some (n :: rest)) (first :: others)
        = (none, { stopCh := 0, scraped := others }) := by
  refine ⟨{ stopCh := 1, scraped := [] }, rfl, ?_⟩
  have h : nodeGoroutine { stopCh := 1, scraped := [] } first
      = { stopCh := 0, scraped := [] } := by
    simp [nodeGoroutine]
  simp only [RetrieveResourceStat, List.foldl_cons, h]
  rw [nodeGoroutines_no_signal]
  simp

/-- C20 on a task of the two sample nodes, after `Stop` has delivered its signal and
before any goroutine has made its check: whichever goroutine checks first returns, and
the other one calls `scrapeKubelet` for its node. -/
theorem RetrieveResourceStat_two_nodes_one_scraped :
    Stop NewKubeletMonitor = some { stopCh := 1, scraped := [] }
    ∧ RetrieveResourceStat { stopCh := 1, scraped := [] } (some [sampleNode1, sampleNode2])
        [sampleNode1, sampleNode2] = (none, { stopCh := 0, scraped := [sampleNode2] })
    ∧ RetrieveResourceStat { stopCh := 1, scraped := [] } (some [sampleNode1, sampleNode2])
        [sampleNode2, sampleNode1] = (none, { stopCh := 0, scraped := [sampleNode1] }) :=
  ⟨rfl, by decide, by decide⟩

/-! ## Properties of the general builder, as modelled from the specification -/

/-- A ring never holds more samples than its capacity. -/
theorem ring_length_le (sink : EntityMetricSink) (etype : DiscoveredEntityType) (id : String)
    (rtype : ResourceType) (prop : MetricProp) :
    (sink.ring etype id rtype prop).length ≤ sink.maxMetricPointsSize := by
  simp only [EntityMetricSink.ring, List.length_drop]
  omega

/-- The points of a ring of points are its samples. -/
theorem ringPoints_map (pts : List Point) : ringPoints (pts.map Sample.point) = pts := by
  induction pts with
  | nil => rfl
  | cons p rest ih => simp [ringPoints, ih]

/-- The latest sample of a non-empty ring of points is a point. -/
theorem getLast_map_point : ∀ pts : List Point, pts ≠ [] →
    ∃ p, (pts.map Sample.point).getLast? = some (Sample.point p)
  | [], h => absurd rfl h
  | [p], _ => ⟨p, rfl⟩
  | p :: q :: rest, _ => by
    obtain ⟨r, hr⟩ := getLast_map_point (q :: rest) (by simp)
    exact ⟨r, by simpa [List.getLast?_cons_cons] using hr⟩

/-- The loop of the usage aggregation adds the values to the sum and takes the greatest
of the peak and the values. -/
theorem pointsLoop_spec : ∀ (rest : List Point) (sum peak : ℚ),
    (pointsLoop rest sum peak).1 = sum + (rest.map (fun p => p.Value)).sum
    ∧ peak ≤ (pointsLoop rest sum peak).2
    ∧ (∀ p ∈ rest, p.Value ≤ (pointsLoop rest sum peak).2)
    ∧ ((pointsLoop rest sum peak).2 = peak
        ∨ ∃ p ∈ rest, (pointsLoop rest sum peak).2 = p.Value) := by
  intro rest
  induction rest with
  | nil => intro sum peak; simp [pointsLoop]
  | cons q rest ih =>
    intro sum peak
    obtain ⟨h1, h2, h3, h4⟩ := ih (sum + q.Value) (max peak q.Value)
    simp only [pointsLoop]
    refine ⟨?_, le_trans (le_max_left _ _) h2, ?_, ?_⟩
    · rw [h1]
      simp [add_assoc]
    · intro p hp
      rcases List.mem_cons.mp hp with rfl | hp
      · exact le_trans (le_max_right _ _) h2
      · exact h3 p hp
    · rcases h4 with h | ⟨p, hp, h⟩
      · rcases max_choice peak q.Value with hm | hm
        · exact Or.inl (by rw [h, hm])
        · exact Or.inr ⟨q, List.mem_cons_self _ _, by rw [h, hm]⟩
      · exact Or.inr ⟨p, List.mem_cons_of_mem _ hp, h⟩

/-- C12. For every non-empty list of used-value points held by the ring of one entity
and resource (at most `maxMetricPointsSize` of them), `metricValue` returns, with a nil
error, `Avg` equal to the arithmetic mean of the point values and `Peak` equal to their
maximum: one of the values, and none of them above it. -/
theorem metricValue_points (sink : EntityMetricSink) (etype : DiscoveredEntityType)
    (id : String) (rtype : ResourceType) (pts : List Point) (hne : pts ≠ [])
    (hring : sink.ring etype id rtype .Used = pts.map Sample.point) :
    pts.length ≤ sink.maxMetricPointsSize
    ∧ (metricValue sink etype id rtype .Used none).2 = none
    ∧ (metricValue sink etype id rtype .Used none).1.Avg
        = (pts.map (fun p => p.Value)).sum / (pts.length : ℚ)
    ∧ (∃ p ∈ pts, (metricValue sink etype id rtype .Used none).1.Peak = p.Value)
    ∧ (∀ p ∈ pts, p.Value ≤ (metricValue sink etype id rtype .Used none).1.Peak) := by
  have hlen : pts.length ≤ sink.maxMetricPointsSize := by
    have h := ring_length_le sink etype id rtype .Used
    rw [hring, List.length_map] at h
    exact h
  obtain ⟨last, hlast⟩ := getLast_map_point pts hne
  have hmv : metricValue sink etype id rtype .Used none = (pointsMetricValue pts, none) := by
    simp [metricValue, rawMetricValue, hring, hlast, ringPoints_map]
  rw [hmv]
  refine ⟨hlen, rfl, ?_⟩
  cases pts with
  | nil => exact absurd rfl hne
  | cons p rest =>
    obtain ⟨h1, h2, h3, h4⟩ := pointsLoop_spec rest p.Value p.Value
    rcases hl : pointsLoop rest p.Value p.Value with ⟨sum, peak⟩
    rw [hl] at h1 h2 h3 h4
    simp only [pointsMetricValue, hl, List.map_cons, List.sum_cons, List.length_cons]
    refine ⟨?_, ?_, ?_⟩
    · simp only at h1
      rw [h1]
      push_cast
      rfl
    · rcases h4 with h | ⟨q, hq, h⟩
      · exact ⟨p, List.mem_cons_self _ _, h⟩
      · exact ⟨q, List.mem_cons_of_mem _ hq, h⟩
    · intro q hq
      rcases List.mem_cons.mp hq with rfl | hq
      · exact h2
      · exact h3 q hq

/-- C12 on the sink of the test: a ring capacity of 3 and the points 2, 4, 3 give
`Avg = 3` and `Peak = 4`. -/
theorem metricValue_points_witness :
    testPointsSink.ring .ContainerType "container" .CPU .Used
        = [Point.mk 2 1, Point.mk 4 2, Point.mk 3 3].map Sample.point
    ∧ (metricValue testPointsSink .ContainerType "container" .CPU .Used none).1.Avg = 3
    ∧ (metricValue testPointsSink .ContainerType "container" .CPU .Used none).1.Peak = 4
    ∧ goInt (metricValue testPointsSink .ContainerType "container" .CPU .Used none).1.Avg = 3
    ∧ goInt (metricValue testPointsSink .ContainerType "container" .CPU .Used none).1.Peak = 4 := by
  have hring : testPointsSink.ring .ContainerType "container" .CPU .Used
      = [Point.mk 2 1, Point.mk 4 2, Point.mk 3 3].map Sample.point := by decide
  obtain ⟨_, _, havg, ⟨p, hp, hpeak⟩, hmax⟩ := metricValue_points testPointsSink .ContainerType
    "container" .CPU [Point.mk 2 1, Point.mk 4 2, Point.mk 3 3] (by simp) hring
  have h3 : (metricValue testPointsSink .ContainerType "container" .CPU .Used none).1.Avg = 3 := by
    rw [havg]; norm_num
  have h4 : (metricValue testPointsSink .ContainerType "container" .CPU .Used none).1.Peak = 4 := by
    have hle := hmax (Point.mk 4 2) (by simp)
    simp only [List.mem_cons, List.mem_singleton, List.not_mem_nil, or_false] at hp
    rcases hp with rfl | rfl | rfl
    · rw [hpeak] at hle; norm_num at hle
    · exact hpeak
    · rw [hpeak] at hle; norm_num at hle
  refine ⟨hring, h3, h4, ?_, ?_⟩
  · rw [h3]; simp [goInt]
  · rw [h4]; simp [goInt]

/-- The cumulative samples of a ring of cumulative samples are its samples. -/
theorem ringThrottling_map (ts : List ThrottlingCumulative) :
    ringThrottling (ts.map Sample.throttling) = ts := by
  induction ts with
  | nil => rfl
  | cons t rest ih => simp [ringThrottling, ih]

/-- The latest sample of a non-empty ring of cumulative samples is a cumulative sample. -/
theorem getLast_map_throttling : ∀ ts : List ThrottlingCumulative, ts ≠ [] →
    ∃ t, (ts.map Sample.throttling).getLast? = some (Sample.throttling t)
  | [], h => absurd rfl h
  | [t], _ => ⟨t, rfl⟩
  | t :: q :: rest, _ => by
    obtain ⟨r, hr⟩ := getLast_map_throttling (q :: rest) (by simp)
    exact ⟨r, by simpa [List.getLast?_cons_cons] using hr⟩

/-- The greatest of a list, zero for the empty list, is not negative. -/
theorem maxOf_nonneg (values : List ℚ) : 0 ≤ maxOf values := by
  cases values with
  | nil => simp [maxOf]
  | cons v rest =>
    simp only [maxOf, List.foldr_cons]
    induction rest generalizing v with
    | nil => simp
    | cons w rest ih => exact le_trans (ih w) (le_max_right _ _)

/-- The loop of the throttling aggregation adds to the sums the deltas of the accepted
intervals, and takes the greatest of the peak and their ratios. -/
theorem throttlingLoop_spec : ∀ (rest : List ThrottlingCumulative) (prev : ThrottlingCumulative)
    (throttledSum totalSum peak : ℚ), 0 ≤ peak →
    throttlingLoop prev rest throttledSum totalSum peak
      = (throttledSum + ((((consecutivePairs (prev :: rest)).map
            (fun pair => (pair.2.Throttled - pair.1.Throttled, pair.2.Total - pair.1.Total))).filter
            (fun d => decide (0 ≤ d.1 ∧ 0 ≤ d.2))).map (fun d => d.1)).sum,
         totalSum + ((((consecutivePairs (prev :: rest)).map
            (fun pair => (pair.2.Throttled - pair.1.Throttled, pair.2.Total - pair.1.Total))).filter
            (fun d => decide (0 ≤ d.1 ∧ 0 ≤ d.2))).map (fun d => d.2)).sum,
         max peak (maxOf ((((consecutivePairs (prev :: rest)).map
            (fun pair => (pair.2.Throttled - pair.1.Throttled, pair.2.Total - pair.1.Total))).filter
            (fun d => decide (0 ≤ d.1 ∧ 0 ≤ d.2))).map (fun d => 100 * d.1 / d.2)))) := by
  intro rest
  induction rest with
  | nil =>
    intro prev sT sTot pk hpk
    simp [throttlingLoop, consecutivePairs, maxOf, hpk]
  | cons cur rest ih =>
    intro prev sT sTot pk hpk
    simp only [throttlingLoop, consecutivePairs, List.map_cons]
    by_cases hrej : cur.Throttled - prev.Throttled < 0 ∨ cur.Total - prev.Total < 0
    · have hflt : ¬ (decide (0 ≤ cur.Throttled - prev.Throttled
          ∧ 0 ≤ cur.Total - prev.Total) = true) := by
        rw [decide_eq_true_eq]
        rintro ⟨h1, h2⟩
        rcases hrej with h | h
        · exact absurd h1 (not_le.mpr h)
        · exact absurd h2 (not_le.mpr h)
      rw [if_pos hrej, ih cur sT sTot pk hpk, List.filter_cons, if_neg hflt]
    · have hacc : decide (0 ≤ cur.Throttled - prev.Throttled
          ∧ 0 ≤ cur.Total - prev.Total) = true := by
        rw [decide_eq_true_eq]
        push_neg at hrej
        exact hrej
      rw [if_neg hrej, ih cur _ _ _ (le_trans hpk (le_max_left _ _)), List.filter_cons,
        if_pos hacc]
      simp only [List.map_cons, List.sum_cons, maxOf, List.foldr_cons]
      refine Prod.ext ?_ (Prod.ext ?_ ?_)
      · simp [add_assoc]
      · simp [add_assoc]
      · simp only [max_assoc]
        congr 2
        ring

/-- C11. For every non-empty series of cumulative throttling samples held by the ring of
one container, `metricValue` yields, with a nil error, `Avg` = 100 times the sum of the
accepted delta-throttled over the sum of the accepted delta-total, and `Peak` = the
maximum of 100 times delta-throttled over delta-total over the accepted intervals, the
intervals being the consecutive sample pairs in timestamp order, accepted exactly when
neither delta is negative. -/
theorem metricValue_throttling (sink : EntityMetricSink) (etype : DiscoveredEntityType)
    (id : String) (ts : List ThrottlingCumulative) (hne : ts ≠ [])
    (hring : sink.ring etype id .VCPUThrottling .Used = ts.map Sample.throttling) :
    metricValue sink etype id .VCPUThrottling .Used none
      = ({ Avg := 100 * ((acceptedIntervals ts).map (fun d => d.1)).sum
                    / ((acceptedIntervals ts).map (fun d => d.2)).sum,
           Peak := maxOf ((acceptedIntervals ts).map (fun d => 100 * d.1 / d.2)) }, none) := by
  obtain ⟨last, hlast⟩ := getLast_map_throttling ts hne
  have hmv : metricValue sink etype id .VCPUThrottling .Used none
      = (throttlingMetricValue ts, none) := by
    simp [metricValue, rawMetricValue, hring, hlast, ringThrottling_map]
  rw [hmv]
  unfold throttlingMetricValue acceptedIntervals
  rcases hs : List.insertionSort (fun a b : ThrottlingCumulative => a.Timestamp ≤ b.Timestamp)
      ts with _ | ⟨first, rest⟩
  · simp [consecutivePairs, maxOf]
  · simp only [throttlingLoop_spec rest first 0 0 0 (le_refl 0), zero_add,
      max_eq_right (maxOf_nonneg _)]
    congr 2
    ring

/-- The accepted intervals of the 11 samples of the test. -/
theorem acceptedIntervals_test11 :
    acceptedIntervals testThrottlingSeries
      = [(2, 3), (2, 2), (1, 5), (5, 10), (1, 5), (2, 3), (2, 3)] := by
  simp [acceptedIntervals, testThrottlingSeries, List.insertionSort, List.orderedInsert,
    consecutivePairs]
  norm_num

/-- The accepted intervals of the first 5 samples of the test. -/
theorem acceptedIntervals_test5 :
    acceptedIntervals (testThrottlingSeries.take 5) = [(2, 3), (2, 2), (1, 5), (5, 10)] := by
  simp [acceptedIntervals, testThrottlingSeries, List.insertionSort, List.orderedInsert,
    consecutivePairs]
  norm_num

/-- C11 on the sink of the test: the 11 samples give `int(Avg) = 48` and `Peak = 100`,
and the first 5 samples give `int(Avg) = 50` and `Peak = 100`. -/
theorem metricValue_throttling_witness :
    (goInt (metricValue (testThrottlingSink 11) .ContainerType "container-throttling"
        .VCPUThrottling .Used none).1.Avg = 48
      ∧ (metricValue (testThrottlingSink 11) .ContainerType "container-throttling"
        .VCPUThrottling .Used none).1.Peak = 100)
    ∧ (goInt (metricValue (testThrottlingSink 5) .ContainerType "container-throttling"
        .VCPUThrottling .Used none).1.Avg = 50
      ∧ (metricValue (testThrottlingSink 5) .ContainerType "container-throttling"
        .VCPUThrottling .Used none).1.Peak = 100) := by
  have h11 := metricValue_throttling (testThrottlingSink 11) .ContainerType
    "container-throttling" testThrottlingSeries (by simp [testThrottlingSeries]) (by decide)
  have h5 := metricValue_throttling (testThrottlingSink 5) .ContainerType
    "container-throttling" (testThrottlingSeries.take 5) (by simp [testThrottlingSeries])
    (by decide)
  rw [h11, h5, acceptedIntervals_test11, acceptedIntervals_test5]
  refine ⟨⟨?_, ?_⟩, ?_, ?_⟩
  · have h : (100 * (List.map (fun d : ℚ × ℚ => d.1)
        [(2, 3), (2, 2), (1, 5), (5, 10), (1, 5), (2, 3), (2, 3)]).sum
        / (List.map (fun d : ℚ × ℚ => d.2)
        [(2, 3), (2, 2), (1, 5), (5, 10), (1, 5), (2, 3), (2, 3)]).sum : ℚ) = 1500 / 31 := by
      norm_num
    simp only [h, goInt]
    rw [if_pos (by norm_num)]
    rw [Int.floor_eq_iff]
    norm_num
  · simp [maxOf]
    norm_num
  · have h : (100 * (List.map (fun d : ℚ × ℚ => d.1) [(2, 3), (2, 2), (1, 5), (5, 10)]).sum
        / (List.map (fun d : ℚ × ℚ => d.2) [(2, 3), (2, 2), (1, 5), (5, 10)]).sum : ℚ) = 50 := by
      norm_num
    simp only [h, goInt]
    rw [if_pos (by norm_num)]
    rw [Int.floor_eq_iff]
    norm_num
  · simp [maxOf]
    norm_num

/-- The metric of a key has a value exactly when the sink holds it. -/
theorem rawMetricValue_isSome_iff (sink : EntityMetricSink) (etype : DiscoveredEntityType)
    (id : String) (rtype : ResourceType) (prop : MetricProp) :
    (∃ mv, rawMetricValue sink etype id rtype prop = some mv)
      ↔ sink.holds etype id rtype prop := by
  unfold rawMetricValue EntityMetricSink.holds
  rcases h : (sink.ring etype id rtype prop).getLast? with _ | last
  · rw [List.getLast?_eq_none_iff] at h
    simp [h]
  · have hne : sink.ring etype id rtype prop ≠ [] := by
      intro h0
      rw [h0] at h
      simp at h
    cases last <;> simp [hne]

/-- C13. For every entity, `getSoldResourceCommodityWithKey` for the CPU resource returns
a commodity if and only if the sink holds both the used and the capacity metric of the
entity and the converter is not nil; the commodity is then of type VCPU, with the given
key, used = converter(used metric), capacity = converter(capacity metric), and the
error is nil. If the used metric is missing, the capacity metric is missing or the
converter is nil, it returns a nil commodity and a non-nil error. -/
theorem getSoldResourceCommodityWithKey_cpu (sink : EntityMetricSink)
    (etype : DiscoveredEntityType) (id commKey : String) (converter : Option Converter) :
    ((∃ c, (getSoldResourceCommodityWithKey sink etype id .CPU commKey converter).1 = some c)
        ↔ (sink.holds etype id .CPU .Used ∧ sink.holds etype id .CPU .Capacity
            ∧ converter.isSome = true))
    ∧ (∀ conv used capacity, converter = some conv →
        rawMetricValue sink etype id .CPU .Used = some used →
        rawMetricValue sink etype id .CPU .Capacity = some capacity →
        getSoldResourceCommodityWithKey sink etype id .CPU commKey converter
          = (some { CommodityType := .VCPU, Key := commKey,
                    Used := conv.Convert .CPU used.Avg, Peak := conv.Convert .CPU used.Peak,
                    Capacity := conv.Convert .CPU capacity.Avg }, none))
    ∧ ((¬ sink.holds etype id .CPU .Used ∨ ¬ sink.holds etype id .CPU .Capacity
          ∨ converter = none) →
        (getSoldResourceCommodityWithKey sink etype id .CPU commKey converter).1 = none
        ∧ (getSoldResourceCommodityWithKey sink etype id .CPU commKey converter).2 ≠ none) := by
  simp only [← rawMetricValue_isSome_iff]
  unfold getSoldResourceCommodityWithKey
  rcases converter with _ | conv
  · simp [rTypeMapping, isCPUType]
  · rcases hu : rawMetricValue sink etype id .CPU .Used with _ | used
    · simp [rTypeMapping, isCPUType, metricValue, hu]
    · rcases hc : rawMetricValue sink etype id .CPU .Capacity with _ | capacity
      · simp [rTypeMapping, isCPUType, metricValue, hu, hc]
      · simp [rTypeMapping, isCPUType, metricValue, hu, hc]

/-- C13 on the sinks of the builder tests: with CPU used 1, CPU capacity 2 and the
converter that multiplies by 2048 the commodity sold is VCPU with used 2048 and
capacity 4096; without the converter no commodity is returned. -/
theorem getSoldResourceCommodityWithKey_cpu_witness :
    getSoldResourceCommodityWithKey testCPUSink .PodType "pod1" .CPU "" (some cpuConverter)
      = (some { CommodityType := .VCPU, Key := "",
                Used := cpuConverter.Convert .CPU 1, Peak := cpuConverter.Convert .CPU 1,
                Capacity := cpuConverter.Convert .CPU 2 }, none)
    ∧ cpuConverter.Convert .CPU 1 = 2048 ∧ cpuConverter.Convert .CPU 2 = 4096
    ∧ (getSoldResourceCommodityWithKey testCPUSink .PodType "pod1" .CPU "" none).1 = none
    ∧ (getSoldResourceCommodityWithKey testCPUSink .PodType "pod1" .CPU "" none).2 ≠ none :=
  ⟨(getSoldResourceCommodityWithKey_cpu testCPUSink .PodType "pod1" "" (some cpuConverter)).2.1
      cpuConverter { Avg := 1, Peak := 1 } { Avg := 2, Peak := 2 } rfl (by decide) (by decide),
    by simp [Converter.Convert, cpuConverter],
    by simp [Converter.Convert, cpuConverter]; norm_num,
    ((getSoldResourceCommodityWithKey_cpu testCPUSink .PodType "pod1" "" none).2.2
      (Or.inr (Or.inr rfl))).1,
    ((getSoldResourceCommodityWithKey_cpu testCPUSink .PodType "pod1" "" none).2.2
      (Or.inr (Or.inr rfl))).2⟩


/-! ## Further properties of the node resolver -/

/-- C25: whenever `getPodNode` (that is, `getNode`) returns a destination cluster name
that is not empty, the federation client of the executor is not nil; the branch of
`Execute` that reports "Got multi-cluster action but Kubefed client is null" needs a
non-empty destination and a nil client, so it is never taken. -/
theorem getNode_dstCluster_client_not_nil (r : ReScheduler) (action : Option ActionItemDTO)
    (n : Option Node) (dst : String) (e : GoError)
    (h : getPodNode r action = .ret (n, dst, e)) (hne : dst ≠ "") :
    r.kubefedDynClient ≠ none := by
  obtain ⟨hostSE, node, _, _, _, hF⟩ := getNode_dstCluster_federation r action n dst e h hne
  intro hnil
  simp [federationLookup, hnil] at hF

/-- C25 on the sample cluster: the destination `clusterB` comes with a federation
client. -/
theorem getNode_dstCluster_client_not_nil_witness :
    getPodNode sampleFederated (moveTo (sampleHost .VIRTUAL_MACHINE "uuid-b1" "m1" [] []))
        = .ret (some { Name := "m1", Conditions := none }, "clusterB", none)
    ∧ "clusterB" ≠ ""
    ∧ sampleFederated.kubefedDynClient ≠ none :=
  ⟨rfl, by decide,
    getNode_dstCluster_client_not_nil sampleFederated
      (moveTo (sampleHost .VIRTUAL_MACHINE "uuid-b1" "m1" [] []))
      (some { Name := "m1", Conditions := none }) "clusterB" none rfl (by decide)⟩

/-- C26 fails: the federation lookup of `getNode` aborts on an untyped payload. When no
lookup on the cluster resolves the host, a member cluster whose `status.nodeList` holds a
bare string makes the assertion `node.(map[string]interface{})` fail, and one whose entry
has no `uid` makes the assertion `node["uid"].(string)` fail; `getNode` then neither
returns a node nor goes on to the lookups by name and by IP, although the host's display
name `n2` would have resolved. -/
theorem getNode_untyped_payload_aborts :
    getNode (sampleUntyped "string-entry")
        (moveTo (sampleHost .VIRTUAL_MACHINE "uuid-9" "n2" [] ["10.0.0.2"]))
      = .panic "interface conversion: interface is not map[string]interface"
    ∧ getNode (sampleUntyped "no-uid")
        (moveTo (sampleHost .VIRTUAL_MACHINE "uuid-9" "n2" [] ["10.0.0.2"]))
      = .panic "interface conversion: interface is not string"
    ∧ sampleKubeClient.GetNodebyName "n2" = .ok sampleNode2 := by
  refine ⟨by decide, by decide, rfl⟩


/-! ## Further properties of the kubelet monitor -/

/-- The Used values of a concatenation of entries. -/
theorem usedValues_append (etype : DiscoveredEntityType) (rtype : ResourceType) :
    ∀ xs ys : List Metric,
      usedValues etype rtype (xs ++ ys) = usedValues etype rtype xs ++ usedValues etype rtype ys := by
  intro xs
  induction xs with
  | nil => intro ys; rfl
  | cons x rest ih =>
    intro ys
    rcases x with ⟨e, id, r, _ | _, _ | _ | _ | _⟩ | ⟨e, id, r, v⟩ <;>
      simp only [List.cons_append, usedValues] <;>
      first
        | exact ih ys
        | (split
           · exact congrArg (List.cons _) (ih ys)
           · exact ih ys)

/-- The totals returned by the loop of `parseContainerStats` are the totals it started
from with the container-level Used values it emitted added to them, in order. -/
theorem parseContainerLoop_totals (u : DiscoveryUtil) (podMId : String) :
    ∀ (containers : List ContainerStats) (totalUsedCPU totalUsedMem : ℚ)
      (sink : EntityMetricSink),
      (parseContainerLoop u podMId containers totalUsedCPU totalUsedMem sink).1
        = ((usedValues .ContainerType .CPUMili
              (allContainerSamples u podMId containers)).foldl u.Float64Add totalUsedCPU,
           (usedValues .ContainerType .Memory
              (allContainerSamples u podMId containers)).foldl u.Float64Add totalUsedMem) := by
  intro containers
  induction containers with
  | nil => intro c m sink; simp [parseContainerLoop, allContainerSamples, usedValues]
  | cons container rest ih =>
    intro c m sink
    unfold parseContainerLoop
    rcases hcpu : container.CPU with _ | ⟨_ | nano⟩
    · simp [ih, allContainerSamples, containerSamples, hcpu]
    · simp [ih, allContainerSamples, containerSamples, hcpu]
    · rcases hmem : container.Memory with _ | ⟨_ | bytes⟩
      · simp [ih, allContainerSamples, containerSamples, hcpu, hmem]
      · simp [ih, allContainerSamples, containerSamples, hcpu, hmem]
      · simp [ih, allContainerSamples, containerSamples, hcpu, hmem, usedValues_append,
          usedValues]

/-- A container that lacks its CPU usage or its memory working set leaves the loop of
`parseContainerStats` as it would be without it. -/
theorem parseContainerLoop_skip (u : DiscoveryUtil) (podMId : String)
    (container : ContainerStats) (hmiss : missingUsage container) (post : List ContainerStats) :
    ∀ (pre : List ContainerStats) (totalUsedCPU totalUsedMem : ℚ) (sink : EntityMetricSink),
      parseContainerLoop u podMId (pre ++ container :: post) totalUsedCPU totalUsedMem sink
        = parseContainerLoop u podMId (pre ++ post) totalUsedCPU totalUsedMem sink := by
  intro pre
  induction pre with
  | nil =>
    intro c m sink
    simp only [List.nil_append]
    rw [parseContainerLoop]
    rcases hmiss with h | h | h | h
    · simp [h]
    · simp [h]
    · rcases hcpu : container.CPU with _ | ⟨_ | nano⟩ <;> simp [h]
    · rcases hcpu : container.CPU with _ | ⟨_ | nano⟩ <;> simp [h]
  | cons x rest ih =>
    intro c m sink
    simp only [List.cons_append]
    rw [parseContainerLoop, parseContainerLoop]
    rcases hcpu : x.CPU with _ | ⟨_ | nano⟩
    · simp [ih]
    · simp [ih]
    · rcases hmem : x.Memory with _ | ⟨_ | bytes⟩
      · simp [ih]
      · simp [ih]
      · simp [ih]

/-- What `parsePodStats` does with a list of pods is what it does with the first pod and
then with the others. -/
theorem parsePodStats_cons (u : DiscoveryUtil) (sink : EntityMetricSink) (pod : PodStats)
    (rest : List PodStats) :
    parsePodStats u sink (pod :: rest) = parsePodStats u (parsePodStats u sink [pod]) rest := by
  rw [parsePodStats, parsePodStats]
  rcases parseContainerStats u sink pod with ⟨⟨cpuUsed, memUsed⟩, sink1⟩
  simp only [parsePodStats]

/-- C27. For every pod stats record: the entries that `parseContainerStats` adds to the
sink are the samples of the containers that report both their CPU usage and their memory
working set; the CPU total it returns is the sum of the container Used values of `CPUMili`
among them and the memory total is the sum of the container Used values of `Memory` among
them (the sum that the loop computes: from 0, in the order of the containers, by the
addition of `float64`); `parsePodStats` appends these samples and then the two totals as
the Used samples of the pod for `CPUMili` and `Memory`, followed by the pod count and the
two storage samples; and a container that lacks its CPU usage or its memory working set
changes neither the totals nor the sink: the call returns what it returns on the pod
without that container. -/
theorem parseContainerStats_totals (u : DiscoveryUtil) (sink : EntityMetricSink)
    (pod : PodStats) :
    (parseContainerStats u sink pod).2
        = { sink with entries := sink.entries
              ++ allContainerSamples u (u.PodMetricId pod.PodRef) pod.Containers }
    ∧ (parseContainerStats u sink pod).1
        = (float64Sum u (usedValues .ContainerType .CPUMili
              (allContainerSamples u (u.PodMetricId pod.PodRef) pod.Containers)),
           float64Sum u (usedValues .ContainerType .Memory
              (allContainerSamples u (u.PodMetricId pod.PodRef) pod.Containers)))
    ∧ (∃ fsCapacity fsUsed, (parsePodStats u sink [pod]).entries
        = sink.entries ++ allContainerSamples u (u.PodMetricId pod.PodRef) pod.Containers
          ++ [ .resource .PodType (u.PodMetricId pod.PodRef) .CPUMili .Used
                (.float (float64Sum u (usedValues .ContainerType .CPUMili
                  (allContainerSamples u (u.PodMetricId pod.PodRef) pod.Containers)))),
               .resource .PodType (u.PodMetricId pod.PodRef) .Memory .Used
                (.float (float64Sum u (usedValues .ContainerType .Memory
                  (allContainerSamples u (u.PodMetricId pod.PodRef) pod.Containers)))),
               .resource .PodType (u.PodMetricId pod.PodRef) .NumPods .Used (.int 1),
               .resource .PodType (u.PodMetricId pod.PodRef) .VStorage .Capacity
                (.float fsCapacity),
               .resource .PodType (u.PodMetricId pod.PodRef) .VStorage .Used
                (.float fsUsed) ])
    ∧ (∀ pre container post, pod.Containers = pre ++ container :: post →
        missingUsage container →
        parseContainerStats u sink pod
          = parseContainerStats u sink { pod with Containers := pre ++ post }) := by
  have hent := parseContainerLoop_entries u (u.PodMetricId pod.PodRef) pod.Containers 0 0 sink
  have htot := parseContainerLoop_totals u (u.PodMetricId pod.PodRef) pod.Containers 0 0 sink
  refine ⟨hent, htot, ?_, ?_⟩
  · rw [parsePodStats]
    have hpair : parseContainerStats u sink pod
        = ((float64Sum u (usedValues .ContainerType .CPUMili
              (allContainerSamples u (u.PodMetricId pod.PodRef) pod.Containers)),
            float64Sum u (usedValues .ContainerType .Memory
              (allContainerSamples u (u.PodMetricId pod.PodRef) pod.Containers))),
           { sink with entries := sink.entries
              ++ allContainerSamples u (u.PodMetricId pod.PodRef) pod.Containers }) :=
      Prod.ext htot hent
    rw [hpair]
    refine ⟨(match pod.EphemeralStorage with
            | some fs =>
              match fs.CapacityBytes with
              | some b => u.Base2BytesToMegabytes (b : ℚ)
              | none => 0
            | none => 0),
          (match pod.EphemeralStorage with
            | some fs =>
              match fs.UsedBytes with
              | some b => u.Base2BytesToMegabytes (b : ℚ)
              | none => 0
            | none => 0), ?_⟩
    simp only [parsePodStats, genUsedMetrics, genNumConsumersUsedMetrics, genFSMetrics,
      EntityMetricSink.AddNewMetricEntries, List.append_assoc, List.cons_append,
      List.nil_append]
  · intro pre container post hc hmiss
    unfold parseContainerStats
    rw [hc]
    exact parseContainerLoop_skip u _ container hmiss post pre 0 0 sink

/-- C27 on the sample pod: the sidecar lacks its CPU stats and the container `web`
reports 5000000 nanocores and 2048 bytes, so the totals are 5 millicores and 2 KiB, and
`parsePodStats` emits them after the six samples of `web`. -/
theorem parseContainerStats_totals_witness :
    (parseContainerStats sampleDiscoveryUtil sampleSink samplePodStats).1 = (5, 2)
    ∧ missingUsage { Name := "sidecar", CPU := none, Memory := some ⟨some 1024⟩ }
    ∧ samplePodStats.Containers
        = [] ++ { Name := "sidecar", CPU := none, Memory := some ⟨some 1024⟩ }
            :: [sampleContainer]
    ∧ parseContainerStats sampleDiscoveryUtil sampleSink samplePodStats
        = parseContainerStats sampleDiscoveryUtil sampleSink
            { samplePodStats with Containers := [] ++ [sampleContainer] } :=
  ⟨by
      simp [parseContainerStats, parseContainerLoop, samplePodStats, sampleContainer,
        sampleDiscoveryUtil]
      norm_num,
    Or.inl rfl, rfl,
    (parseContainerStats_totals sampleDiscoveryUtil sampleSink samplePodStats).2.2.2
      [] { Name := "sidecar", CPU := none, Memory := some ⟨some 1024⟩ } [sampleContainer]
      rfl (Or.inl rfl)⟩

/-! ## Properties of the simple retry -/

/-- With no timeout and no sleep, the loop of `RetrySimple` stops at the first invocation
that does not ask for a retry, or at the invocation that uses up the attempts, and
returns the error of that invocation. -/
theorem retrySimpleLoop_stop {σ : Type} (attempts : Int) (elapsed : Nat → Int)
    (myfunc : σ → (Bool × GoError) × σ) :
    ∀ (m fuel i calls sleeps : Nat) (s : σ), m < fuel → ((i + m : Nat) : Int) ≤ attempts - 1 →
      (∀ j, j < m → (nthTry myfunc s j).1.1 = true) →
      ((nthTry myfunc s m).1.1 = false ∨ ((i + m : Nat) : Int) = attempts - 1) →
      retrySimpleLoop attempts 0 0 elapsed myfunc fuel i calls sleeps s
        = some ⟨(nthTry myfunc s m).1.2, calls + m + 1, sleeps, (nthTry myfunc s m).2⟩ := by
  intro m
  induction m with
  | zero =>
    intro fuel i calls sleeps s hfuel hbound _ hstop
    obtain ⟨f, rfl⟩ : ∃ f, fuel = f + 1 := ⟨fuel - 1, by omega⟩
    rcases hm : myfunc s with ⟨⟨retry, e⟩, s1⟩
    cases retry with
    | false => simp [retrySimpleLoop, nthTry, hm]
    | true =>
      have hi : (i : Int) ≥ attempts - 1 := by
        rcases hstop with h | h
        · simp [nthTry, hm] at h
        · simp only [Nat.add_zero] at h; omega
      simp [retrySimpleLoop, nthTry, hm, hi]
  | succ m ih =>
    intro fuel i calls sleeps s hfuel hbound hretry hstop
    obtain ⟨f, rfl⟩ : ∃ f, fuel = f + 1 := ⟨fuel - 1, by omega⟩
    rcases hm : myfunc s with ⟨⟨retry, e⟩, s1⟩
    have h0 := hretry 0 (Nat.succ_pos _)
    simp only [nthTry, hm] at h0
    subst h0
    have hi : ¬ ((i : Int) ≥ attempts - 1) := by push_cast at hbound; omega
    have hrec := ih f (i + 1) (calls + 1) sleeps s1 (by omega)
      (by push_cast at hbound ⊢; omega)
      (fun j hj => by
        have := hretry (j + 1) (by omega)
        simpa [nthTry, hm] using this)
      (by
        rcases hstop with h | h
        · left; simpa [nthTry, hm] using h
        · right; push_cast at h ⊢; omega)
    simp only [retrySimpleLoop, hm, hi, if_false, lt_irrefl, false_and]
    rw [hrec]
    simp [nthTry, hm, Nat.add_assoc, Nat.add_comm 1 m]

/-- C28. For every attempt count `N ≥ 1`, with `timeout = 0` and `sleep = 0`: if `myfunc`
asks for a retry on its first `K - 1` calls and not on call `K ≤ N`, `RetrySimple` returns
after exactly `K` invocations with the error of call `K`, as it is (nil or not); if
`myfunc` asks for a retry on each of its first `N` calls, `RetrySimple` returns after
exactly `N` invocations with the error of call `N`, as it is, which is nil when that call
answered `(true, nil)`. -/
theorem RetrySimple_returns_last_error {σ : Type} (N : Nat) (hN : 1 ≤ N)
    (elapsed : Nat → Int) (myfunc : σ → (Bool × GoError) × σ) (s : σ) :
    (∀ K, 1 ≤ K → K ≤ N → (∀ j, j < K - 1 → (nthTry myfunc s j).1.1 = true) →
        (nthTry myfunc s (K - 1)).1.1 = false →
        ∃ run, RetrySimple (N : Int) 0 0 elapsed myfunc s = some run
          ∧ run.calls = K ∧ run.err = (nthTry myfunc s (K - 1)).1.2)
    ∧ ((∀ j, j < N → (nthTry myfunc s j).1.1 = true) →
        ∃ run, RetrySimple (N : Int) 0 0 elapsed myfunc s = some run
          ∧ run.calls = N ∧ run.err = (nthTry myfunc s (N - 1)).1.2
          ∧ ((nthTry myfunc s (N - 1)).1 = (true, none) → run.err = none)) := by
  have hfuel : (((N : Int) - 1).toNat + 1) = N := by omega
  constructor
  · intro K hK1 hKN hretry hstop
    have h := retrySimpleLoop_stop (N : Int) elapsed myfunc (K - 1) N 0 0 0 s
      (by omega) (by push_cast; omega) hretry (Or.inl hstop)
    unfold RetrySimple
    rw [hfuel, h]
    exact ⟨_, rfl, by show 0 + (K - 1) + 1 = K; omega, rfl⟩
  · intro hretry
    have h := retrySimpleLoop_stop (N : Int) elapsed myfunc (N - 1) N 0 0 0 s
      (by omega) (by push_cast; omega) (fun j hj => hretry j (by omega))
      (Or.inr (by push_cast; omega))
    unfold RetrySimple
    rw [hfuel, h]
    exact ⟨_, rfl, by show 0 + (N - 1) + 1 = N; omega, rfl, fun h2 => by
      show (nthTry myfunc s (N - 1)).1.2 = none
      rw [h2]⟩

/-- C28 at four attempts: a closure that asks for one retry is invoked twice and its
error `done` is returned; a closure that always asks for a retry is invoked four times,
and the nil error of its fourth answer is returned. -/
theorem RetrySimple_returns_last_error_witness :
    (∃ run, RetrySimple (4 : Nat) 0 0 (fun _ => 0) (retriesFirst 1) 0 = some run
        ∧ run.calls = 2 ∧ run.err = (nthTry (retriesFirst 1) 0 (2 - 1)).1.2)
    ∧ (nthTry (retriesFirst 1) 0 1).1.2 = some "done"
    ∧ (∃ run, RetrySimple (4 : Nat) 0 0 (fun _ => 0) (retriesFirst 9) 0 = some run
        ∧ run.calls = 4 ∧ run.err = (nthTry (retriesFirst 9) 0 (4 - 1)).1.2
        ∧ ((nthTry (retriesFirst 9) 0 (4 - 1)).1 = (true, none) → run.err = none))
    ∧ (nthTry (retriesFirst 9) 0 3).1 = (true, none) :=
  ⟨(RetrySimple_returns_last_error 4 (by decide) (fun _ => 0) (retriesFirst 1) 0).1 2
      (by decide) (by decide)
      (by intro j hj; interval_cases j; simp [nthTry, retriesFirst])
      (by simp [nthTry, retriesFirst]),
   by simp [nthTry, retriesFirst],
   (RetrySimple_returns_last_error 4 (by decide) (fun _ => 0) (retriesFirst 9) 0).2
      (by intro j hj; interval_cases j <;> simp [nthTry, retriesFirst]),
   by simp [nthTry, retriesFirst]⟩


/-! ## Properties of the version comparison -/

/-- Splitting never gives an empty list of pieces. -/
theorem splitChars_ne_nil (sep : Char) : ∀ cs : List Char, splitChars sep cs ≠ [] := by
  intro cs
  induction cs with
  | nil => simp [splitChars]
  | cons c cs ih =>
    unfold splitChars
    split
    · simp
    · split <;> simp

/-- Splitting at a separator: the pieces before it, then the pieces after it. -/
theorem splitChars_append_sep (sep : Char) (t : List Char) :
    ∀ cs : List Char,
      splitChars sep (cs ++ sep :: t) = splitChars sep cs ++ splitChars sep t := by
  intro cs
  induction cs with
  | nil => simp [splitChars]
  | cons c cs ih =>
    simp only [List.cons_append]
    rw [splitChars, splitChars]
    by_cases hc : c = sep
    · rw [if_pos hc, if_pos hc, ih]; rfl
    · rw [if_neg hc, if_neg hc, ih]
      rcases hs : splitChars sep cs with _ | ⟨w, ws⟩
      · exact absurd hs (splitChars_ne_nil sep cs)
      · rfl

/-- The pieces of a version string followed by `.0`. -/
theorem stringsSplit_append_zero (v : String) :
    stringsSplit (v ++ ".0") '.' = stringsSplit v '.' ++ ["0"] := by
  unfold stringsSplit
  have h : (v ++ ".0").data = v.data ++ '.' :: ['0'] := by
    rw [String.data_append]
  rw [h, splitChars_append_sep, List.map_append]
  rfl

/-- Beyond the pieces, the component is 0. -/
theorem versionComponent_beyond (a : List String) (i : Nat) (h : a.length ≤ i) :
    versionComponent a i = 0 := by
  unfold versionComponent
  rw [List.getElem?_eq_none h]

/-- A further piece `0` changes no component. -/
theorem versionComponent_append_zero (a : List String) (i : Nat) :
    versionComponent (a ++ ["0"]) i = versionComponent a i := by
  rcases Nat.lt_trichotomy i a.length with h | h | h
  · unfold versionComponent
    rw [List.getElem?_append_left h]
  · subst h
    rw [versionComponent_beyond a _ (Nat.le_refl _)]
    unfold versionComponent
    rw [List.getElem?_append_right (Nat.le_refl _)]
    simp
    decide
  · rw [versionComponent_beyond a _ (Nat.le_of_lt h),
      versionComponent_beyond _ _ (by simp; omega)]

/-- The loop of `CompareVersion` reads its arguments through their components only. -/
theorem compareVersionLoop_congr (a1 a2 c1 c2 : List String)
    (h1 : ∀ j, versionComponent a1 j = versionComponent c1 j)
    (h2 : ∀ j, versionComponent a2 j = versionComponent c2 j) :
    ∀ n i, compareVersionLoop a1 a2 n i = compareVersionLoop c1 c2 n i := by
  intro n
  induction n with
  | zero => intro i; rfl
  | succ n ih => intro i; simp only [compareVersionLoop, h1, h2, ih]

/-- Where all the components left agree, the loop of `CompareVersion` returns 0. -/
theorem compareVersionLoop_agree (a1 a2 : List String) :
    ∀ n i, (∀ j, i ≤ j → versionComponent a1 j = versionComponent a2 j) →
      compareVersionLoop a1 a2 n i = 0 := by
  intro n
  induction n with
  | zero => intro i _; rfl
  | succ n ih =>
    intro i h
    simp only [compareVersionLoop, h i (Nat.le_refl _), ne_eq, not_true_eq_false, if_false]
    exact ih (i + 1) (fun j hj => h j (by omega))

/-- Further iterations over components that agree do not change the result. -/
theorem compareVersionLoop_extend (a1 a2 : List String) (k : Nat) :
    ∀ n i, (∀ j, i + n ≤ j → versionComponent a1 j = versionComponent a2 j) →
      compareVersionLoop a1 a2 (n + k) i = compareVersionLoop a1 a2 n i := by
  intro n
  induction n with
  | zero =>
    intro i h
    simp only [Nat.zero_add]
    rw [compareVersionLoop_agree a1 a2 k i (fun j hj => h j (by omega))]
    rfl
  | succ n ih =>
    intro i h
    have hk : n + 1 + k = (n + k) + 1 := by omega
    rw [hk]
    simp only [compareVersionLoop]
    rw [ih (i + 1) (fun j hj => h j (by omega))]

/-- Any number of iterations that covers both lists of pieces gives the result of
`CompareVersion`. -/
theorem compareVersionLoop_covering (a1 a2 : List String) (m : Nat)
    (h1 : a1.length ≤ m) (h2 : a2.length ≤ m) :
    compareVersionLoop a1 a2 m 0
      = compareVersionLoop a1 a2 (if a1.length < a2.length then a2.length else a1.length) 0 := by
  have hle : (if a1.length < a2.length then a2.length else a1.length) ≤ m := by
    split <;> omega
  obtain ⟨k, hk⟩ : ∃ k, m = (if a1.length < a2.length then a2.length else a1.length) + k :=
    ⟨m - (if a1.length < a2.length then a2.length else a1.length), by omega⟩
  rw [hk]
  apply compareVersionLoop_extend
  intro j hj
  rw [versionComponent_beyond a1 j (by split at hj <;> omega),
    versionComponent_beyond a2 j (by split at hj <;> omega)]

/-- C21. For all version strings, appending `.0` to either argument of `CompareVersion`
does not change the result; `CompareVersion("1.5.0", "1.5")` is 0 and
`CompareVersion("1.4.9", "1.5")` is -1. -/
theorem CompareVersion_trailing_zero (v1 v2 : String) :
    CompareVersion (v1 ++ ".0") v2 = CompareVersion v1 v2
    ∧ CompareVersion v1 (v2 ++ ".0") = CompareVersion v1 v2
    ∧ CompareVersion "1.5.0" "1.5" = 0
    ∧ CompareVersion "1.4.9" "1.5" = -1 := by
  refine ⟨?_, ?_, by decide, by decide⟩
  · unfold CompareVersion
    simp only [stringsSplit_append_zero]
    rw [compareVersionLoop_congr (stringsSplit v1 '.' ++ ["0"]) (stringsSplit v2 '.')
      (stringsSplit v1 '.') (stringsSplit v2 '.')
      (versionComponent_append_zero _) (fun _ => rfl)]
    apply compareVersionLoop_covering
    · simp only [List.length_append, List.length_singleton]; split <;> omega
    · simp only [List.length_append, List.length_singleton]; split <;> omega
  · unfold CompareVersion
    simp only [stringsSplit_append_zero]
    rw [compareVersionLoop_congr (stringsSplit v1 '.') (stringsSplit v2 '.' ++ ["0"])
      (stringsSplit v1 '.') (stringsSplit v2 '.')
      (fun _ => rfl) (versionComponent_append_zero _)]
    apply compareVersionLoop_covering
    · simp only [List.length_append, List.length_singleton]; split <;> omega
    · simp only [List.length_append, List.length_singleton]; split <;> omega


/-- A difference within the 64-bit range is kept as it is. -/
theorem wrapInt64_id (d : Int) (h1 : -2 ^ 63 ≤ d) (h2 : d < 2 ^ 63) : wrapInt64 d = d := by
  unfold wrapInt64
  omega

/-- What `strconv.Atoi` accepts lies in the 64-bit range. -/
theorem Atoi_range (s : String) (n : Int) (h : Atoi s = some n) :
    -2 ^ 63 ≤ n ∧ n < 2 ^ 63 := by
  unfold Atoi at h
  split at h <;> split at h <;> simp at h <;> omega

/-- The component at an index is the number at that index, or 0 beyond the numbers. -/
theorem versionComponent_eq (v : String) (i : Nat) :
    versionComponent (stringsSplit v '.') i = ((versionNumbers v)[i]?).getD 0 := by
  unfold versionComponent versionNumbers
  rw [List.getElem?_map]
  rcases (stringsSplit v '.')[i]? with _ | piece
  · rfl
  · rcases h : Atoi piece with _ | n <;> simp [h]

/-- Every component lies below `2 ^ 63`. -/
theorem versionComponent_lt (a : List String) (i : Nat) : versionComponent a i < 2 ^ 63 := by
  unfold versionComponent
  rcases a[i]? with _ | piece
  · simp
  · rcases h : Atoi piece with _ | n
    · simp [h]
    · simp only [h]
      exact (Atoi_range piece n h).2

/-- The components of a version whose numbers are not negative are not negative. -/
theorem versionComponent_nonneg (v : String) (h : ∀ n ∈ versionNumbers v, 0 ≤ n) (i : Nat) :
    0 ≤ versionComponent (stringsSplit v '.') i := by
  rw [versionComponent_eq]
  rcases hi : (versionNumbers v)[i]? with _ | n
  · simp
  · exact h n (List.getElem?_mem hi)

/-- The numbers of a version padded with zeros are its components, index by index. -/
theorem padZeros_versionNumbers (v : String) (m : Nat) (hm : (versionNumbers v).length ≤ m) :
    padZeros m (versionNumbers v)
      = (List.range' 0 m).map (versionComponent (stringsSplit v '.')) := by
  apply List.ext_getElem?
  intro j
  rw [List.getElem?_map]
  unfold padZeros
  by_cases hj : j < m
  · rw [List.getElem?_range' 0 1 hj]
    simp only [Option.map_some', versionComponent_eq, Nat.zero_add, Nat.one_mul]
    by_cases hl : j < (versionNumbers v).length
    · rw [List.getElem?_append_left hl, List.getElem?_eq_getElem hl]
      rfl
    · rw [List.getElem?_append_right (by omega), List.getElem?_replicate,
        if_pos (by omega), List.getElem?_eq_none (by omega)]
      rfl
  · rw [List.getElem?_eq_none (by simp; omega), List.getElem?_eq_none (by simp; omega)]
    rfl

/-- Over components that are not negative, the sign of what the loop of `CompareVersion`
returns is the lexicographic order of the components it runs over. -/
theorem compareVersionLoop_sign (a1 a2 : List String)
    (h1 : ∀ j, 0 ≤ versionComponent a1 j) (h2 : ∀ j, 0 ≤ versionComponent a2 j) :
    ∀ n i, Int.sign (compareVersionLoop a1 a2 n i)
      = lexCompare ((List.range' i n).map (versionComponent a1))
          ((List.range' i n).map (versionComponent a2)) := by
  intro n
  induction n with
  | zero => intro i; rfl
  | succ n ih =>
    intro i
    have hb1 := versionComponent_lt a1 i
    have hb2 := versionComponent_lt a2 i
    have hn1 := h1 i
    have hn2 := h2 i
    simp only [compareVersionLoop, List.range'_succ, List.map_cons, lexCompare]
    by_cases hlt : versionComponent a1 i < versionComponent a2 i
    · rw [if_pos (by omega), if_pos hlt, wrapInt64_id _ (by omega) (by omega)]
      exact Int.sign_eq_neg_one_of_neg (by omega)
    · by_cases hgt : versionComponent a2 i < versionComponent a1 i
      · rw [if_pos (by omega), if_neg hlt, if_pos hgt, wrapInt64_id _ (by omega) (by omega)]
        exact Int.sign_eq_one_of_pos (by omega)
      · rw [if_neg (by omega), if_neg hlt, if_neg hgt]
        exact ih (i + 1)

/-- C22, amended to version strings whose components are not negative (a component that
`strconv.Atoi` rejects being read as 0): the result of `CompareVersion`, computed in 64
bits, is negative, zero or positive exactly when the component sequence of the first
string is less than, equal to or greater than that of the second in the lexicographic
numeric order, the shorter sequence being padded with zeros. -/
theorem CompareVersion_sign (v1 v2 : String)
    (h1 : ∀ n ∈ versionNumbers v1, 0 ≤ n) (h2 : ∀ n ∈ versionNumbers v2, 0 ≤ n) :
    Int.sign (CompareVersion v1 v2) = versionOrder v1 v2 := by
  unfold CompareVersion versionOrder
  have hl1 : (versionNumbers v1).length = (stringsSplit v1 '.').length := by
    simp [versionNumbers]
  have hl2 : (versionNumbers v2).length = (stringsSplit v2 '.').length := by
    simp [versionNumbers]
  have hmax : max (versionNumbers v1).length (versionNumbers v2).length
      = if (stringsSplit v1 '.').length < (stringsSplit v2 '.').length
        then (stringsSplit v2 '.').length else (stringsSplit v1 '.').length := by
    rw [hl1, hl2]; split <;> omega
  simp only [hmax]
  rw [padZeros_versionNumbers v1 _ (by rw [hl1]; split <;> omega),
    padZeros_versionNumbers v2 _ (by rw [hl2]; split <;> omega)]
  exact compareVersionLoop_sign _ _ (versionComponent_nonneg v1 h1)
    (versionComponent_nonneg v2 h2) _ 0

/-- C22, amended, on the versions `1.4.9` and `1.5`, which compare as less. -/
theorem CompareVersion_sign_witness :
    (∀ n ∈ versionNumbers "1.4.9", 0 ≤ n) ∧ (∀ n ∈ versionNumbers "1.5", 0 ≤ n)
    ∧ versionOrder "1.4.9" "1.5" = -1
    ∧ Int.sign (CompareVersion "1.4.9" "1.5") = versionOrder "1.4.9" "1.5" :=
  ⟨by decide, by decide, by decide,
    CompareVersion_sign "1.4.9" "1.5" (by decide) (by decide)⟩

/-- C22, as stated, fails where the subtraction overflows. The components
`9223372036854775807` and `-1` are both accepted by `strconv.Atoi`, the first version is
the greater one, and `CompareVersion` returns their difference `2 ^ 63` wrapped to 64
bits, which is negative. -/
theorem CompareVersion_overflow_negative :
    (∀ piece ∈ stringsSplit "9223372036854775807" '.', (Atoi piece).isSome = true)
    ∧ (∀ piece ∈ stringsSplit "-1" '.', (Atoi piece).isSome = true)
    ∧ versionOrder "9223372036854775807" "-1" = 1
    ∧ CompareVersion "9223372036854775807" "-1" = -9223372036854775808 := by
  decide


/-! ## Properties of the flags -/

/-- C23 fails: `checkFlag` accepts a server that asks for 100 samples one second apart,
although the help text of the two flags says that the samples should be no more than 60
and the interval no less than 10 seconds; at a start where every step succeeds, `Run`
hands both settings to the configuration of the discovery as they are. A start whose
step fails ends the process before that. -/
theorem checkFlag_accepts_unbounded_sampling :
    checkFlag sampleParseIP sampleVMTServer = none
    ∧ Run sampleParseIP sampleStartup sampleVMTServer
        = .configured { DiscoverySamples := 100, DiscoverySampleIntervalSec := 1 }
    ∧ ¬ ((100 : Int) ≤ 60) ∧ ¬ ((10 : Int) ≤ 1)
    ∧ Run sampleParseIP { sampleStartup with NewKubeClient := some "no route to host" }
          sampleVMTServer
        = .exited "Fatal error: failed to create kubeClient:no route to host" := by
  decide

/-- Method `checkFlag` accepts a configuration exactly when its address is an IP address,
its port is at least 1 and its kubelet port is at least 1; the two settings of the data
sampling play no part in that. -/
theorem checkFlag_none_iff (ParseIP : String → Bool) (s : VMTServer) :
    (checkFlag ParseIP s = none
      ↔ ParseIP s.Address = true ∧ 1 ≤ s.Port ∧ 1 ≤ s.KubeletPort)
    ∧ (∀ samples interval : Int,
        checkFlag ParseIP
            { s with DiscoverySamples := samples, DiscoverySampleIntervalSec := interval }
          = checkFlag ParseIP s) := by
  refine ⟨?_, fun _ _ => rfl⟩
  unfold checkFlag
  constructor
  · intro h
    split at h
    · simp at h
    · rename_i hip
      split at h
      · simp at h
      · split at h
        · simp at h
        · simp at hip
          exact ⟨hip, by omega, by omega⟩
  · rintro ⟨hip, hp, hk⟩
    rw [if_neg (by simp [hip]), if_neg (by omega), if_neg (by omega)]

/-! ## Properties of the management of the SCCs -/

/-- A property of the state of the closure that holds at the start and that every
invocation keeps holds when the retry loop returns. -/
theorem retryDuringLoop_invariant {σ : Type} (attempts timeout sleep : Int)
    (elapsed : Nat → Int) (fmtDur : Int → String) (myfunc : σ → GoError × σ)
    (P : σ → Prop) (hstep : ∀ s, P s → P (myfunc s).2) :
    ∀ (fuel i calls sleeps : Nat) (s : σ) (run : RetryRun σ), P s →
      retryDuringLoop attempts timeout sleep elapsed fmtDur myfunc fuel i calls sleeps s
        = some run → P run.state := by
  intro fuel
  induction fuel with
  | zero => intro i calls sleeps s run _ h; simp [retryDuringLoop] at h
  | succ f ih =>
    intro i calls sleeps s run hP h
    have hs := hstep s hP
    rcases hm : myfunc s with ⟨e, s1⟩
    rw [hm] at hs
    rcases e with _ | msg
    · simp only [retryDuringLoop, hm, Option.some.injEq] at h
      subst h; exact hs
    · simp only [retryDuringLoop, hm] at h
      split at h
      · simp only [Option.some.injEq] at h; subst h; exact hs
      · split at h
        · simp only [Option.some.injEq] at h; subst h; exact hs
        · exact ih _ _ _ s1 run hs h

/-- The retry with the transient settings returns what the loop of `RetryDuring`
returns. -/
theorem retryTransient_returns {σ : Type} (myfunc : σ → GoError × σ) (s : σ) :
    RetryDuring TransientRetryTimes 0 QuickRetryInterval (fun _ => 0) (fun _ => "") myfunc s
      = some (retryTransient myfunc s) := by
  obtain ⟨run, hrun, _, _⟩ := retryDuringLoop_calls_le TransientRetryTimes 0
    QuickRetryInterval (fun _ => 0) (fun _ => "") myfunc
    ((TransientRetryTimes - 1).toNat + 1) 0 0 0 s (by simp [TransientRetryTimes])
  unfold retryTransient RetryDuring
  rw [hrun]

/-- A property that every invocation keeps holds after the retry with the transient
settings. -/
theorem retryTransient_invariant {σ : Type} (myfunc : σ → GoError × σ) (P : σ → Prop)
    (hstep : ∀ s, P s → P (myfunc s).2) (s : σ) (hP : P s) :
    P (retryTransient myfunc s).state :=
  retryDuringLoop_invariant _ _ _ _ _ myfunc P hstep _ _ _ _ s _ hP
    (retryTransient_returns myfunc s)

/-- When the first invocation succeeds, the retry with the transient settings makes no
other. -/
theorem retryTransient_first {σ : Type} (myfunc : σ → GoError × σ) (s s1 : σ)
    (h : myfunc s = (none, s1)) : retryTransient myfunc s = ⟨none, 1, 0, s1⟩ := by
  have h5 : ((TransientRetryTimes - 1).toNat + 1) = 4 + 1 := by decide
  unfold retryTransient RetryDuring
  rw [h5]
  simp [retryDuringLoop, h]

/-- While every `Get` fails, the pointer `scc` stays nil and nothing is handed to
`Update`. -/
theorem getSCC_fails {σ : Type} (client : SCCClient σ) (sccName : String)
    (hget : ∀ server, ∃ err server1, client.Get sccName server = (.error err, server1))
    (server : σ) :
    (retryTransient (getSCC client sccName) ⟨server, none, 0, [], none⟩).state.scc = none
    ∧ (retryTransient (getSCC client sccName) ⟨server, none, 0, [], none⟩).state.updates = [] := by
  apply retryTransient_invariant (getSCC client sccName)
    (fun session => session.scc = none ∧ session.updates = [])
  · intro session hs
    obtain ⟨err, server1, h⟩ := hget session.server
    simp [getSCC, h, hs.2]
  · exact ⟨rfl, rfl⟩

/-- When every `Get` of the SCC fails, `addUserToSCC` and `removeUserFromSCC` do not
return: each dereferences the nil pointer, having handed nothing to `Update`. -/
theorem unfetched_scc_dereferenced {σ : Type} (client : SCCClient σ)
    (userFullName sccName : String)
    (hget : ∀ server, ∃ err server1, client.Get sccName server = (.error err, server1))
    (server : σ) :
    (addUserToSCC userFullName sccName client server).result
        = .panic "invalid memory address or nil pointer dereference"
    ∧ (addUserToSCC userFullName sccName client server).updates = []
    ∧ (removeUserFromSCC userFullName sccName client server).result
        = .panic "invalid memory address or nil pointer dereference"
    ∧ (removeUserFromSCC userFullName sccName client server).updates = [] := by
  obtain ⟨hscc, hupd⟩ := getSCC_fails client sccName hget server
  unfold addUserToSCC removeUserFromSCC
  simp only [hscc, SCCSession.ends, hupd, and_self]

/-- C29 fails: with an API server that cannot be reached, every one of the five `Get`
calls of `addUserToSCC` fails, the error of the retry is not read, and the function then
reads `scc.Object` through the nil pointer: it panics instead of returning an error. The
same holds of `removeUserFromSCC`. No `Update` is issued by either. -/
theorem addUserToSCC_get_error_unread :
    (addUserToSCC "system:serviceaccount:turbo:kubeturbo-scc-restricted" "restricted"
        sccUnreachable ()).result = .panic "invalid memory address or nil pointer dereference"
    ∧ (addUserToSCC "system:serviceaccount:turbo:kubeturbo-scc-restricted" "restricted"
        sccUnreachable ()).gets = 5
    ∧ (addUserToSCC "system:serviceaccount:turbo:kubeturbo-scc-restricted" "restricted"
        sccUnreachable ()).updates = []
    ∧ (removeUserFromSCC "system:serviceaccount:turbo:kubeturbo-scc-restricted" "restricted"
        sccUnreachable ()).result = .panic "invalid memory address or nil pointer dereference"
    ∧ (removeUserFromSCC "system:serviceaccount:turbo:kubeturbo-scc-restricted" "restricted"
        sccUnreachable ()).gets = 5
    ∧ (removeUserFromSCC "system:serviceaccount:turbo:kubeturbo-scc-restricted" "restricted"
        sccUnreachable ()).updates = [] :=
  ⟨by decide, by decide, rfl, by decide, by decide, rfl⟩


/-- When the first `Update` fails, the retry hands the nil pointer it left in `scc` to the
second `Update`: on the server that refuses every update, `addUserToSCC` panics after one
`Get`, one `Update` of an object and one `Update` of nil. -/
theorem addUserToSCC_refused_update_panics :
    (addUserToSCC "bob" "restricted" sccReadOnly sampleSCCServer).result
        = .panic "invalid memory address or nil pointer dereference"
    ∧ (addUserToSCC "bob" "restricted" sccReadOnly sampleSCCServer).gets = 1
    ∧ ((addUserToSCC "bob" "restricted" sccReadOnly sampleSCCServer).updates.map
        Option.isSome) = [true, false] :=
  ⟨by decide, by decide, by decide⟩

/-- Reading a key just assigned gives the value assigned. -/
theorem mapGet_mapSet_same (k : String) (v : JVal) :
    ∀ m : JMap, mapGet (mapSet m k v) k = some v := by
  intro m
  induction m with
  | nil => simp [mapSet, mapGet, List.lookup]
  | cons kv rest ih =>
    rcases kv with ⟨k0, v0⟩
    unfold mapSet
    by_cases h : k0 = k
    · simp [h, mapGet, List.lookup]
    · have hne : (k == k0) = false := by simpa using fun h2 => h h2.symm
      simp only [h, if_false, mapGet, List.lookup, hne]
      exact ih

/-- Reading another key than the one just assigned gives what it gave before. -/
theorem mapGet_mapSet_ne (k k1 : String) (v : JVal) (hne : k ≠ k1) :
    ∀ m : JMap, mapGet (mapSet m k v) k1 = mapGet m k1 := by
  intro m
  induction m with
  | nil =>
    have h : (k1 == k) = false := by simpa using fun h2 => hne h2.symm
    simp [mapSet, mapGet, List.lookup, h]
  | cons kv rest ih =>
    rcases kv with ⟨k0, v0⟩
    unfold mapSet
    by_cases h : k0 = k
    · subst h
      have h2 : (k1 == k0) = false := by simpa using fun h2 => hne h2.symm
      simp [mapGet, List.lookup, h2]
    · simp only [h, if_false, mapGet, List.lookup]
      cases (k1 == k0)
      · exact ih
      · rfl

/-- The strings of a slice made of strings. -/
theorem stringSliceOf_map (xs : List String) : stringSliceOf (xs.map .str) = some xs := by
  induction xs with
  | nil => rfl
  | cons x rest ih => simp [stringSliceOf, ih]

/-- The users read from an object whose `users` were just set are the users set. -/
theorem NestedStringSlice_set (obj : JMap) (xs : List String) :
    NestedStringSlice (mapSet obj "users" (.arr (xs.map .str))) ["users"] = (xs, true, none) := by
  simp [NestedStringSlice, NestedFieldNoCopy, mapGet_mapSet_same, stringSliceOf_map]

/-- Setting the `users` of an object does not change its name. -/
theorem GetName_set_users (obj : JMap) (v : JVal) :
    (Unstructured.mk (mapSet obj "users" v)).GetName = (Unstructured.mk obj).GetName := by
  simp [Unstructured.GetName, NestedString, NestedFieldNoCopy,
    mapGet_mapSet_ne "users" "metadata" v (by decide)]

/-- The loop of `addUserToSCC` returns early exactly when the user is in the list. -/
theorem userListed_iff (user : String) :
    ∀ users : List String, userListed user users = true ↔ user ∈ users := by
  intro users
  induction users with
  | nil => simp [userListed]
  | cons x rest ih =>
    unfold userListed
    by_cases h : user = x
    · simp [h]
    · simp [h, ih]

/-- The loop of `removeUserFromSCC` appends the other users, in order, and finds the
user exactly when it is in the list. -/
theorem removeUserLoop_spec (user : String) :
    ∀ (users updatedUsers : List String) (found : Bool),
      removeUserLoop user users updatedUsers found
        = (updatedUsers ++ users.filter (fun other => decide (other ≠ user)),
           found || decide (user ∈ users)) := by
  intro users
  induction users with
  | nil => intro acc found; simp [removeUserLoop]
  | cons x rest ih =>
    intro acc found
    unfold removeUserLoop
    by_cases h : user = x
    · subst h
      simp [ih]
    · have h2 : x ≠ user := fun h3 => h h3.symm
      simp [h, h2, ih, List.filter_cons]


/-- On the store, the closure that fetches the SCC held under the name succeeds. -/
theorem getSCC_store (server : String → Option Unstructured) (sccName : String)
    (scc : Unstructured) (hheld : server sccName = some scc) :
    getSCC sccStore sccName ⟨server, none, 0, [], none⟩ = (none, ⟨server, some scc, 1, [], none⟩) := by
  simp [getSCC, sccStore, hheld]

/-- On the store, the closure that writes back an object whose name is held succeeds and
replaces the object held. -/
theorem updateSCC_store (server : String → Option Unstructured) (sccName : String)
    (held obj : Unstructured) (hheld : server sccName = some held)
    (hname : obj.GetName = sccName) :
    updateSCC sccStore ⟨server, some obj, 1, [], none⟩
      = (none, ⟨fun name => if name = sccName then some obj else server name,
          some obj, 1, [some obj], none⟩) := by
  simp [updateSCC, sccStore, hname, hheld]

/-- On the store, `addUserToSCC` of a user that is not among the users of the SCC held
under the name issues one `Get` and one `Update`, of the SCC with the user appended. -/
theorem addUserToSCC_store_fresh (server : String → Option Unstructured)
    (sccName user : String) (scc : Unstructured) (users : List String) (found : Bool)
    (hheld : server sccName = some scc) (hname : scc.GetName = sccName)
    (husers : NestedStringSlice scc.Object ["users"] = (users, found, none))
    (hfresh : user ∉ users) :
    addUserToSCC user sccName sccStore server
      = ⟨.ret none, 1,
          [some ⟨mapSet scc.Object "users" (.arr ((users ++ [user]).map .str))⟩],
          fun name => if name = sccName
            then some ⟨mapSet scc.Object "users" (.arr ((users ++ [user]).map .str))⟩
            else server name⟩ := by
  have hl : userListed user users = false := by
    rw [← Bool.not_eq_true, userListed_iff]; exact hfresh
  have hn : (Unstructured.mk (mapSet scc.Object "users"
      (.arr ((users ++ [user]).map .str)))).GetName = sccName := by
    rw [GetName_set_users]; exact hname
  have hget := getSCC_store server sccName scc hheld
  have hupd := updateSCC_store server sccName scc _ hheld hn
  unfold addUserToSCC
  rw [retryTransient_first _ _ _ hget]
  simp only [husers, hl, SetNestedStringSlice, setNestedFieldNoCopy, Bool.false_eq_true,
    if_false]
  rw [retryTransient_first _ _ _ hupd]
  rfl

/-- On the store, `removeUserFromSCC` of a user that is among the users of the SCC held
under the name issues one `Get` and one `Update`, of the SCC without any occurrence of
the user. -/
theorem removeUserFromSCC_store_listed (server : String → Option Unstructured)
    (sccName user : String) (scc : Unstructured) (users : List String)
    (hheld : server sccName = some scc) (hname : scc.GetName = sccName)
    (husers : NestedStringSlice scc.Object ["users"] = (users, true, none))
    (hlisted : user ∈ users) :
    removeUserFromSCC user sccName sccStore server
      = ⟨.ret none, 1,
          [some ⟨mapSet scc.Object "users"
            (.arr ((users.filter (fun other => decide (other ≠ user))).map .str))⟩],
          fun name => if name = sccName
            then some ⟨mapSet scc.Object "users"
              (.arr ((users.filter (fun other => decide (other ≠ user))).map .str))⟩
            else server name⟩ := by
  have hn : (Unstructured.mk (mapSet scc.Object "users"
      (.arr ((users.filter (fun other => decide (other ≠ user))).map .str)))).GetName
        = sccName := by
    rw [GetName_set_users]; exact hname
  have hget := getSCC_store server sccName scc hheld
  have hupd := updateSCC_store server sccName scc _ hheld hn
  have hlen : ¬ (users.length < 1) := by
    cases users with
    | nil => simp at hlisted
    | cons x rest => simp
  have hloop : removeUserLoop user users [] false
      = (users.filter (fun other => decide (other ≠ user)), true) := by
    rw [removeUserLoop_spec]; simp [hlisted]
  unfold removeUserFromSCC
  rw [retryTransient_first _ _ _ hget]
  simp only [husers, hloop, hlen, SetNestedStringSlice, setNestedFieldNoCopy, Bool.not_true,
    Bool.false_or, decide_False, Bool.false_eq_true, if_false]
  rw [retryTransient_first _ _ _ hupd]
  rfl

/-- On the store, `addUserToSCC` of a user that is among the users of the SCC held under
the name issues one `Get` and no `Update`. -/
theorem addUserToSCC_store_listed (server : String → Option Unstructured)
    (sccName user : String) (scc : Unstructured) (users : List String) (found : Bool)
    (hheld : server sccName = some scc)
    (husers : NestedStringSlice scc.Object ["users"] = (users, found, none))
    (hlisted : user ∈ users) :
    addUserToSCC user sccName sccStore server = ⟨.ret none, 1, [], server⟩ := by
  have hl : userListed user users = true := (userListed_iff user users).mpr hlisted
  unfold addUserToSCC
  rw [retryTransient_first _ _ _ (getSCC_store server sccName scc hheld)]
  simp only [husers, hl, if_true]
  rfl

/-- Users that were read without the field having been found are none. -/
theorem NestedStringSlice_not_found (obj : JMap) (fields : List String)
    (users : List String) (err : GoError)
    (h : NestedStringSlice obj fields = (users, false, err)) : users = [] := by
  unfold NestedStringSlice at h
  split at h
  · split at h
    · split at h
      · simp at h
      · simp only [Prod.mk.injEq] at h; exact h.1.symm
    · simp only [Prod.mk.injEq] at h; exact h.1.symm
  · simp only [Prod.mk.injEq] at h; exact h.1.symm

/-- C30. On an API server that holds the SCCs by name, for every SCC, every list of
users it carries and every user name: if the user is not in the list, `addUserToSCC`
issues one update, of the SCC with the user appended at the end of the list, and
`removeUserFromSCC` after it issues one update, of the SCC with the original list in the
original order, both returning nil and leaving the other objects as they were; if the
user is in the list, `addUserToSCC` issues no update and returns nil, and
`removeUserFromSCC` issues one update, of the SCC with every occurrence of the user
deleted and the other users kept in order. -/
theorem addUserToSCC_removeUserFromSCC_inverse (server : String → Option Unstructured)
    (sccName user : String) (scc : Unstructured) (users : List String) (found : Bool)
    (hheld : server sccName = some scc) (hname : scc.GetName = sccName)
    (husers : NestedStringSlice scc.Object ["users"] = (users, found, none)) :
    (user ∉ users →
      ∃ added restored,
        (addUserToSCC user sccName sccStore server).result = .ret none
        ∧ (addUserToSCC user sccName sccStore server).updates = [some added]
        ∧ (addUserToSCC user sccName sccStore server).server sccName = some added
        ∧ NestedStringSlice added.Object ["users"] = (users ++ [user], true, none)
        ∧ (removeUserFromSCC user sccName sccStore
            (addUserToSCC user sccName sccStore server).server).result = .ret none
        ∧ (removeUserFromSCC user sccName sccStore
            (addUserToSCC user sccName sccStore server).server).updates = [some restored]
        ∧ (removeUserFromSCC user sccName sccStore
            (addUserToSCC user sccName sccStore server).server).server sccName = some restored
        ∧ NestedStringSlice restored.Object ["users"] = (users, true, none)
        ∧ ∀ name, name ≠ sccName →
            (removeUserFromSCC user sccName sccStore
              (addUserToSCC user sccName sccStore server).server).server name = server name)
    ∧ (user ∈ users →
      (addUserToSCC user sccName sccStore server).result = .ret none
      ∧ (addUserToSCC user sccName sccStore server).updates = []
      ∧ ∃ removed,
        (removeUserFromSCC user sccName sccStore server).result = .ret none
        ∧ (removeUserFromSCC user sccName sccStore server).updates = [some removed]
        ∧ (removeUserFromSCC user sccName sccStore server).server sccName = some removed
        ∧ NestedStringSlice removed.Object ["users"]
            = (users.filter (fun other => decide (other ≠ user)), true, none)) := by
  constructor
  · intro hfresh
    have hadd := addUserToSCC_store_fresh server sccName user scc users found hheld hname
      husers hfresh
    have hfilter : (users ++ [user]).filter (fun other => decide (other ≠ user)) = users := by
      rw [List.filter_append, List.filter_eq_self.mpr (fun x hx => by
        simp only [decide_eq_true_eq]; rintro rfl; exact hfresh hx)]
      simp
    have hrem := removeUserFromSCC_store_listed
      (fun name => if name = sccName
        then some ⟨mapSet scc.Object "users" (.arr ((users ++ [user]).map .str))⟩
        else server name)
      sccName user ⟨mapSet scc.Object "users" (.arr ((users ++ [user]).map .str))⟩
      (users ++ [user]) (if_pos rfl) (by rw [GetName_set_users]; exact hname)
      (NestedStringSlice_set _ _) (by simp)
    rw [hfilter] at hrem
    have hrem1 : removeUserFromSCC user sccName sccStore
        (addUserToSCC user sccName sccStore server).server
          = ⟨.ret none, 1, [some ⟨mapSet (mapSet scc.Object "users"
              (.arr ((users ++ [user]).map .str))) "users" (.arr (users.map .str))⟩],
            fun name => if name = sccName
              then some ⟨mapSet (mapSet scc.Object "users"
                (.arr ((users ++ [user]).map .str))) "users" (.arr (users.map .str))⟩
              else if name = sccName
                then some ⟨mapSet scc.Object "users" (.arr ((users ++ [user]).map .str))⟩
                else server name⟩ := by
      rw [hadd]; exact hrem
    rw [hrem1, hadd]
    refine ⟨_, _, rfl, rfl, if_pos rfl, NestedStringSlice_set _ _, rfl, rfl, if_pos rfl,
      NestedStringSlice_set _ _, fun name hne => ?_⟩
    show (if name = sccName then _ else if name = sccName then _ else server name) = server name
    rw [if_neg hne, if_neg hne]
  · intro hlisted
    have hfound : found = true := by
      cases found with
      | true => rfl
      | false =>
        have := NestedStringSlice_not_found _ _ _ _ husers
        subst this
        simp at hlisted
    subst hfound
    rw [addUserToSCC_store_listed server sccName user scc users true hheld husers hlisted,
      removeUserFromSCC_store_listed server sccName user scc users hheld hname husers hlisted]
    exact ⟨rfl, rfl, _, rfl, rfl, if_pos rfl, NestedStringSlice_set _ _⟩

/-- C30 on the SCC `restricted`, whose users are `system:admin` and `alice`: adding
`bob` and removing it again restores the two users. -/
theorem addUserToSCC_removeUserFromSCC_inverse_witness :
    "bob" ∉ ["system:admin", "alice"]
    ∧ ∃ added restored,
        (addUserToSCC "bob" "restricted" sccStore sampleSCCServer).result = .ret none
        ∧ (addUserToSCC "bob" "restricted" sccStore sampleSCCServer).updates = [some added]
        ∧ (addUserToSCC "bob" "restricted" sccStore sampleSCCServer).server "restricted"
            = some added
        ∧ NestedStringSlice added.Object ["users"]
            = (["system:admin", "alice"] ++ ["bob"], true, none)
        ∧ (removeUserFromSCC "bob" "restricted" sccStore
            (addUserToSCC "bob" "restricted" sccStore sampleSCCServer).server).result
              = .ret none
        ∧ (removeUserFromSCC "bob" "restricted" sccStore
            (addUserToSCC "bob" "restricted" sccStore sampleSCCServer).server).updates
              = [some restored]
        ∧ (removeUserFromSCC "bob" "restricted" sccStore
            (addUserToSCC "bob" "restricted" sccStore sampleSCCServer).server).server
              "restricted" = some restored
        ∧ NestedStringSlice restored.Object ["users"]
            = (["system:admin", "alice"], true, none)
        ∧ ∀ name, name ≠ "restricted" →
            (removeUserFromSCC "bob" "restricted" sccStore
              (addUserToSCC "bob" "restricted" sccStore sampleSCCServer).server).server name
                = sampleSCCServer name :=
  ⟨by decide,
    (addUserToSCC_removeUserFromSCC_inverse sampleSCCServer "restricted" "bob" sampleSCC
      ["system:admin", "alice"] true rfl (by decide) rfl).1 (by decide)⟩


/-- The name that `createSCCServiceAccount` returns is the prefix followed by the name of
the SCC. -/
theorem createSCCServiceAccount_name {σ : Type} (ns sccName : String)
    (kubeClient : ServiceAccountClient σ) (server : σ) :
    (createSCCServiceAccount ns sccName kubeClient server).1 = kubeturboSCCPrefix ++ sccName :=
  rfl

/-- Whatever the loop of `manageSCCs` does, an entry of `util.SCCMapping` after it is the
entry before it or the prefix followed by the key. -/
theorem manageSCCsLoop_entries {σ : Type} (ns : String) (dynClient : SCCClient σ)
    (kubeClient : ServiceAccountClient σ) :
    ∀ (items : List Unstructured) (vars vars1 : SCCManagement σ) (done : Bool),
      manageSCCsLoop ns dynClient kubeClient items vars = .ret (done, vars1) →
      ∀ key, vars1.SCCMapping key = vars.SCCMapping key
        ∨ vars1.SCCMapping key = some (kubeturboSCCPrefix ++ key) := by
  intro items
  induction items with
  | nil =>
    intro vars vars1 done h key
    simp only [manageSCCsLoop, GoResult.ret.injEq, Prod.mk.injEq] at h
    rw [← h.2]; exact Or.inl rfl
  | cons scc rest ih =>
    intro vars vars1 done h key
    unfold manageSCCsLoop at h
    simp only at h
    split at h
    · simp only [GoResult.ret.injEq, Prod.mk.injEq] at h
      rw [← h.2]; exact Or.inl rfl
    · rename_i saName server1 hsa
      have hname : saName = kubeturboSCCPrefix ++ scc.GetName := by
        have := createSCCServiceAccount_name ns scc.GetName kubeClient vars.server
        rw [hsa] at this; exact this
      split at h
      · simp at h
      · simp only [GoResult.ret.injEq, Prod.mk.injEq] at h
        rw [← h.2]; exact Or.inl rfl
      · rcases ih _ _ _ h key with h1 | h1
        · by_cases hk : key = scc.GetName
          · right; rw [h1]; simp only [hk, if_true, hname]
          · left; rw [h1]; simp only [hk, if_false]
        · exact Or.inr h1

/-- When the loop of `manageSCCs` runs to its end, the entry of `util.SCCMapping` for
each SCC of the list is the prefix followed by the name of the SCC. -/
theorem manageSCCsLoop_done {σ : Type} (ns : String) (dynClient : SCCClient σ)
    (kubeClient : ServiceAccountClient σ) :
    ∀ (items : List Unstructured) (vars vars1 : SCCManagement σ),
      manageSCCsLoop ns dynClient kubeClient items vars = .ret (true, vars1) →
      ∀ scc ∈ items,
        vars1.SCCMapping scc.GetName = some (kubeturboSCCPrefix ++ scc.GetName) := by
  intro items
  induction items with
  | nil => intro vars vars1 _ scc hmem; simp at hmem
  | cons first rest ih =>
    intro vars vars1 h scc hmem
    have h0 := h
    unfold manageSCCsLoop at h
    simp only at h
    split at h
    · simp at h
    · rename_i saName server1 hsa
      have hname : saName = kubeturboSCCPrefix ++ first.GetName := by
        have := createSCCServiceAccount_name ns first.GetName kubeClient vars.server
        rw [hsa] at this; exact this
      split at h
      · simp at h
      · simp at h
      · rcases List.mem_cons.mp hmem with rfl | hrest
        · rcases manageSCCsLoop_entries ns dynClient kubeClient rest _ _ _ h scc.GetName
            with h1 | h1
          · rw [h1]; simp only [if_true, hname]
          · exact h1
        · exact ih _ _ h scc hrest

/-- C24 fails. In the namespace `turbo`, with an API server that holds the SCC
`restricted` and clients that succeed, the loop of `manageSCCs` runs to its end and
leaves `kubeturbo-scc-restricted` in `util.SCCMapping` under `restricted`: the bare name
of the service account and not `userFullName("turbo", "kubeturbo-scc-restricted")`, the
format that the comment on `SCCMapping` gives. -/
theorem manageSCCs_mapping_not_full_name :
    ∃ vars, manageSCCsLoop "turbo" sccStore sampleServiceAccounts [sampleSCC]
        ⟨sampleSCCServer, fun _ => none, []⟩ = .ret (true, vars)
      ∧ vars.SCCMapping "restricted" = some "kubeturbo-scc-restricted"
      ∧ userFullName "turbo" ("kubeturbo-scc-" ++ "restricted")
          = "system:serviceaccount:turbo:kubeturbo-scc-restricted"
      ∧ vars.SCCMapping "restricted"
          ≠ some (userFullName "turbo" ("kubeturbo-scc-" ++ "restricted")) :=
  ⟨_, rfl, by decide, by decide, by decide⟩

end Kubeturbo
